import Mathlib

/-!
Verification of the walk-in clinic discrete-event simulation
(`main.py`, `main_nonstationary.py`, `staffing_optimizer.py`).

The simulation engine layer (`SimClasses`, `SimFunctions`) and the variate
source (`SimRNG`) are external collaborators that are not part of the
repository sources; following the specification, they are modelled from the
spec (each such definition carries a doc comment starting with
`Modelled from the spec:`).  All clinic logic (`Patient`, the station
handlers, the arrival generators, the replication harness, the
confidence-interval routine, the arrival-data loader and the service-level
checks) is translated directly from the Python sources.

Simulated time and all variates are represented as rationals so that every
definition is executable and concrete runs can be checked by `decide`.
-/

namespace Clinic

/-- Modelled from the spec: the uniform-random generator and its
distribution transforms (`SimRNG`) are out of scope; a stream is an oracle
sequence of variate values together with a cursor.  Each call of the form
`SimRNG.Expon`, `SimRNG.Lognormal`, `SimRNG.Normal` or `SimRNG.lcgrand`
on stream `S` yields the next oracle value of `S`. -/
structure VarStream where
  vals : ℕ → ℚ
  idx : ℕ

/-- Draw the next variate from a stream, advancing the cursor. -/
def VarStream.next (st : VarStream) : ℚ × VarStream :=
  (st.vals st.idx, ⟨st.vals, st.idx + 1⟩)

/-- The eight named random streams of `main.py` (stream assignments 1-8). -/
structure RNG where
  arrival : VarStream
  triage : VarStream
  registration : VarStream
  examination : VarStream
  trauma : VarStream
  treatment : VarStream
  traumaDecision : VarStream
  dischargeDecision : VarStream

/-- The oracle value sequences of two stream banks agree (cursors may differ). -/
def StreamValsEq (r r' : RNG) : Prop :=
  r.arrival.vals = r'.arrival.vals ∧
  r.triage.vals = r'.triage.vals ∧
  r.registration.vals = r'.registration.vals ∧
  r.examination.vals = r'.examination.vals ∧
  r.trauma.vals = r'.trauma.vals ∧
  r.treatment.vals = r'.treatment.vals ∧
  r.traumaDecision.vals = r'.traumaDecision.vals ∧
  r.dischargeDecision.vals = r'.dischargeDecision.vals

/-- Modelled from the spec: `SimClasses.CTStat`, the continuous
time-weighted accumulator (area under the curve of the recorded value,
plus a running maximum). -/
structure CTStat where
  area : ℚ
  tlast : ℚ
  xlast : ℚ
  maxValue : ℚ
deriving DecidableEq

/-- Modelled from the spec: recording a new value integrates the previous
value over the elapsed interval and updates the running maximum. -/
def CTStat.record (clock x : ℚ) (c : CTStat) : CTStat :=
  { area := c.area + c.xlast * (clock - c.tlast)
    tlast := clock
    xlast := x
    maxValue := max c.maxValue x }

/-- Modelled from the spec: the zero/empty collector state. -/
def CTStat.init : CTStat := ⟨0, 0, 0, 0⟩

/-- Modelled from the spec: time-average of the recorded value over
elapsed simulated time. -/
def CTStat.mean (clock : ℚ) (c : CTStat) : ℚ :=
  if clock = 0 then 0 else (c.area + c.xlast * (clock - c.tlast)) / clock

/-- Modelled from the spec: `SimClasses.DTStat`, the discrete-observation
accumulator (sum, sum of squares, observation count). -/
structure DTStat where
  sumStat : ℚ
  sumSquared : ℚ
  numberOfObservations : ℕ
deriving DecidableEq

/-- Modelled from the spec: record one observation. -/
def DTStat.record (x : ℚ) (d : DTStat) : DTStat :=
  ⟨d.sumStat + x, d.sumSquared + x * x, d.numberOfObservations + 1⟩

/-- Modelled from the spec: mean of the recorded observations. -/
def DTStat.mean (d : DTStat) : ℚ :=
  if d.numberOfObservations = 0 then 0 else d.sumStat / d.numberOfObservations

/-- Modelled from the spec: the zero/empty collector state. -/
def DTStat.init : DTStat := ⟨0, 0, 0⟩

/-- Modelled from the spec: `SimClasses.Resource`, a fixed-capacity server
pool with a busy count and a time-weighted busy accumulator. -/
structure Resource where
  busy : ℕ
  numberOfUnits : ℕ
  numBusy : CTStat
deriving DecidableEq

/-- Modelled from the spec: `TrySeize` is non-blocking; it succeeds
(busy incremented, recorded into the accumulator) iff busy < capacity,
and otherwise returns false with no effect. -/
def Resource.seize (clock : ℚ) (r : Resource) : Bool × Resource :=
  if r.busy + 1 ≤ r.numberOfUnits then
    (true,
     { busy := r.busy + 1
       numberOfUnits := r.numberOfUnits
       numBusy := r.numBusy.record clock ((r.busy : ℚ) + 1) })
  else (false, r)

/-- Modelled from the spec: `Release` decrements the busy count (a release
with busy = 0 is a fatal programming error in the source and never occurs
in an execution generated by the handlers). -/
def Resource.free (clock : ℚ) (r : Resource) : Resource :=
  { busy := r.busy - 1
    numberOfUnits := r.numberOfUnits
    numBusy := r.numBusy.record clock ((r.busy : ℚ) - 1) }

/-- Modelled from the spec: `SetUnits` configures the capacity. -/
def Resource.setUnits (n : ℕ) (r : Resource) : Resource :=
  { r with numberOfUnits := n }

/-- Modelled from the spec: time-average busy count. -/
def Resource.mean (clock : ℚ) (r : Resource) : ℚ := r.numBusy.mean clock

/-- Modelled from the spec: the reset resource state. -/
def Resource.init : Resource := ⟨0, 0, CTStat.init⟩

/-- The `Patient` entity of `main.py`: creation timestamp, trauma flag and
the per-stage completion timestamps. -/
structure Patient where
  createTime : ℚ
  isTrauma : Bool
  triageTime : ℚ
  registrationTime : ℚ
  examinationTime : ℚ
  traumaTime : ℚ
  treatmentTime : ℚ
deriving DecidableEq

instance : Inhabited Patient := ⟨⟨0, false, 0, 0, 0, 0, 0⟩⟩

/-- `Patient.__init__`: the entity is stamped with the current clock as its
creation time; all other fields start at zero/false. -/
def Patient.new (clock : ℚ) : Patient := ⟨clock, false, 0, 0, 0, 0, 0⟩

/-- Modelled from the spec: `SimClasses.FIFOQueue`, an ordered waiting line
with a time-weighted length accumulator. -/
structure FIFOQueue where
  thisQueue : List Patient
  wip : CTStat
deriving DecidableEq

/-- Modelled from the spec: append to the tail and record the new length. -/
def FIFOQueue.add (clock : ℚ) (p : Patient) (q : FIFOQueue) : FIFOQueue :=
  { thisQueue := q.thisQueue ++ [p]
    wip := q.wip.record clock ((q.thisQueue.length : ℚ) + 1) }

/-- Modelled from the spec: drop the head and record the new length
(the head itself is read by the caller before removal). -/
def FIFOQueue.removeHead (clock : ℚ) (q : FIFOQueue) : FIFOQueue :=
  { thisQueue := q.thisQueue.tail
    wip := q.wip.record clock ((q.thisQueue.length : ℚ) - 1) }

/-- Modelled from the spec: current number of waiting patients. -/
def FIFOQueue.numQueue (q : FIFOQueue) : ℕ := q.thisQueue.length

/-- Modelled from the spec: time-average queue length. -/
def FIFOQueue.mean (clock : ℚ) (q : FIFOQueue) : ℚ := q.wip.mean clock

/-- Modelled from the spec: the reset queue state. -/
def FIFOQueue.init : FIFOQueue := ⟨[], CTStat.init⟩

/-- The event kinds dispatched by the two main loops. -/
inductive EventType where
  | Arrival
  | ArrivalNS
  | EndSignInTriage
  | EndRegistration
  | EndExamination
  | EndTrauma
  | EndTreatment
deriving DecidableEq

/-- A calendar entry: kind, absolute scheduled time, optional patient. -/
structure Event where
  eventType : EventType
  eventTime : ℚ
  whichObject : Option Patient
deriving DecidableEq

instance : Inhabited Event := ⟨⟨EventType.Arrival, 0, none⟩⟩

/-- Modelled from the spec: `PopEarliest` removes and returns the pending
event with minimum time, breaking ties by insertion order (the calendar is
kept in insertion order and the first event attaining the minimal time is
taken). -/
def calRemove : List Event → Option (Event × List Event)
  | [] => none
  | e :: rest =>
    match calRemove rest with
    | none => some (e, [])
    | some (e', rest') =>
      if e.eventTime ≤ e'.eventTime then some (e, rest) else some (e', e :: rest')

/-- The full mutable simulation state: clock, calendar, the five resources,
queues and wait collectors, the module-level patient counters of `main.py`
(`totalArrivals` .. `patientsCompleted`) and of `main_nonstationary.py`
(the `ns`-prefixed copies — in Python these are distinct module globals),
the scenario parameters of both modules, and the stream bank. -/
structure SimState where
  clock : ℚ
  calendar : List Event
  signInTriageResource : Resource
  registrationResource : Resource
  examinationResource : Resource
  traumaResource : Resource
  treatmentResource : Resource
  signInTriageQueue : FIFOQueue
  registrationQueue : FIFOQueue
  examinationQueue : FIFOQueue
  traumaQueue : FIFOQueue
  treatmentQueue : FIFOQueue
  signInTriageWait : DTStat
  registrationWait : DTStat
  examinationWait : DTStat
  traumaWait : DTStat
  treatmentWait : DTStat
  totalArrivals : ℕ
  traumaPatients : ℕ
  nonTraumaPatients : ℕ
  patientsCompleted : ℕ
  nsTotalArrivals : ℕ
  nsTraumaPatients : ℕ
  nsNonTraumaPatients : ℕ
  nsPatientsCompleted : ℕ
  arrivalRate : ℚ
  traumaPercentage : ℚ
  nsTraumaPercentage : ℚ
  arrivalRatesByHour : List ℚ
  rng : RNG

/-- `SimulationHours = 18` (6 AM to midnight). -/
def SimulationHours : ℕ := 18

/-- `SimulationTime = SimulationHours * 60` minutes. -/
def SimulationTime : ℚ := (SimulationHours : ℚ) * 60

/-- Modelled from the spec: `SimFunctions.Schedule` inserts an event at
`Clock + delay` with no patient attached. -/
def SimState.schedule (et : EventType) (delay : ℚ) (s : SimState) : SimState :=
  { s with calendar :=
      s.calendar ++ [{ eventType := et, eventTime := s.clock + delay, whichObject := none }] }

/-- Modelled from the spec: `SimFunctions.SchedulePlus` inserts an event at
`Clock + delay` carrying a patient. -/
def SimState.schedulePlus (et : EventType) (delay : ℚ) (p : Patient) (s : SimState) :
    SimState :=
  { s with calendar :=
      s.calendar ++ [{ eventType := et, eventTime := s.clock + delay, whichObject := some p }] }

/-- The clamp applied to the Examination service time in
`ProcessExamination` (`main.py` lines 172-175): a draw strictly below zero
is replaced by 0.1 minutes, any other draw is kept. -/
def ExamServiceTime (x : ℚ) : ℚ := if x < 0 then 1 / 10 else x

/-- One iteration of the `ProcessSignInTriage` loop body (`main.py`):
seize a unit, remove the queue head, record its wait `Clock - CreateTime`,
draw a service time from the triage stream and schedule `EndSignInTriage`
for the served patient. -/
def signInTriageStep (s : SimState) : SimState :=
  let p := s.signInTriageQueue.thisQueue.headI
  let s1 : SimState :=
    { s with
      signInTriageResource := (s.signInTriageResource.seize s.clock).2
      signInTriageQueue := s.signInTriageQueue.removeHead s.clock
      signInTriageWait := s.signInTriageWait.record (s.clock - p.createTime) }
  let dr := s1.rng.triage.next
  let s2 : SimState := { s1 with rng := { s1.rng with triage := dr.2 } }
  s2.schedulePlus .EndSignInTriage dr.1 p

/-- The `ProcessSignInTriage` while-loop: iterate the body while the
queue is non-empty and the resource grants a seize.  The fuel argument is
a termination device: with fuel at least the queue's length the loop runs
exactly as the Python `while`. -/
def ProcessSignInTriageAux : ℕ → SimState → SimState
  | 0, s => s
  | fuel + 1, s =>
    if 0 < s.signInTriageQueue.numQueue ∧ (s.signInTriageResource.seize s.clock).1 = true then
      ProcessSignInTriageAux fuel (signInTriageStep s)
    else s

/-- `ProcessSignInTriage` from `main.py`. -/
def ProcessSignInTriage (s : SimState) : SimState :=
  ProcessSignInTriageAux s.signInTriageQueue.numQueue s

/-- One iteration of the `ProcessRegistration` loop body (`main.py`):
wait is `Clock - TriageTime`, service from the registration stream,
schedules `EndRegistration`. -/
def registrationStep (s : SimState) : SimState :=
  let p := s.registrationQueue.thisQueue.headI
  let s1 : SimState :=
    { s with
      registrationResource := (s.registrationResource.seize s.clock).2
      registrationQueue := s.registrationQueue.removeHead s.clock
      registrationWait := s.registrationWait.record (s.clock - p.triageTime) }
  let dr := s1.rng.registration.next
  let s2 : SimState := { s1 with rng := { s1.rng with registration := dr.2 } }
  s2.schedulePlus .EndRegistration dr.1 p

/-- The `ProcessRegistration` while-loop. -/
def ProcessRegistrationAux : ℕ → SimState → SimState
  | 0, s => s
  | fuel + 1, s =>
    if 0 < s.registrationQueue.numQueue ∧ (s.registrationResource.seize s.clock).1 = true then
      ProcessRegistrationAux fuel (registrationStep s)
    else s

/-- `ProcessRegistration` from `main.py`. -/
def ProcessRegistration (s : SimState) : SimState :=
  ProcessRegistrationAux s.registrationQueue.numQueue s

/-- One iteration of the `ProcessExamination` loop body (`main.py`): wait
is `Clock - RegistrationTime`; the Normal service draw is clamped through
`ExamServiceTime` before `EndExamination` is scheduled. -/
def examinationStep (s : SimState) : SimState :=
  let p := s.examinationQueue.thisQueue.headI
  let s1 : SimState :=
    { s with
      examinationResource := (s.examinationResource.seize s.clock).2
      examinationQueue := s.examinationQueue.removeHead s.clock
      examinationWait := s.examinationWait.record (s.clock - p.registrationTime) }
  let dr := s1.rng.examination.next
  let s2 : SimState := { s1 with rng := { s1.rng with examination := dr.2 } }
  s2.schedulePlus .EndExamination (ExamServiceTime dr.1) p

/-- The `ProcessExamination` while-loop. -/
def ProcessExaminationAux : ℕ → SimState → SimState
  | 0, s => s
  | fuel + 1, s =>
    if 0 < s.examinationQueue.numQueue ∧ (s.examinationResource.seize s.clock).1 = true then
      ProcessExaminationAux fuel (examinationStep s)
    else s

/-- `ProcessExamination` from `main.py`. -/
def ProcessExamination (s : SimState) : SimState :=
  ProcessExaminationAux s.examinationQueue.numQueue s

/-- One iteration of the `ProcessTrauma` loop body (`main.py`): wait is
`Clock - TriageTime`, service from the trauma stream, schedules
`EndTrauma`. -/
def traumaStep (s : SimState) : SimState :=
  let p := s.traumaQueue.thisQueue.headI
  let s1 : SimState :=
    { s with
      traumaResource := (s.traumaResource.seize s.clock).2
      traumaQueue := s.traumaQueue.removeHead s.clock
      traumaWait := s.traumaWait.record (s.clock - p.triageTime) }
  let dr := s1.rng.trauma.next
  let s2 : SimState := { s1 with rng := { s1.rng with trauma := dr.2 } }
  s2.schedulePlus .EndTrauma dr.1 p

/-- The `ProcessTrauma` while-loop. -/
def ProcessTraumaAux : ℕ → SimState → SimState
  | 0, s => s
  | fuel + 1, s =>
    if 0 < s.traumaQueue.numQueue ∧ (s.traumaResource.seize s.clock).1 = true then
      ProcessTraumaAux fuel (traumaStep s)
    else s

/-- `ProcessTrauma` from `main.py`. -/
def ProcessTrauma (s : SimState) : SimState :=
  ProcessTraumaAux s.traumaQueue.numQueue s

/-- One iteration of the `ProcessTreatment` loop body (`main.py`): the
recorded wait is `Clock - TraumaTime` for trauma patients and
`Clock - ExaminationTime` otherwise; either branch draws the service time
from the treatment stream and schedules `EndTreatment`. -/
def treatmentStep (s : SimState) : SimState :=
  let p := s.treatmentQueue.thisQueue.headI
  let w := if p.isTrauma then s.clock - p.traumaTime else s.clock - p.examinationTime
  let s1 : SimState :=
    { s with
      treatmentResource := (s.treatmentResource.seize s.clock).2
      treatmentQueue := s.treatmentQueue.removeHead s.clock
      treatmentWait := s.treatmentWait.record w }
  let dr := s1.rng.treatment.next
  let s2 : SimState := { s1 with rng := { s1.rng with treatment := dr.2 } }
  s2.schedulePlus .EndTreatment dr.1 p

/-- The `ProcessTreatment` while-loop. -/
def ProcessTreatmentAux : ℕ → SimState → SimState
  | 0, s => s
  | fuel + 1, s =>
    if 0 < s.treatmentQueue.numQueue ∧ (s.treatmentResource.seize s.clock).1 = true then
      ProcessTreatmentAux fuel (treatmentStep s)
    else s

/-- `ProcessTreatment` from `main.py`. -/
def ProcessTreatment (s : SimState) : SimState :=
  ProcessTreatmentAux s.treatmentQueue.numQueue s

/-- `EndSignInTriage` from `main.py`: free the triage resource, stamp
`TriageTime`, route trauma patients to the Trauma queue and the rest to
Registration, drain the receiving station, then re-drain triage. -/
def EndSignInTriage (p : Patient) (s : SimState) : SimState :=
  let s1 : SimState := { s with signInTriageResource := s.signInTriageResource.free s.clock }
  let p1 : Patient := { p with triageTime := s1.clock }
  let s2 : SimState :=
    if p1.isTrauma then
      ProcessTrauma { s1 with traumaQueue := s1.traumaQueue.add s1.clock p1 }
    else
      ProcessRegistration { s1 with registrationQueue := s1.registrationQueue.add s1.clock p1 }
  ProcessSignInTriage s2

/-- `EndRegistration` from `main.py`: free the registration resource, stamp
`RegistrationTime`, send to Examination, drain Examination, re-drain
Registration. -/
def EndRegistration (p : Patient) (s : SimState) : SimState :=
  let s1 : SimState := { s with registrationResource := s.registrationResource.free s.clock }
  let p1 : Patient := { p with registrationTime := s1.clock }
  let s2 := ProcessExamination { s1 with examinationQueue := s1.examinationQueue.add s1.clock p1 }
  ProcessRegistration s2

/-- `EndExamination` from `main.py`: free the examination resource, stamp
`ExaminationTime`; with the next discharge-decision draw below 0.40 the
patient is discharged (incrementing the `main` module's
`PatientsCompleted`), otherwise it is sent to Treatment; then re-drain
Examination. -/
def EndExamination (p : Patient) (s : SimState) : SimState :=
  let s1 : SimState := { s with examinationResource := s.examinationResource.free s.clock }
  let p1 : Patient := { p with examinationTime := s1.clock }
  let dr := s1.rng.dischargeDecision.next
  let s2 : SimState := { s1 with rng := { s1.rng with dischargeDecision := dr.2 } }
  let s3 : SimState :=
    if dr.1 < 40 / 100 then
      { s2 with patientsCompleted := s2.patientsCompleted + 1 }
    else
      ProcessTreatment { s2 with treatmentQueue := s2.treatmentQueue.add s2.clock p1 }
  ProcessExamination s3

/-- `EndTrauma` from `main.py`: free the trauma resource, stamp
`TraumaTime`, send to Treatment, drain Treatment, re-drain Trauma. -/
def EndTrauma (p : Patient) (s : SimState) : SimState :=
  let s1 : SimState := { s with traumaResource := s.traumaResource.free s.clock }
  let p1 : Patient := { p with traumaTime := s1.clock }
  let s2 := ProcessTreatment { s1 with treatmentQueue := s1.treatmentQueue.add s1.clock p1 }
  ProcessTrauma s2

/-- `EndTreatment` from `main.py`: free the treatment resource, stamp
`TreatmentTime`, count the discharge in the `main` module's
`PatientsCompleted`, re-drain Treatment. -/
def EndTreatment (p : Patient) (s : SimState) : SimState :=
  let _p1 : Patient := { p with treatmentTime := s.clock }
  let s1 : SimState :=
    { s with
      treatmentResource := s.treatmentResource.free s.clock
      patientsCompleted := s.patientsCompleted + 1 }
  ProcessTreatment s1

/-- The entry section of `Arrival` (`main.py`): create a patient, count
the arrival in the `main` module counters, decide trauma status from the
dedicated trauma-decision stream and enqueue into Sign-in/Triage. -/
def arrivalSeed (s : SimState) : SimState :=
  let p := Patient.new s.clock
  let s1 : SimState := { s with totalArrivals := s.totalArrivals + 1 }
  let dr := s1.rng.traumaDecision.next
  let s2 : SimState := { s1 with rng := { s1.rng with traumaDecision := dr.2 } }
  let p1 : Patient :=
    if dr.1 < s2.traumaPercentage then { p with isTrauma := true } else { p with isTrauma := false }
  let s3 : SimState :=
    if dr.1 < s2.traumaPercentage then
      { s2 with traumaPatients := s2.traumaPatients + 1 }
    else
      { s2 with nonTraumaPatients := s2.nonTraumaPatients + 1 }
  { s3 with signInTriageQueue := s3.signInTriageQueue.add s3.clock p1 }

/-- The tail section of `Arrival` (`main.py` lines 97-100): while the
clock is before closing, draw the next interarrival time from the arrival
stream and schedule the next `Arrival` unconditionally. -/
def scheduleNextArrival (s5 : SimState) : SimState :=
  if s5.clock < SimulationTime then
    let dr2 := s5.rng.arrival.next
    ({ s5 with rng := { s5.rng with arrival := dr2.2 } }).schedule .Arrival dr2.1
  else s5

/-- `Arrival` from `main.py` (stationary): seed the patient, drain
Sign-in/Triage, then schedule the next arrival. -/
def Arrival (s : SimState) : SimState :=
  scheduleNextArrival (ProcessSignInTriage (arrivalSeed s))

/-- `GetCurrentArrivalRate` from `main_nonstationary.py`: hour index is the
integer part of `current_time / 60`, capped at 17, and the tabulated
hourly rate is converted to patients per minute. -/
def GetCurrentArrivalRate (s : SimState) (currentTime : ℚ) : ℚ :=
  let hourIndex : ℕ := (Int.toNat ⌊currentTime / 60⌋)
  let hourIndex := if 18 ≤ hourIndex then 17 else hourIndex
  s.arrivalRatesByHour.getD hourIndex 0 / 60

/-- The entry section of `ArrivalNonStationary`
(`main_nonstationary.py`): like `arrivalSeed` but counting into the
`main_nonstationary` module's counters and using its trauma
percentage. -/
def arrivalSeedNS (s : SimState) : SimState :=
  let p := Patient.new s.clock
  let s1 : SimState := { s with nsTotalArrivals := s.nsTotalArrivals + 1 }
  let dr := s1.rng.traumaDecision.next
  let s2 : SimState := { s1 with rng := { s1.rng with traumaDecision := dr.2 } }
  let p1 : Patient :=
    if dr.1 < s2.nsTraumaPercentage then { p with isTrauma := true }
    else { p with isTrauma := false }
  let s3 : SimState :=
    if dr.1 < s2.nsTraumaPercentage then
      { s2 with nsTraumaPatients := s2.nsTraumaPatients + 1 }
    else
      { s2 with nsNonTraumaPatients := s2.nsNonTraumaPatients + 1 }
  { s3 with signInTriageQueue := s3.signInTriageQueue.add s3.clock p1 }

/-- The tail section of `ArrivalNonStationary`
(`main_nonstationary.py` lines 109-122): while the clock is before
closing, look up the current rate, draw the interarrival time from the
arrival stream (fallback delay 60 minutes when the rate is not positive)
and schedule the next `ArrivalNS` only if it falls strictly before
closing. -/
def scheduleNextArrivalNS (s5 : SimState) : SimState :=
  if s5.clock < SimulationTime then
    let currentRate := GetCurrentArrivalRate s5 s5.clock
    let step : ℚ × SimState :=
      if 0 < currentRate then
        let dr2 := s5.rng.arrival.next
        (dr2.1, { s5 with rng := { s5.rng with arrival := dr2.2 } })
      else (60, s5)
    if step.2.clock + step.1 < SimulationTime then
      step.2.schedule .ArrivalNS step.1
    else step.2
  else s5

/-- `ArrivalNonStationary` from `main_nonstationary.py`: seed the patient
(counting into the `main_nonstationary` module counters and using its
trauma percentage), drain Sign-in/Triage, then conditionally schedule the
next arrival from the current hour's rate. -/
def ArrivalNonStationary (s : SimState) : SimState :=
  scheduleNextArrivalNS (ProcessSignInTriage (arrivalSeedNS s))

/-- One pass of the main event loop shared by `RunSimulation` and
`RunSimulationNonStationary`: pop the earliest event, advance the clock to
its time and dispatch on its kind.  `none` signals an empty calendar.
An `End*` event without an attached patient would be a fatal error in the
source; such events are never scheduled, and the dispatcher leaves the
state unchanged in that unreachable case. -/
def handleEvent (ev : Event) (s1 : SimState) : SimState :=
  match ev.eventType, ev.whichObject with
  | .Arrival, _ => Arrival s1
  | .ArrivalNS, _ => ArrivalNonStationary s1
  | .EndSignInTriage, some p => EndSignInTriage p s1
  | .EndRegistration, some p => EndRegistration p s1
  | .EndExamination, some p => EndExamination p s1
  | .EndTrauma, some p => EndTrauma p s1
  | .EndTreatment, some p => EndTreatment p s1
  | .EndSignInTriage, none => s1
  | .EndRegistration, none => s1
  | .EndExamination, none => s1
  | .EndTrauma, none => s1
  | .EndTreatment, none => s1

def stepOnce (s : SimState) : Option SimState :=
  match calRemove s.calendar with
  | none => none
  | some (ev, rest) =>
    some (handleEvent ev { s with clock := ev.eventTime, calendar := rest })

/-- Drain the calendar, stepping at most `fuel` events (the Python loop
runs until the calendar is empty; a run that drains within `fuel` steps is
computed exactly). -/
def runLoop : ℕ → SimState → SimState
  | 0, s => s
  | fuel + 1, s =>
    match stepOnce s with
    | none => s
    | some s1 => runLoop fuel s1

/-- Modelled from the spec: `SimFunctions.SimFunctionsInit` is not among
the repository sources; per the spec it resets the Clock and Calendar and
every Resource, Station Queue and wait-time Collector to its empty/zero
initial state (capacities are re-applied afterwards by the caller).  It
does not touch the module-level patient counters — those are reset
explicitly by the Python run functions. -/
def SimFunctionsInit (s : SimState) : SimState :=
  { s with
    clock := 0
    calendar := []
    signInTriageResource := Resource.init
    registrationResource := Resource.init
    examinationResource := Resource.init
    traumaResource := Resource.init
    treatmentResource := Resource.init
    signInTriageQueue := FIFOQueue.init
    registrationQueue := FIFOQueue.init
    examinationQueue := FIFOQueue.init
    traumaQueue := FIFOQueue.init
    treatmentQueue := FIFOQueue.init
    signInTriageWait := DTStat.init
    registrationWait := DTStat.init
    examinationWait := DTStat.init
    traumaWait := DTStat.init
    treatmentWait := DTStat.init }

/-- Per-station staffing levels (`staff_levels` dict). -/
structure StaffLevels where
  signInTriage : ℕ
  registration : ℕ
  examination : ℕ
  trauma : ℕ
  treatment : ℕ

/-- The statistics dictionary returned by `RunSimulation` in `main.py`. -/
structure ReplicationResult where
  signInTriageWait : ℚ
  registrationWait : ℚ
  examinationWait : ℚ
  traumaWait : ℚ
  treatmentWait : ℚ
  totalArrivals : ℕ
  traumaPatients : ℕ
  patientsCompleted : ℕ
  signInTriageUtil : ℚ
  registrationUtil : ℚ
  examinationUtil : ℚ
  traumaUtil : ℚ
  treatmentUtil : ℚ
  avgQueueSignInTriage : ℚ
  avgQueueRegistration : ℚ
  avgQueueExamination : ℚ
  avgQueueTrauma : ℚ
  avgQueueTreatment : ℚ

/-- The statistics dictionary returned by `RunSimulationNonStationary` in
`main_nonstationary.py`; note that its counter fields are read from the
`main_nonstationary` module globals (the `ns`-prefixed state fields). -/
structure ReplicationResultNS where
  signInTriageWait : ℚ
  registrationWait : ℚ
  examinationWait : ℚ
  traumaWait : ℚ
  treatmentWait : ℚ
  totalArrivals : ℕ
  traumaPatients : ℕ
  patientsCompleted : ℕ
  signInTriageUtil : ℚ
  registrationUtil : ℚ
  examinationUtil : ℚ
  traumaUtil : ℚ
  treatmentUtil : ℚ
  avgQueueSignInTriage : ℚ
  avgQueueRegistration : ℚ
  avgQueueExamination : ℚ
  avgQueueTrauma : ℚ
  avgQueueTreatment : ℚ
  maxQueueSignInTriage : ℚ
  maxQueueRegistration : ℚ
  maxQueueExamination : ℚ
  maxQueueTrauma : ℚ
  maxQueueTreatment : ℚ

/-- The initialization section of `RunSimulation` (`main.py` lines
274-296): engine reset, reset of the `main` module counters, scenario
parameters, staffing capacities and the unconditional first arrival. -/
def RunSimulationInit (avgPatientsPerDay traumaPct : ℚ) (staffLevels : StaffLevels)
    (s0 : SimState) : SimState :=
  let s := SimFunctionsInit s0
  let s : SimState :=
    { s with
      totalArrivals := 0
      traumaPatients := 0
      nonTraumaPatients := 0
      patientsCompleted := 0
      arrivalRate := avgPatientsPerDay / ((SimulationHours : ℚ) * 60)
      traumaPercentage := traumaPct }
  let s : SimState :=
    { s with
      signInTriageResource := s.signInTriageResource.setUnits staffLevels.signInTriage
      registrationResource := s.registrationResource.setUnits staffLevels.registration
      examinationResource := s.examinationResource.setUnits staffLevels.examination
      traumaResource := s.traumaResource.setUnits staffLevels.trauma
      treatmentResource := s.treatmentResource.setUnits staffLevels.treatment }
  let dr := s.rng.arrival.next
  ({ s with rng := { s.rng with arrival := dr.2 } }).schedule .Arrival dr.1

/-- Read the statistics dictionary of `RunSimulation` off the final state. -/
def mkResult (s : SimState) (staffLevels : StaffLevels) : ReplicationResult :=
  { signInTriageWait := s.signInTriageWait.mean
    registrationWait := s.registrationWait.mean
    examinationWait := s.examinationWait.mean
    traumaWait := s.traumaWait.mean
    treatmentWait := s.treatmentWait.mean
    totalArrivals := s.totalArrivals
    traumaPatients := s.traumaPatients
    patientsCompleted := s.patientsCompleted
    signInTriageUtil :=
      if 0 < staffLevels.signInTriage then
        s.signInTriageResource.mean s.clock / (staffLevels.signInTriage : ℚ)
      else 0
    registrationUtil :=
      if 0 < staffLevels.registration then
        s.registrationResource.mean s.clock / (staffLevels.registration : ℚ)
      else 0
    examinationUtil :=
      if 0 < staffLevels.examination then
        s.examinationResource.mean s.clock / (staffLevels.examination : ℚ)
      else 0
    traumaUtil :=
      if 0 < staffLevels.trauma then
        s.traumaResource.mean s.clock / (staffLevels.trauma : ℚ)
      else 0
    treatmentUtil :=
      if 0 < staffLevels.treatment then
        s.treatmentResource.mean s.clock / (staffLevels.treatment : ℚ)
      else 0
    avgQueueSignInTriage := s.signInTriageQueue.mean s.clock
    avgQueueRegistration := s.registrationQueue.mean s.clock
    avgQueueExamination := s.examinationQueue.mean s.clock
    avgQueueTrauma := s.traumaQueue.mean s.clock
    avgQueueTreatment := s.treatmentQueue.mean s.clock }

/-- `RunSimulation` from `main.py`: initialize, drain the calendar, return
the statistics dictionary (paired here with the final state so that
module-level effects remain observable). -/
def RunSimulation (avgPatientsPerDay traumaPct : ℚ) (staffLevels : StaffLevels)
    (fuel : ℕ) (s0 : SimState) : ReplicationResult × SimState :=
  let s := runLoop fuel (RunSimulationInit avgPatientsPerDay traumaPct staffLevels s0)
  (mkResult s staffLevels, s)

/-- The initialization section of `RunSimulationNonStationary`
(`main_nonstationary.py` lines 135-161): engine reset, reset of the
`main_nonstationary` module counters (the `main` module's
`PatientsCompleted` is a distinct global and is not touched), parameters,
rate table, capacities and the first arrival (scheduled only when the
first hour's rate is positive).  The historical rate table, produced by
the out-of-scope CSV load, is passed in as `rates`. -/
def RunSimulationNonStationaryInit (traumaPct : ℚ) (staffLevels : StaffLevels)
    (rates : List ℚ) (s0 : SimState) : SimState :=
  let s := SimFunctionsInit s0
  let s : SimState :=
    { s with
      nsTotalArrivals := 0
      nsTraumaPatients := 0
      nsNonTraumaPatients := 0
      nsPatientsCompleted := 0
      nsTraumaPercentage := traumaPct
      arrivalRatesByHour := rates }
  let s : SimState :=
    { s with
      signInTriageResource := s.signInTriageResource.setUnits staffLevels.signInTriage
      registrationResource := s.registrationResource.setUnits staffLevels.registration
      examinationResource := s.examinationResource.setUnits staffLevels.examination
      traumaResource := s.traumaResource.setUnits staffLevels.trauma
      treatmentResource := s.treatmentResource.setUnits staffLevels.treatment }
  let initialRate := s.arrivalRatesByHour.getD 0 0 / 60
  if 0 < initialRate then
    let dr := s.rng.arrival.next
    ({ s with rng := { s.rng with arrival := dr.2 } }).schedule .ArrivalNS dr.1
  else s

/-- Read the statistics dictionary of `RunSimulationNonStationary` off the
final state: the counter entries come from the `main_nonstationary`
module globals. -/
def mkResultNS (s : SimState) (staffLevels : StaffLevels) : ReplicationResultNS :=
  { signInTriageWait := s.signInTriageWait.mean
    registrationWait := s.registrationWait.mean
    examinationWait := s.examinationWait.mean
    traumaWait := s.traumaWait.mean
    treatmentWait := s.treatmentWait.mean
    totalArrivals := s.nsTotalArrivals
    traumaPatients := s.nsTraumaPatients
    patientsCompleted := s.nsPatientsCompleted
    signInTriageUtil :=
      if 0 < staffLevels.signInTriage then
        s.signInTriageResource.mean s.clock / (staffLevels.signInTriage : ℚ)
      else 0
    registrationUtil :=
      if 0 < staffLevels.registration then
        s.registrationResource.mean s.clock / (staffLevels.registration : ℚ)
      else 0
    examinationUtil :=
      if 0 < staffLevels.examination then
        s.examinationResource.mean s.clock / (staffLevels.examination : ℚ)
      else 0
    traumaUtil :=
      if 0 < staffLevels.trauma then
        s.traumaResource.mean s.clock / (staffLevels.trauma : ℚ)
      else 0
    treatmentUtil :=
      if 0 < staffLevels.treatment then
        s.treatmentResource.mean s.clock / (staffLevels.treatment : ℚ)
      else 0
    avgQueueSignInTriage := s.signInTriageQueue.mean s.clock
    avgQueueRegistration := s.registrationQueue.mean s.clock
    avgQueueExamination := s.examinationQueue.mean s.clock
    avgQueueTrauma := s.traumaQueue.mean s.clock
    avgQueueTreatment := s.treatmentQueue.mean s.clock
    maxQueueSignInTriage := s.signInTriageQueue.wip.maxValue
    maxQueueRegistration := s.registrationQueue.wip.maxValue
    maxQueueExamination := s.examinationQueue.wip.maxValue
    maxQueueTrauma := s.traumaQueue.wip.maxValue
    maxQueueTreatment := s.treatmentQueue.wip.maxValue }

/-- `RunSimulationNonStationary` from `main_nonstationary.py`. -/
def RunSimulationNonStationary (traumaPct : ℚ) (staffLevels : StaffLevels)
    (rates : List ℚ) (fuel : ℕ) (s0 : SimState) : ReplicationResultNS × SimState :=
  let s := runLoop fuel (RunSimulationNonStationaryInit traumaPct staffLevels rates s0)
  (mkResultNS s staffLevels, s)

/-- The `t_values` table of `ConfidenceInterval` (`main.py` lines
355-361), keyed by the sample size `n` as in the source, with the
dictionary's `.get` default 2.045. -/
def tValue (n : ℕ) : ℝ :=
  if n = 2 then 12.706 else if n = 3 then 4.303 else if n = 4 then 3.182
  else if n = 5 then 2.776 else if n = 6 then 2.571 else if n = 7 then 2.447
  else if n = 8 then 2.365 else if n = 9 then 2.306 else if n = 10 then 2.262
  else if n = 11 then 2.228 else if n = 12 then 2.201 else if n = 13 then 2.179
  else if n = 14 then 2.160 else if n = 15 then 2.145 else if n = 16 then 2.131
  else if n = 17 then 2.120 else if n = 18 then 2.110 else if n = 19 then 2.101
  else if n = 20 then 2.093 else if n = 21 then 2.086 else if n = 22 then 2.080
  else if n = 23 then 2.074 else if n = 24 then 2.069 else if n = 25 then 2.064
  else if n = 26 then 2.060 else if n = 27 then 2.056 else if n = 28 then 2.052
  else if n = 29 then 2.048 else if n = 30 then 2.045 else 2.045

/-- `ConfidenceInterval` from `main.py`: for fewer than two observations a
degenerate tuple; otherwise `(mean, half_width, mean - half_width,
mean + half_width)` with the sample variance over `n - 1`, the tabulated
t-value for `n ≤ 30` at 95% confidence and 1.96 otherwise. -/
noncomputable def ConfidenceInterval (data : List ℝ) (confidence : ℝ) : ℝ × ℝ × ℝ × ℝ :=
  let n := data.length
  if n < 2 then (if n = 1 then data.headI else 0, 0, 0, 0)
  else
    let mean := data.sum / (n : ℝ)
    let variance := (data.map (fun x => (x - mean) ^ 2)).sum / ((n : ℝ) - 1)
    let stdDev := Real.sqrt variance
    let t : ℝ :=
      if confidence = 0.95 then (if n ≤ 30 then tValue n else 1.96) else 1.96
    let halfWidth := t * stdDev / Real.sqrt (n : ℝ)
    (mean, halfWidth, mean - halfWidth, mean + halfWidth)

/-- The spec's reading of the statistics: arithmetic mean of the
observations. -/
noncomputable def sampleMean (data : List ℝ) : ℝ := data.sum / (data.length : ℝ)

/-- The spec's reading of the statistics: sample variance with the
`N - 1` divisor. -/
noncomputable def sampleVariance (data : List ℝ) : ℝ :=
  (data.map (fun x => (x - sampleMean data) ^ 2)).sum / ((data.length : ℝ) - 1)

/-- The spec's reading of the t-table: the 95% two-sided Student-t
critical value indexed by the degrees of freedom `df = N - 1`
(values 12.706 at df 1 down to 2.045 at df 29). -/
def tCritical (df : ℕ) : ℝ :=
  if df = 1 then 12.706 else if df = 2 then 4.303 else if df = 3 then 3.182
  else if df = 4 then 2.776 else if df = 5 then 2.571 else if df = 6 then 2.447
  else if df = 7 then 2.365 else if df = 8 then 2.306 else if df = 9 then 2.262
  else if df = 10 then 2.228 else if df = 11 then 2.201 else if df = 12 then 2.179
  else if df = 13 then 2.160 else if df = 14 then 2.145 else if df = 15 then 2.131
  else if df = 16 then 2.120 else if df = 17 then 2.110 else if df = 18 then 2.101
  else if df = 19 then 2.093 else if df = 20 then 2.086 else if df = 21 then 2.080
  else if df = 22 then 2.074 else if df = 23 then 2.069 else if df = 24 then 2.064
  else if df = 25 then 2.060 else if df = 26 then 2.056 else if df = 27 then 2.052
  else if df = 28 then 2.048 else if df = 29 then 2.045 else 2.045

/-- One aggregated `(mean, half_width, lower, upper)` tuple as produced by
`ConfidenceInterval` and stored in `ci_results` (indices 0-3 of the
Python tuple). -/
structure CITuple where
  mean : ℚ
  halfWidth : ℚ
  lower : ℚ
  upper : ℚ
deriving DecidableEq

/-- The five wait-time entries of `ci_results` consumed by the
service-level checks. -/
structure WaitCIResults where
  signInTriageWait : CITuple
  registrationWait : CITuple
  examinationWait : CITuple
  traumaWait : CITuple
  treatmentWait : CITuple
deriving DecidableEq

/-- `CheckServiceLevels` from `staffing_optimizer.py` (lines 86-117): the
early-return chain comparing each metric's upper CI bound against its
threshold. -/
def CheckServiceLevels (results : WaitCIResults) : Bool :=
  if 2 ≤ results.signInTriageWait.upper then false
  else if 5 ≤ results.traumaWait.upper then false
  else if 20 < results.registrationWait.upper then false
  else if 20 < results.examinationWait.upper then false
  else if 20 < results.treatmentWait.upper then false
  else true

/-- The Sign-in/Triage PASS condition printed by `RunScenario` in
`main.py` line 426: `ci_results['SignInTriageWait'][2] < 2`, where index 2
of the tuple is the lower CI bound. -/
def ScenarioSignInTriagePass (results : WaitCIResults) : Bool :=
  results.signInTriageWait.lower < 2

/-- The Trauma PASS condition of `main.py` line 427:
`ci_results['TraumaWait'][2] < 5` (index 2 = lower bound). -/
def ScenarioTraumaPass (results : WaitCIResults) : Bool :=
  results.traumaWait.lower < 5

/-- The Registration PASS condition of `main.py` line 428:
`ci_results['RegistrationWait'][0] <= 20` (index 0 = mean). -/
def ScenarioRegistrationPass (results : WaitCIResults) : Bool :=
  results.registrationWait.mean ≤ 20

/-- The Examination PASS condition of `main.py` line 429 (mean vs 20). -/
def ScenarioExaminationPass (results : WaitCIResults) : Bool :=
  results.examinationWait.mean ≤ 20

/-- The Treatment PASS condition of `main.py` line 430 (mean vs 20). -/
def ScenarioTreatmentPass (results : WaitCIResults) : Bool :=
  results.treatmentWait.mean ≤ 20

/-- The Sign-in/Triage PASS condition printed by
`RunScenarioNonStationary` (`main_nonstationary.py` line 299):
`tri_hi < 2.0` (upper bound). -/
def ScenarioNSSignInTriagePass (results : WaitCIResults) : Bool :=
  results.signInTriageWait.upper < 2

/-- The Trauma PASS condition of `main_nonstationary.py` line 300
(`tra_hi < 5.0`). -/
def ScenarioNSTraumaPass (results : WaitCIResults) : Bool :=
  results.traumaWait.upper < 5

/-- The Registration PASS condition of `main_nonstationary.py` line 302
(`reg_hi <= 20.0`). -/
def ScenarioNSRegistrationPass (results : WaitCIResults) : Bool :=
  results.registrationWait.upper ≤ 20

/-- The Examination PASS condition of `main_nonstationary.py` line 303
(`ex_hi <= 20.0`). -/
def ScenarioNSExaminationPass (results : WaitCIResults) : Bool :=
  results.examinationWait.upper ≤ 20

/-- The Treatment PASS condition of `main_nonstationary.py` line 304
(`trt_hi <= 20.0`). -/
def ScenarioNSTreatmentPass (results : WaitCIResults) : Bool :=
  results.treatmentWait.upper ≤ 20

/-- A CSV cell of the historical arrival table, abstracted (CSV parsing is
out of scope per the spec) to the two observations the loader makes of it:
whether the raw string is non-empty (Python truthiness) and the result of
`int(...)` on it (`none` when a `ValueError` would be raised). -/
structure Cell where
  truthy : Bool
  value : Option ℤ
deriving DecidableEq

instance : Inhabited Cell := ⟨⟨false, none⟩⟩

/-- The contribution of the `try: hourly_totals[hour] += int(row[hour])
except (ValueError, IndexError): pass` statement of `LoadArrivalData`:
zero when the cell is missing (IndexError) or unparseable (ValueError). -/
def cellContribution (c : Option Cell) : ℤ :=
  match c with
  | none => 0
  | some c =>
    match c.value with
    | none => 0
    | some v => v

/-- The `if row and row[0]:` guard of `LoadArrivalData`: the row is
non-empty and its first cell is a non-empty string. -/
def rowHasData (row : List Cell) : Bool :=
  !row.isEmpty && row.headI.truthy

/-- The body of the row loop of `LoadArrivalData`: a row passing the
`row and row[0]` guard increments `day_count` and adds each parseable of
its first 18 cells to that hour's running total (`for hour in
range(18)`); any other row leaves the accumulator unchanged. -/
def loadStep (acc : List ℚ × ℕ) (row : List Cell) : List ℚ × ℕ :=
  if rowHasData row then
    ((List.range 18).map fun hour => acc.1.getD hour 0 + (cellContribution (row.get? hour) : ℚ),
     acc.2 + 1)
  else acc

/-- `LoadArrivalData` from `main_nonstationary.py` (lines 39-67), applied
to the data rows after the header: fold the row loop over the rows; the
result is totals divided by `day_count`, or the uniform fallback 10.0 when
`day_count` is zero. -/
def LoadArrivalData (rows : List (List Cell)) : List ℚ :=
  let folded := rows.foldl loadStep (List.replicate 18 (0 : ℚ), 0)
  if 0 < folded.2 then folded.1.map (fun total => total / (folded.2 : ℚ))
  else List.replicate 18 (10 : ℚ)

/-- The spec's reading of a valid day row: it holds 18 parseable counts
(one per operating hour). -/
def validDayRow (row : List Cell) : Bool :=
  18 ≤ row.length && (List.range 18).all (fun h => ((row.getD h default).value).isSome)

/-- The loader as the claim describes it: malformed or short rows are
skipped entirely (contributing to no hour and not counted as a day), each
hourly rate is the column-wise mean over the valid day rows, and the
fallback 10/hour applies when no valid day row exists. -/
def LoadArrivalDataClaimed (rows : List (List Cell)) : List ℚ :=
  let valid := rows.filter validDayRow
  if valid.isEmpty then List.replicate 18 (10 : ℚ)
  else
    (List.range 18).map fun h =>
      (((valid.map (fun row => (row.getD h default).value.getD 0)).sum : ℤ) : ℚ) /
        (valid.length : ℚ)

/-! ### Entry-eligibility timestamps and drain-loop bookkeeping -/

/-- Entry-eligibility timestamp for Sign-in/Triage: the creation time
(`main.py` line 108). -/
def triageElig (p : Patient) : ℚ := p.createTime

/-- Entry-eligibility timestamp for Registration: triage completion
(`main.py` line 141). -/
def registrationElig (p : Patient) : ℚ := p.triageTime

/-- Entry-eligibility timestamp for Examination: registration completion
(`main.py` line 168). -/
def examinationElig (p : Patient) : ℚ := p.registrationTime

/-- Entry-eligibility timestamp for Trauma: triage completion
(`main.py` line 205). -/
def traumaElig (p : Patient) : ℚ := p.triageTime

/-- Entry-eligibility timestamp for Treatment: trauma completion for
trauma patients, examination completion otherwise (`main.py` 232-235). -/
def treatmentElig (p : Patient) : ℚ :=
  if p.isTrauma then p.traumaTime else p.examinationTime

/-- Total wait recorded for a batch of patients served at one instant. -/
def waitTotal (clock : ℚ) (elig : Patient → ℚ) (l : List Patient) : ℚ :=
  (l.map fun p => clock - elig p).sum

@[simp]
lemma waitTotal_nil (clock : ℚ) (elig : Patient → ℚ) : waitTotal clock elig [] = 0 := rfl

@[simp]
lemma waitTotal_cons (clock : ℚ) (elig : Patient → ℚ) (p : Patient) (l : List Patient) :
    waitTotal clock elig (p :: l) = (clock - elig p) + waitTotal clock elig l := by
  simp [waitTotal]

/-- Number of patients a drain loop serves: queue length capped by the
free capacity of the resource. -/
def servedCount (q : FIFOQueue) (r : Resource) : ℕ :=
  min q.thisQueue.length (r.numberOfUnits - r.busy)

lemma Resource.seize_fst_iff (clock : ℚ) (r : Resource) :
    (r.seize clock).1 = true ↔ r.busy + 1 ≤ r.numberOfUnits := by
  unfold Resource.seize
  split <;> simp_all

lemma Resource.seize_snd_busy (clock : ℚ) (r : Resource)
    (h : (r.seize clock).1 = true) : (r.seize clock).2.busy = r.busy + 1 := by
  unfold Resource.seize at h ⊢
  split <;> simp_all

lemma Resource.seize_snd_units (clock : ℚ) (r : Resource)
    (h : (r.seize clock).1 = true) :
    (r.seize clock).2.numberOfUnits = r.numberOfUnits := by
  unfold Resource.seize at h ⊢
  split <;> simp_all

/-! ### Sign-in/Triage drain-loop characterization -/

lemma processSignInTriageAux_frame (fuel : ℕ) (s : SimState) :
    (ProcessSignInTriageAux fuel s).clock = s.clock ∧
    (ProcessSignInTriageAux fuel s).registrationQueue = s.registrationQueue ∧
    (ProcessSignInTriageAux fuel s).examinationQueue = s.examinationQueue ∧
    (ProcessSignInTriageAux fuel s).traumaQueue = s.traumaQueue ∧
    (ProcessSignInTriageAux fuel s).treatmentQueue = s.treatmentQueue ∧
    (ProcessSignInTriageAux fuel s).rng.arrival = s.rng.arrival ∧
    (ProcessSignInTriageAux fuel s).rng.registration = s.rng.registration ∧
    (ProcessSignInTriageAux fuel s).rng.examination = s.rng.examination ∧
    (ProcessSignInTriageAux fuel s).rng.trauma = s.rng.trauma ∧
    (ProcessSignInTriageAux fuel s).rng.treatment = s.rng.treatment ∧
    (ProcessSignInTriageAux fuel s).rng.traumaDecision = s.rng.traumaDecision ∧
    (ProcessSignInTriageAux fuel s).rng.dischargeDecision = s.rng.dischargeDecision ∧
    (ProcessSignInTriageAux fuel s).rng.triage.vals = s.rng.triage.vals ∧
    (ProcessSignInTriageAux fuel s).patientsCompleted = s.patientsCompleted ∧
    (ProcessSignInTriageAux fuel s).totalArrivals = s.totalArrivals ∧
    (ProcessSignInTriageAux fuel s).traumaPatients = s.traumaPatients ∧
    (ProcessSignInTriageAux fuel s).nonTraumaPatients = s.nonTraumaPatients ∧
    (ProcessSignInTriageAux fuel s).nsTotalArrivals = s.nsTotalArrivals ∧
    (ProcessSignInTriageAux fuel s).nsTraumaPatients = s.nsTraumaPatients ∧
    (ProcessSignInTriageAux fuel s).nsNonTraumaPatients = s.nsNonTraumaPatients ∧
    (ProcessSignInTriageAux fuel s).nsPatientsCompleted = s.nsPatientsCompleted ∧
    (ProcessSignInTriageAux fuel s).traumaPercentage = s.traumaPercentage ∧
    (ProcessSignInTriageAux fuel s).nsTraumaPercentage = s.nsTraumaPercentage ∧
    (ProcessSignInTriageAux fuel s).arrivalRatesByHour = s.arrivalRatesByHour ∧
    (ProcessSignInTriageAux fuel s).registrationWait = s.registrationWait ∧
    (ProcessSignInTriageAux fuel s).examinationWait = s.examinationWait ∧
    (ProcessSignInTriageAux fuel s).traumaWait = s.traumaWait ∧
    (ProcessSignInTriageAux fuel s).treatmentWait = s.treatmentWait := by
  induction fuel generalizing s with
  | zero =>
    exact ⟨rfl, rfl, rfl, rfl, rfl, rfl, rfl, rfl, rfl, rfl, rfl, rfl, rfl, rfl, rfl, rfl,
      rfl, rfl, rfl, rfl, rfl, rfl, rfl, rfl, rfl, rfl, rfl, rfl⟩
  | succ fuel ih =>
    rw [ProcessSignInTriageAux]
    split
    · exact ih _
    · exact ⟨rfl, rfl, rfl, rfl, rfl, rfl, rfl, rfl, rfl, rfl, rfl, rfl, rfl, rfl, rfl, rfl,
        rfl, rfl, rfl, rfl, rfl, rfl, rfl, rfl, rfl, rfl, rfl, rfl⟩

lemma signInTriageStep_eq (s : SimState) :
    signInTriageStep s =
      { s with
        signInTriageResource := (s.signInTriageResource.seize s.clock).2
        signInTriageQueue := s.signInTriageQueue.removeHead s.clock
        signInTriageWait :=
          s.signInTriageWait.record (s.clock - s.signInTriageQueue.thisQueue.headI.createTime)
        rng := { s.rng with triage := ⟨s.rng.triage.vals, s.rng.triage.idx + 1⟩ }
        calendar := s.calendar ++
          [{ eventType := .EndSignInTriage,
             eventTime := s.clock + s.rng.triage.vals s.rng.triage.idx,
             whichObject := some s.signInTriageQueue.thisQueue.headI }] } := rfl

lemma processSignInTriageAux_calendar (fuel : ℕ) (s : SimState) :
    ∃ es : List Event,
      (ProcessSignInTriageAux fuel s).calendar = s.calendar ++ es ∧
      ∀ e ∈ es, e.eventType = .EndSignInTriage ∧
        (∃ p ∈ s.signInTriageQueue.thisQueue, e.whichObject = some p) ∧
        ∃ n, e.eventTime = s.clock + s.rng.triage.vals n := by
  induction fuel generalizing s with
  | zero => exact ⟨[], by simp [ProcessSignInTriageAux], by simp⟩
  | succ fuel ih =>
    by_cases hcond :
        0 < s.signInTriageQueue.numQueue ∧ (s.signInTriageResource.seize s.clock).1 = true
    · have hstep : ProcessSignInTriageAux (fuel + 1) s
          = ProcessSignInTriageAux fuel (signInTriageStep s) := by
        rw [ProcessSignInTriageAux, if_pos hcond]
      have hne : s.signInTriageQueue.thisQueue ≠ [] := by
        have h1 := hcond.1
        simp only [FIFOQueue.numQueue] at h1
        exact List.ne_nil_of_length_pos h1
      obtain ⟨es, hcal, hes⟩ := ih (signInTriageStep s)
      refine ⟨{ eventType := .EndSignInTriage,
                eventTime := s.clock + s.rng.triage.vals s.rng.triage.idx,
                whichObject := some s.signInTriageQueue.thisQueue.headI } :: es, ?_, ?_⟩
      · rw [hstep, hcal, signInTriageStep_eq]
        show (s.calendar ++ [_]) ++ es = _
        rw [List.append_assoc]
        rfl
      · intro e he
        rcases List.mem_cons.mp he with he | he
        · subst he
          exact ⟨rfl, ⟨s.signInTriageQueue.thisQueue.headI, List.head!_mem_self hne, rfl⟩,
            ⟨s.rng.triage.idx, rfl⟩⟩
        · obtain ⟨h1, ⟨p, hp, h2⟩, ⟨n, h3⟩⟩ := hes e he
          refine ⟨h1, ⟨p, ?_, h2⟩, ⟨n, h3⟩⟩
          rw [signInTriageStep_eq] at hp
          exact List.mem_of_mem_tail hp
    · refine ⟨[], ?_, by simp⟩
      rw [ProcessSignInTriageAux, if_neg hcond, List.append_nil]

lemma processSignInTriageAux_serve (fuel : ℕ) (s : SimState)
    (hf : s.signInTriageQueue.thisQueue.length ≤ fuel) :
    (ProcessSignInTriageAux fuel s).signInTriageQueue.thisQueue
      = s.signInTriageQueue.thisQueue.drop
          (servedCount s.signInTriageQueue s.signInTriageResource) ∧
    (ProcessSignInTriageAux fuel s).signInTriageWait.sumStat
      = s.signInTriageWait.sumStat +
          waitTotal s.clock triageElig
            (s.signInTriageQueue.thisQueue.take
              (servedCount s.signInTriageQueue s.signInTriageResource)) ∧
    (ProcessSignInTriageAux fuel s).signInTriageWait.numberOfObservations
      = s.signInTriageWait.numberOfObservations +
          servedCount s.signInTriageQueue s.signInTriageResource := by
  induction fuel generalizing s with
  | zero =>
    have hq : s.signInTriageQueue.thisQueue = [] :=
      List.length_eq_zero.mp (Nat.le_zero.mp hf)
    simp [ProcessSignInTriageAux, servedCount, hq]
  | succ fuel ih =>
    by_cases hcond :
        0 < s.signInTriageQueue.numQueue ∧ (s.signInTriageResource.seize s.clock).1 = true
    · have hstep : ProcessSignInTriageAux (fuel + 1) s
          = ProcessSignInTriageAux fuel (signInTriageStep s) := by
        rw [ProcessSignInTriageAux, if_pos hcond]
      have hne : s.signInTriageQueue.thisQueue ≠ [] := by
        have h1 := hcond.1
        simp only [FIFOQueue.numQueue] at h1
        exact List.ne_nil_of_length_pos h1
      obtain ⟨p0, t, hq⟩ := List.exists_cons_of_ne_nil hne
      have hseize : s.signInTriageResource.busy + 1 ≤ s.signInTriageResource.numberOfUnits :=
        (Resource.seize_fst_iff _ _).mp hcond.2
      have hqs : (signInTriageStep s).signInTriageQueue.thisQueue = t := by
        rw [signInTriageStep_eq]
        show (s.signInTriageQueue.removeHead s.clock).thisQueue = t
        rw [FIFOQueue.removeHead, hq]
        rfl
      have hlen : (signInTriageStep s).signInTriageQueue.thisQueue.length ≤ fuel := by
        rw [hqs]
        rw [hq] at hf
        simpa using Nat.le_of_succ_le_succ hf
      have hserved :
          servedCount s.signInTriageQueue s.signInTriageResource
            = servedCount (signInTriageStep s).signInTriageQueue
                (signInTriageStep s).signInTriageResource + 1 := by
        unfold servedCount
        rw [hqs, hq]
        have hbusy : (signInTriageStep s).signInTriageResource.busy
            = s.signInTriageResource.busy + 1 := by
          rw [signInTriageStep_eq]
          exact Resource.seize_snd_busy _ _ hcond.2
        have hunits : (signInTriageStep s).signInTriageResource.numberOfUnits
            = s.signInTriageResource.numberOfUnits := by
          rw [signInTriageStep_eq]
          exact Resource.seize_snd_units _ _ hcond.2
        rw [hbusy, hunits]
        simp only [List.length_cons]
        omega
      have hsum : (signInTriageStep s).signInTriageWait.sumStat
          = s.signInTriageWait.sumStat + (s.clock - p0.createTime) := by
        rw [signInTriageStep_eq]
        show s.signInTriageWait.sumStat +
            (s.clock - s.signInTriageQueue.thisQueue.headI.createTime) = _
        rw [hq]
        rfl
      have hcount : (signInTriageStep s).signInTriageWait.numberOfObservations
          = s.signInTriageWait.numberOfObservations + 1 := rfl
      have hclock : (signInTriageStep s).clock = s.clock := rfl
      obtain ⟨ih1, ih2, ih3⟩ := ih (signInTriageStep s) hlen
      refine ⟨?_, ?_, ?_⟩
      · rw [hstep, ih1, hqs, hserved, hq, List.drop_succ_cons]
      · rw [hstep, ih2, hqs, hserved, hq, List.take_succ_cons, waitTotal_cons, hsum, hclock,
          add_assoc]
        rfl
      · rw [hstep, ih3, hserved, hcount]
        omega
    · have hrun : ProcessSignInTriageAux (fuel + 1) s = s := by
        rw [ProcessSignInTriageAux, if_neg hcond]
      have hserved : servedCount s.signInTriageQueue s.signInTriageResource = 0 := by
        unfold servedCount
        by_cases hlen : s.signInTriageQueue.thisQueue.length = 0
        · omega
        · have hseize : ¬ ((s.signInTriageResource.seize s.clock).1 = true) := by
            intro hc
            exact hcond ⟨by simpa [FIFOQueue.numQueue] using Nat.pos_of_ne_zero hlen, hc⟩
          rw [Resource.seize_fst_iff] at hseize
          omega
      rw [hrun, hserved]
      simp


/-! ### Registration drain-loop characterization (generated analogues) -/

lemma processRegistrationAux_frame (fuel : ℕ) (s : SimState) :
    (ProcessRegistrationAux fuel s).clock = s.clock ∧
    (ProcessRegistrationAux fuel s).signInTriageQueue = s.signInTriageQueue ∧
    (ProcessRegistrationAux fuel s).examinationQueue = s.examinationQueue ∧
    (ProcessRegistrationAux fuel s).traumaQueue = s.traumaQueue ∧
    (ProcessRegistrationAux fuel s).treatmentQueue = s.treatmentQueue ∧
    (ProcessRegistrationAux fuel s).rng.arrival = s.rng.arrival ∧
    (ProcessRegistrationAux fuel s).rng.triage = s.rng.triage ∧
    (ProcessRegistrationAux fuel s).rng.examination = s.rng.examination ∧
    (ProcessRegistrationAux fuel s).rng.trauma = s.rng.trauma ∧
    (ProcessRegistrationAux fuel s).rng.treatment = s.rng.treatment ∧
    (ProcessRegistrationAux fuel s).rng.traumaDecision = s.rng.traumaDecision ∧
    (ProcessRegistrationAux fuel s).rng.dischargeDecision = s.rng.dischargeDecision ∧
    (ProcessRegistrationAux fuel s).rng.registration.vals = s.rng.registration.vals ∧
    (ProcessRegistrationAux fuel s).patientsCompleted = s.patientsCompleted ∧
    (ProcessRegistrationAux fuel s).totalArrivals = s.totalArrivals ∧
    (ProcessRegistrationAux fuel s).traumaPatients = s.traumaPatients ∧
    (ProcessRegistrationAux fuel s).nonTraumaPatients = s.nonTraumaPatients ∧
    (ProcessRegistrationAux fuel s).nsTotalArrivals = s.nsTotalArrivals ∧
    (ProcessRegistrationAux fuel s).nsTraumaPatients = s.nsTraumaPatients ∧
    (ProcessRegistrationAux fuel s).nsNonTraumaPatients = s.nsNonTraumaPatients ∧
    (ProcessRegistrationAux fuel s).nsPatientsCompleted = s.nsPatientsCompleted ∧
    (ProcessRegistrationAux fuel s).traumaPercentage = s.traumaPercentage ∧
    (ProcessRegistrationAux fuel s).nsTraumaPercentage = s.nsTraumaPercentage ∧
    (ProcessRegistrationAux fuel s).arrivalRatesByHour = s.arrivalRatesByHour ∧
    (ProcessRegistrationAux fuel s).signInTriageWait = s.signInTriageWait ∧
    (ProcessRegistrationAux fuel s).examinationWait = s.examinationWait ∧
    (ProcessRegistrationAux fuel s).traumaWait = s.traumaWait ∧
    (ProcessRegistrationAux fuel s).treatmentWait = s.treatmentWait := by
  induction fuel generalizing s with
  | zero =>
    exact ⟨rfl, rfl, rfl, rfl, rfl, rfl, rfl, rfl, rfl, rfl, rfl, rfl, rfl, rfl, rfl, rfl,
      rfl, rfl, rfl, rfl, rfl, rfl, rfl, rfl, rfl, rfl, rfl, rfl⟩
  | succ fuel ih =>
    rw [ProcessRegistrationAux]
    split
    · exact ih _
    · exact ⟨rfl, rfl, rfl, rfl, rfl, rfl, rfl, rfl, rfl, rfl, rfl, rfl, rfl, rfl, rfl, rfl,
        rfl, rfl, rfl, rfl, rfl, rfl, rfl, rfl, rfl, rfl, rfl, rfl⟩

lemma registrationStep_eq (s : SimState) :
    registrationStep s =
      { s with
        registrationResource := (s.registrationResource.seize s.clock).2
        registrationQueue := s.registrationQueue.removeHead s.clock
        registrationWait :=
          s.registrationWait.record (s.clock - s.registrationQueue.thisQueue.headI.triageTime)
        rng := { s.rng with registration := ⟨s.rng.registration.vals, s.rng.registration.idx + 1⟩ }
        calendar := s.calendar ++
          [{ eventType := .EndRegistration,
             eventTime := s.clock + s.rng.registration.vals s.rng.registration.idx,
             whichObject := some s.registrationQueue.thisQueue.headI }] } := rfl

lemma processRegistrationAux_calendar (fuel : ℕ) (s : SimState) :
    ∃ es : List Event,
      (ProcessRegistrationAux fuel s).calendar = s.calendar ++ es ∧
      ∀ e ∈ es, e.eventType = .EndRegistration ∧
        (∃ p ∈ s.registrationQueue.thisQueue, e.whichObject = some p) ∧
        ∃ n, e.eventTime = s.clock + s.rng.registration.vals n := by
  induction fuel generalizing s with
  | zero => exact ⟨[], by simp [ProcessRegistrationAux], by simp⟩
  | succ fuel ih =>
    by_cases hcond :
        0 < s.registrationQueue.numQueue ∧ (s.registrationResource.seize s.clock).1 = true
    · have hstep : ProcessRegistrationAux (fuel + 1) s
          = ProcessRegistrationAux fuel (registrationStep s) := by
        rw [ProcessRegistrationAux, if_pos hcond]
      have hne : s.registrationQueue.thisQueue ≠ [] := by
        have h1 := hcond.1
        simp only [FIFOQueue.numQueue] at h1
        exact List.ne_nil_of_length_pos h1
      obtain ⟨es, hcal, hes⟩ := ih (registrationStep s)
      refine ⟨{ eventType := .EndRegistration,
                eventTime := s.clock + s.rng.registration.vals s.rng.registration.idx,
                whichObject := some s.registrationQueue.thisQueue.headI } :: es, ?_, ?_⟩
      · rw [hstep, hcal, registrationStep_eq]
        show (s.calendar ++ [_]) ++ es = _
        rw [List.append_assoc]
        rfl
      · intro e he
        rcases List.mem_cons.mp he with he | he
        · subst he
          exact ⟨rfl, ⟨s.registrationQueue.thisQueue.headI, List.head!_mem_self hne, rfl⟩,
            ⟨s.rng.registration.idx, rfl⟩⟩
        · obtain ⟨h1, ⟨p, hp, h2⟩, ⟨n, h3⟩⟩ := hes e he
          refine ⟨h1, ⟨p, ?_, h2⟩, ⟨n, h3⟩⟩
          rw [registrationStep_eq] at hp
          exact List.mem_of_mem_tail hp
    · refine ⟨[], ?_, by simp⟩
      rw [ProcessRegistrationAux, if_neg hcond, List.append_nil]

lemma processRegistrationAux_serve (fuel : ℕ) (s : SimState)
    (hf : s.registrationQueue.thisQueue.length ≤ fuel) :
    (ProcessRegistrationAux fuel s).registrationQueue.thisQueue
      = s.registrationQueue.thisQueue.drop
          (servedCount s.registrationQueue s.registrationResource) ∧
    (ProcessRegistrationAux fuel s).registrationWait.sumStat
      = s.registrationWait.sumStat +
          waitTotal s.clock registrationElig
            (s.registrationQueue.thisQueue.take
              (servedCount s.registrationQueue s.registrationResource)) ∧
    (ProcessRegistrationAux fuel s).registrationWait.numberOfObservations
      = s.registrationWait.numberOfObservations +
          servedCount s.registrationQueue s.registrationResource := by
  induction fuel generalizing s with
  | zero =>
    have hq : s.registrationQueue.thisQueue = [] :=
      List.length_eq_zero.mp (Nat.le_zero.mp hf)
    simp [ProcessRegistrationAux, servedCount, hq]
  | succ fuel ih =>
    by_cases hcond :
        0 < s.registrationQueue.numQueue ∧ (s.registrationResource.seize s.clock).1 = true
    · have hstep : ProcessRegistrationAux (fuel + 1) s
          = ProcessRegistrationAux fuel (registrationStep s) := by
        rw [ProcessRegistrationAux, if_pos hcond]
      have hne : s.registrationQueue.thisQueue ≠ [] := by
        have h1 := hcond.1
        simp only [FIFOQueue.numQueue] at h1
        exact List.ne_nil_of_length_pos h1
      obtain ⟨p0, t, hq⟩ := List.exists_cons_of_ne_nil hne
      have hseize : s.registrationResource.busy + 1 ≤ s.registrationResource.numberOfUnits :=
        (Resource.seize_fst_iff _ _).mp hcond.2
      have hqs : (registrationStep s).registrationQueue.thisQueue = t := by
        rw [registrationStep_eq]
        show (s.registrationQueue.removeHead s.clock).thisQueue = t
        rw [FIFOQueue.removeHead, hq]
        rfl
      have hlen : (registrationStep s).registrationQueue.thisQueue.length ≤ fuel := by
        rw [hqs]
        rw [hq] at hf
        simpa using Nat.le_of_succ_le_succ hf
      have hserved :
          servedCount s.registrationQueue s.registrationResource
            = servedCount (registrationStep s).registrationQueue
                (registrationStep s).registrationResource + 1 := by
        unfold servedCount
        rw [hqs, hq]
        have hbusy : (registrationStep s).registrationResource.busy
            = s.registrationResource.busy + 1 := by
          rw [registrationStep_eq]
          exact Resource.seize_snd_busy _ _ hcond.2
        have hunits : (registrationStep s).registrationResource.numberOfUnits
            = s.registrationResource.numberOfUnits := by
          rw [registrationStep_eq]
          exact Resource.seize_snd_units _ _ hcond.2
        rw [hbusy, hunits]
        simp only [List.length_cons]
        omega
      have hsum : (registrationStep s).registrationWait.sumStat
          = s.registrationWait.sumStat + (s.clock - p0.triageTime) := by
        rw [registrationStep_eq]
        show s.registrationWait.sumStat +
            (s.clock - s.registrationQueue.thisQueue.headI.triageTime) = _
        rw [hq]
        rfl
      have hcount : (registrationStep s).registrationWait.numberOfObservations
          = s.registrationWait.numberOfObservations + 1 := rfl
      have hclock : (registrationStep s).clock = s.clock := rfl
      obtain ⟨ih1, ih2, ih3⟩ := ih (registrationStep s) hlen
      refine ⟨?_, ?_, ?_⟩
      · rw [hstep, ih1, hqs, hserved, hq, List.drop_succ_cons]
      · rw [hstep, ih2, hqs, hserved, hq, List.take_succ_cons, waitTotal_cons, hsum, hclock,
          add_assoc]
        rfl
      · rw [hstep, ih3, hserved, hcount]
        omega
    · have hrun : ProcessRegistrationAux (fuel + 1) s = s := by
        rw [ProcessRegistrationAux, if_neg hcond]
      have hserved : servedCount s.registrationQueue s.registrationResource = 0 := by
        unfold servedCount
        by_cases hlen : s.registrationQueue.thisQueue.length = 0
        · omega
        · have hseize : ¬ ((s.registrationResource.seize s.clock).1 = true) := by
            intro hc
            exact hcond ⟨by simpa [FIFOQueue.numQueue] using Nat.pos_of_ne_zero hlen, hc⟩
          rw [Resource.seize_fst_iff] at hseize
          omega
      rw [hrun, hserved]
      simp


/-! ### Examination drain-loop characterization (generated analogues) -/

lemma processExaminationAux_frame (fuel : ℕ) (s : SimState) :
    (ProcessExaminationAux fuel s).clock = s.clock ∧
    (ProcessExaminationAux fuel s).registrationQueue = s.registrationQueue ∧
    (ProcessExaminationAux fuel s).signInTriageQueue = s.signInTriageQueue ∧
    (ProcessExaminationAux fuel s).traumaQueue = s.traumaQueue ∧
    (ProcessExaminationAux fuel s).treatmentQueue = s.treatmentQueue ∧
    (ProcessExaminationAux fuel s).rng.arrival = s.rng.arrival ∧
    (ProcessExaminationAux fuel s).rng.registration = s.rng.registration ∧
    (ProcessExaminationAux fuel s).rng.triage = s.rng.triage ∧
    (ProcessExaminationAux fuel s).rng.trauma = s.rng.trauma ∧
    (ProcessExaminationAux fuel s).rng.treatment = s.rng.treatment ∧
    (ProcessExaminationAux fuel s).rng.traumaDecision = s.rng.traumaDecision ∧
    (ProcessExaminationAux fuel s).rng.dischargeDecision = s.rng.dischargeDecision ∧
    (ProcessExaminationAux fuel s).rng.examination.vals = s.rng.examination.vals ∧
    (ProcessExaminationAux fuel s).patientsCompleted = s.patientsCompleted ∧
    (ProcessExaminationAux fuel s).totalArrivals = s.totalArrivals ∧
    (ProcessExaminationAux fuel s).traumaPatients = s.traumaPatients ∧
    (ProcessExaminationAux fuel s).nonTraumaPatients = s.nonTraumaPatients ∧
    (ProcessExaminationAux fuel s).nsTotalArrivals = s.nsTotalArrivals ∧
    (ProcessExaminationAux fuel s).nsTraumaPatients = s.nsTraumaPatients ∧
    (ProcessExaminationAux fuel s).nsNonTraumaPatients = s.nsNonTraumaPatients ∧
    (ProcessExaminationAux fuel s).nsPatientsCompleted = s.nsPatientsCompleted ∧
    (ProcessExaminationAux fuel s).traumaPercentage = s.traumaPercentage ∧
    (ProcessExaminationAux fuel s).nsTraumaPercentage = s.nsTraumaPercentage ∧
    (ProcessExaminationAux fuel s).arrivalRatesByHour = s.arrivalRatesByHour ∧
    (ProcessExaminationAux fuel s).registrationWait = s.registrationWait ∧
    (ProcessExaminationAux fuel s).signInTriageWait = s.signInTriageWait ∧
    (ProcessExaminationAux fuel s).traumaWait = s.traumaWait ∧
    (ProcessExaminationAux fuel s).treatmentWait = s.treatmentWait := by
  induction fuel generalizing s with
  | zero =>
    exact ⟨rfl, rfl, rfl, rfl, rfl, rfl, rfl, rfl, rfl, rfl, rfl, rfl, rfl, rfl, rfl, rfl,
      rfl, rfl, rfl, rfl, rfl, rfl, rfl, rfl, rfl, rfl, rfl, rfl⟩
  | succ fuel ih =>
    rw [ProcessExaminationAux]
    split
    · exact ih _
    · exact ⟨rfl, rfl, rfl, rfl, rfl, rfl, rfl, rfl, rfl, rfl, rfl, rfl, rfl, rfl, rfl, rfl,
        rfl, rfl, rfl, rfl, rfl, rfl, rfl, rfl, rfl, rfl, rfl, rfl⟩

lemma examinationStep_eq (s : SimState) :
    examinationStep s =
      { s with
        examinationResource := (s.examinationResource.seize s.clock).2
        examinationQueue := s.examinationQueue.removeHead s.clock
        examinationWait :=
          s.examinationWait.record (s.clock - s.examinationQueue.thisQueue.headI.registrationTime)
        rng := { s.rng with examination := ⟨s.rng.examination.vals, s.rng.examination.idx + 1⟩ }
        calendar := s.calendar ++
          [{ eventType := .EndExamination,
             eventTime := s.clock + ExamServiceTime (s.rng.examination.vals s.rng.examination.idx),
             whichObject := some s.examinationQueue.thisQueue.headI }] } := rfl

lemma processExaminationAux_calendar (fuel : ℕ) (s : SimState) :
    ∃ es : List Event,
      (ProcessExaminationAux fuel s).calendar = s.calendar ++ es ∧
      ∀ e ∈ es, e.eventType = .EndExamination ∧
        (∃ p ∈ s.examinationQueue.thisQueue, e.whichObject = some p) ∧
        ∃ n, e.eventTime = s.clock + ExamServiceTime (s.rng.examination.vals n) := by
  induction fuel generalizing s with
  | zero => exact ⟨[], by simp [ProcessExaminationAux], by simp⟩
  | succ fuel ih =>
    by_cases hcond :
        0 < s.examinationQueue.numQueue ∧ (s.examinationResource.seize s.clock).1 = true
    · have hstep : ProcessExaminationAux (fuel + 1) s
          = ProcessExaminationAux fuel (examinationStep s) := by
        rw [ProcessExaminationAux, if_pos hcond]
      have hne : s.examinationQueue.thisQueue ≠ [] := by
        have h1 := hcond.1
        simp only [FIFOQueue.numQueue] at h1
        exact List.ne_nil_of_length_pos h1
      obtain ⟨es, hcal, hes⟩ := ih (examinationStep s)
      refine ⟨{ eventType := .EndExamination,
                eventTime := s.clock + ExamServiceTime (s.rng.examination.vals s.rng.examination.idx),
                whichObject := some s.examinationQueue.thisQueue.headI } :: es, ?_, ?_⟩
      · rw [hstep, hcal, examinationStep_eq]
        show (s.calendar ++ [_]) ++ es = _
        rw [List.append_assoc]
        rfl
      · intro e he
        rcases List.mem_cons.mp he with he | he
        · subst he
          exact ⟨rfl, ⟨s.examinationQueue.thisQueue.headI, List.head!_mem_self hne, rfl⟩,
            ⟨s.rng.examination.idx, rfl⟩⟩
        · obtain ⟨h1, ⟨p, hp, h2⟩, ⟨n, h3⟩⟩ := hes e he
          refine ⟨h1, ⟨p, ?_, h2⟩, ⟨n, h3⟩⟩
          rw [examinationStep_eq] at hp
          exact List.mem_of_mem_tail hp
    · refine ⟨[], ?_, by simp⟩
      rw [ProcessExaminationAux, if_neg hcond, List.append_nil]

lemma processExaminationAux_serve (fuel : ℕ) (s : SimState)
    (hf : s.examinationQueue.thisQueue.length ≤ fuel) :
    (ProcessExaminationAux fuel s).examinationQueue.thisQueue
      = s.examinationQueue.thisQueue.drop
          (servedCount s.examinationQueue s.examinationResource) ∧
    (ProcessExaminationAux fuel s).examinationWait.sumStat
      = s.examinationWait.sumStat +
          waitTotal s.clock examinationElig
            (s.examinationQueue.thisQueue.take
              (servedCount s.examinationQueue s.examinationResource)) ∧
    (ProcessExaminationAux fuel s).examinationWait.numberOfObservations
      = s.examinationWait.numberOfObservations +
          servedCount s.examinationQueue s.examinationResource := by
  induction fuel generalizing s with
  | zero =>
    have hq : s.examinationQueue.thisQueue = [] :=
      List.length_eq_zero.mp (Nat.le_zero.mp hf)
    simp [ProcessExaminationAux, servedCount, hq]
  | succ fuel ih =>
    by_cases hcond :
        0 < s.examinationQueue.numQueue ∧ (s.examinationResource.seize s.clock).1 = true
    · have hstep : ProcessExaminationAux (fuel + 1) s
          = ProcessExaminationAux fuel (examinationStep s) := by
        rw [ProcessExaminationAux, if_pos hcond]
      have hne : s.examinationQueue.thisQueue ≠ [] := by
        have h1 := hcond.1
        simp only [FIFOQueue.numQueue] at h1
        exact List.ne_nil_of_length_pos h1
      obtain ⟨p0, t, hq⟩ := List.exists_cons_of_ne_nil hne
      have hseize : s.examinationResource.busy + 1 ≤ s.examinationResource.numberOfUnits :=
        (Resource.seize_fst_iff _ _).mp hcond.2
      have hqs : (examinationStep s).examinationQueue.thisQueue = t := by
        rw [examinationStep_eq]
        show (s.examinationQueue.removeHead s.clock).thisQueue = t
        rw [FIFOQueue.removeHead, hq]
        rfl
      have hlen : (examinationStep s).examinationQueue.thisQueue.length ≤ fuel := by
        rw [hqs]
        rw [hq] at hf
        simpa using Nat.le_of_succ_le_succ hf
      have hserved :
          servedCount s.examinationQueue s.examinationResource
            = servedCount (examinationStep s).examinationQueue
                (examinationStep s).examinationResource + 1 := by
        unfold servedCount
        rw [hqs, hq]
        have hbusy : (examinationStep s).examinationResource.busy
            = s.examinationResource.busy + 1 := by
          rw [examinationStep_eq]
          exact Resource.seize_snd_busy _ _ hcond.2
        have hunits : (examinationStep s).examinationResource.numberOfUnits
            = s.examinationResource.numberOfUnits := by
          rw [examinationStep_eq]
          exact Resource.seize_snd_units _ _ hcond.2
        rw [hbusy, hunits]
        simp only [List.length_cons]
        omega
      have hsum : (examinationStep s).examinationWait.sumStat
          = s.examinationWait.sumStat + (s.clock - p0.registrationTime) := by
        rw [examinationStep_eq]
        show s.examinationWait.sumStat +
            (s.clock - s.examinationQueue.thisQueue.headI.registrationTime) = _
        rw [hq]
        rfl
      have hcount : (examinationStep s).examinationWait.numberOfObservations
          = s.examinationWait.numberOfObservations + 1 := rfl
      have hclock : (examinationStep s).clock = s.clock := rfl
      obtain ⟨ih1, ih2, ih3⟩ := ih (examinationStep s) hlen
      refine ⟨?_, ?_, ?_⟩
      · rw [hstep, ih1, hqs, hserved, hq, List.drop_succ_cons]
      · rw [hstep, ih2, hqs, hserved, hq, List.take_succ_cons, waitTotal_cons, hsum, hclock,
          add_assoc]
        rfl
      · rw [hstep, ih3, hserved, hcount]
        omega
    · have hrun : ProcessExaminationAux (fuel + 1) s = s := by
        rw [ProcessExaminationAux, if_neg hcond]
      have hserved : servedCount s.examinationQueue s.examinationResource = 0 := by
        unfold servedCount
        by_cases hlen : s.examinationQueue.thisQueue.length = 0
        · omega
        · have hseize : ¬ ((s.examinationResource.seize s.clock).1 = true) := by
            intro hc
            exact hcond ⟨by simpa [FIFOQueue.numQueue] using Nat.pos_of_ne_zero hlen, hc⟩
          rw [Resource.seize_fst_iff] at hseize
          omega
      rw [hrun, hserved]
      simp


/-! ### Trauma drain-loop characterization (generated analogues) -/

lemma processTraumaAux_frame (fuel : ℕ) (s : SimState) :
    (ProcessTraumaAux fuel s).clock = s.clock ∧
    (ProcessTraumaAux fuel s).registrationQueue = s.registrationQueue ∧
    (ProcessTraumaAux fuel s).examinationQueue = s.examinationQueue ∧
    (ProcessTraumaAux fuel s).signInTriageQueue = s.signInTriageQueue ∧
    (ProcessTraumaAux fuel s).treatmentQueue = s.treatmentQueue ∧
    (ProcessTraumaAux fuel s).rng.arrival = s.rng.arrival ∧
    (ProcessTraumaAux fuel s).rng.registration = s.rng.registration ∧
    (ProcessTraumaAux fuel s).rng.examination = s.rng.examination ∧
    (ProcessTraumaAux fuel s).rng.triage = s.rng.triage ∧
    (ProcessTraumaAux fuel s).rng.treatment = s.rng.treatment ∧
    (ProcessTraumaAux fuel s).rng.traumaDecision = s.rng.traumaDecision ∧
    (ProcessTraumaAux fuel s).rng.dischargeDecision = s.rng.dischargeDecision ∧
    (ProcessTraumaAux fuel s).rng.trauma.vals = s.rng.trauma.vals ∧
    (ProcessTraumaAux fuel s).patientsCompleted = s.patientsCompleted ∧
    (ProcessTraumaAux fuel s).totalArrivals = s.totalArrivals ∧
    (ProcessTraumaAux fuel s).traumaPatients = s.traumaPatients ∧
    (ProcessTraumaAux fuel s).nonTraumaPatients = s.nonTraumaPatients ∧
    (ProcessTraumaAux fuel s).nsTotalArrivals = s.nsTotalArrivals ∧
    (ProcessTraumaAux fuel s).nsTraumaPatients = s.nsTraumaPatients ∧
    (ProcessTraumaAux fuel s).nsNonTraumaPatients = s.nsNonTraumaPatients ∧
    (ProcessTraumaAux fuel s).nsPatientsCompleted = s.nsPatientsCompleted ∧
    (ProcessTraumaAux fuel s).traumaPercentage = s.traumaPercentage ∧
    (ProcessTraumaAux fuel s).nsTraumaPercentage = s.nsTraumaPercentage ∧
    (ProcessTraumaAux fuel s).arrivalRatesByHour = s.arrivalRatesByHour ∧
    (ProcessTraumaAux fuel s).registrationWait = s.registrationWait ∧
    (ProcessTraumaAux fuel s).examinationWait = s.examinationWait ∧
    (ProcessTraumaAux fuel s).signInTriageWait = s.signInTriageWait ∧
    (ProcessTraumaAux fuel s).treatmentWait = s.treatmentWait := by
  induction fuel generalizing s with
  | zero =>
    exact ⟨rfl, rfl, rfl, rfl, rfl, rfl, rfl, rfl, rfl, rfl, rfl, rfl, rfl, rfl, rfl, rfl,
      rfl, rfl, rfl, rfl, rfl, rfl, rfl, rfl, rfl, rfl, rfl, rfl⟩
  | succ fuel ih =>
    rw [ProcessTraumaAux]
    split
    · exact ih _
    · exact ⟨rfl, rfl, rfl, rfl, rfl, rfl, rfl, rfl, rfl, rfl, rfl, rfl, rfl, rfl, rfl, rfl,
        rfl, rfl, rfl, rfl, rfl, rfl, rfl, rfl, rfl, rfl, rfl, rfl⟩

lemma traumaStep_eq (s : SimState) :
    traumaStep s =
      { s with
        traumaResource := (s.traumaResource.seize s.clock).2
        traumaQueue := s.traumaQueue.removeHead s.clock
        traumaWait :=
          s.traumaWait.record (s.clock - s.traumaQueue.thisQueue.headI.triageTime)
        rng := { s.rng with trauma := ⟨s.rng.trauma.vals, s.rng.trauma.idx + 1⟩ }
        calendar := s.calendar ++
          [{ eventType := .EndTrauma,
             eventTime := s.clock + s.rng.trauma.vals s.rng.trauma.idx,
             whichObject := some s.traumaQueue.thisQueue.headI }] } := rfl

lemma processTraumaAux_calendar (fuel : ℕ) (s : SimState) :
    ∃ es : List Event,
      (ProcessTraumaAux fuel s).calendar = s.calendar ++ es ∧
      ∀ e ∈ es, e.eventType = .EndTrauma ∧
        (∃ p ∈ s.traumaQueue.thisQueue, e.whichObject = some p) ∧
        ∃ n, e.eventTime = s.clock + s.rng.trauma.vals n := by
  induction fuel generalizing s with
  | zero => exact ⟨[], by simp [ProcessTraumaAux], by simp⟩
  | succ fuel ih =>
    by_cases hcond :
        0 < s.traumaQueue.numQueue ∧ (s.traumaResource.seize s.clock).1 = true
    · have hstep : ProcessTraumaAux (fuel + 1) s
          = ProcessTraumaAux fuel (traumaStep s) := by
        rw [ProcessTraumaAux, if_pos hcond]
      have hne : s.traumaQueue.thisQueue ≠ [] := by
        have h1 := hcond.1
        simp only [FIFOQueue.numQueue] at h1
        exact List.ne_nil_of_length_pos h1
      obtain ⟨es, hcal, hes⟩ := ih (traumaStep s)
      refine ⟨{ eventType := .EndTrauma,
                eventTime := s.clock + s.rng.trauma.vals s.rng.trauma.idx,
                whichObject := some s.traumaQueue.thisQueue.headI } :: es, ?_, ?_⟩
      · rw [hstep, hcal, traumaStep_eq]
        show (s.calendar ++ [_]) ++ es = _
        rw [List.append_assoc]
        rfl
      · intro e he
        rcases List.mem_cons.mp he with he | he
        · subst he
          exact ⟨rfl, ⟨s.traumaQueue.thisQueue.headI, List.head!_mem_self hne, rfl⟩,
            ⟨s.rng.trauma.idx, rfl⟩⟩
        · obtain ⟨h1, ⟨p, hp, h2⟩, ⟨n, h3⟩⟩ := hes e he
          refine ⟨h1, ⟨p, ?_, h2⟩, ⟨n, h3⟩⟩
          rw [traumaStep_eq] at hp
          exact List.mem_of_mem_tail hp
    · refine ⟨[], ?_, by simp⟩
      rw [ProcessTraumaAux, if_neg hcond, List.append_nil]

lemma processTraumaAux_serve (fuel : ℕ) (s : SimState)
    (hf : s.traumaQueue.thisQueue.length ≤ fuel) :
    (ProcessTraumaAux fuel s).traumaQueue.thisQueue
      = s.traumaQueue.thisQueue.drop
          (servedCount s.traumaQueue s.traumaResource) ∧
    (ProcessTraumaAux fuel s).traumaWait.sumStat
      = s.traumaWait.sumStat +
          waitTotal s.clock traumaElig
            (s.traumaQueue.thisQueue.take
              (servedCount s.traumaQueue s.traumaResource)) ∧
    (ProcessTraumaAux fuel s).traumaWait.numberOfObservations
      = s.traumaWait.numberOfObservations +
          servedCount s.traumaQueue s.traumaResource := by
  induction fuel generalizing s with
  | zero =>
    have hq : s.traumaQueue.thisQueue = [] :=
      List.length_eq_zero.mp (Nat.le_zero.mp hf)
    simp [ProcessTraumaAux, servedCount, hq]
  | succ fuel ih =>
    by_cases hcond :
        0 < s.traumaQueue.numQueue ∧ (s.traumaResource.seize s.clock).1 = true
    · have hstep : ProcessTraumaAux (fuel + 1) s
          = ProcessTraumaAux fuel (traumaStep s) := by
        rw [ProcessTraumaAux, if_pos hcond]
      have hne : s.traumaQueue.thisQueue ≠ [] := by
        have h1 := hcond.1
        simp only [FIFOQueue.numQueue] at h1
        exact List.ne_nil_of_length_pos h1
      obtain ⟨p0, t, hq⟩ := List.exists_cons_of_ne_nil hne
      have hseize : s.traumaResource.busy + 1 ≤ s.traumaResource.numberOfUnits :=
        (Resource.seize_fst_iff _ _).mp hcond.2
      have hqs : (traumaStep s).traumaQueue.thisQueue = t := by
        rw [traumaStep_eq]
        show (s.traumaQueue.removeHead s.clock).thisQueue = t
        rw [FIFOQueue.removeHead, hq]
        rfl
      have hlen : (traumaStep s).traumaQueue.thisQueue.length ≤ fuel := by
        rw [hqs]
        rw [hq] at hf
        simpa using Nat.le_of_succ_le_succ hf
      have hserved :
          servedCount s.traumaQueue s.traumaResource
            = servedCount (traumaStep s).traumaQueue
                (traumaStep s).traumaResource + 1 := by
        unfold servedCount
        rw [hqs, hq]
        have hbusy : (traumaStep s).traumaResource.busy
            = s.traumaResource.busy + 1 := by
          rw [traumaStep_eq]
          exact Resource.seize_snd_busy _ _ hcond.2
        have hunits : (traumaStep s).traumaResource.numberOfUnits
            = s.traumaResource.numberOfUnits := by
          rw [traumaStep_eq]
          exact Resource.seize_snd_units _ _ hcond.2
        rw [hbusy, hunits]
        simp only [List.length_cons]
        omega
      have hsum : (traumaStep s).traumaWait.sumStat
          = s.traumaWait.sumStat + (s.clock - p0.triageTime) := by
        rw [traumaStep_eq]
        show s.traumaWait.sumStat +
            (s.clock - s.traumaQueue.thisQueue.headI.triageTime) = _
        rw [hq]
        rfl
      have hcount : (traumaStep s).traumaWait.numberOfObservations
          = s.traumaWait.numberOfObservations + 1 := rfl
      have hclock : (traumaStep s).clock = s.clock := rfl
      obtain ⟨ih1, ih2, ih3⟩ := ih (traumaStep s) hlen
      refine ⟨?_, ?_, ?_⟩
      · rw [hstep, ih1, hqs, hserved, hq, List.drop_succ_cons]
      · rw [hstep, ih2, hqs, hserved, hq, List.take_succ_cons, waitTotal_cons, hsum, hclock,
          add_assoc]
        rfl
      · rw [hstep, ih3, hserved, hcount]
        omega
    · have hrun : ProcessTraumaAux (fuel + 1) s = s := by
        rw [ProcessTraumaAux, if_neg hcond]
      have hserved : servedCount s.traumaQueue s.traumaResource = 0 := by
        unfold servedCount
        by_cases hlen : s.traumaQueue.thisQueue.length = 0
        · omega
        · have hseize : ¬ ((s.traumaResource.seize s.clock).1 = true) := by
            intro hc
            exact hcond ⟨by simpa [FIFOQueue.numQueue] using Nat.pos_of_ne_zero hlen, hc⟩
          rw [Resource.seize_fst_iff] at hseize
          omega
      rw [hrun, hserved]
      simp


/-! ### Treatment drain-loop characterization (generated analogues) -/

lemma processTreatmentAux_frame (fuel : ℕ) (s : SimState) :
    (ProcessTreatmentAux fuel s).clock = s.clock ∧
    (ProcessTreatmentAux fuel s).registrationQueue = s.registrationQueue ∧
    (ProcessTreatmentAux fuel s).examinationQueue = s.examinationQueue ∧
    (ProcessTreatmentAux fuel s).traumaQueue = s.traumaQueue ∧
    (ProcessTreatmentAux fuel s).signInTriageQueue = s.signInTriageQueue ∧
    (ProcessTreatmentAux fuel s).rng.arrival = s.rng.arrival ∧
    (ProcessTreatmentAux fuel s).rng.registration = s.rng.registration ∧
    (ProcessTreatmentAux fuel s).rng.examination = s.rng.examination ∧
    (ProcessTreatmentAux fuel s).rng.trauma = s.rng.trauma ∧
    (ProcessTreatmentAux fuel s).rng.triage = s.rng.triage ∧
    (ProcessTreatmentAux fuel s).rng.traumaDecision = s.rng.traumaDecision ∧
    (ProcessTreatmentAux fuel s).rng.dischargeDecision = s.rng.dischargeDecision ∧
    (ProcessTreatmentAux fuel s).rng.treatment.vals = s.rng.treatment.vals ∧
    (ProcessTreatmentAux fuel s).patientsCompleted = s.patientsCompleted ∧
    (ProcessTreatmentAux fuel s).totalArrivals = s.totalArrivals ∧
    (ProcessTreatmentAux fuel s).traumaPatients = s.traumaPatients ∧
    (ProcessTreatmentAux fuel s).nonTraumaPatients = s.nonTraumaPatients ∧
    (ProcessTreatmentAux fuel s).nsTotalArrivals = s.nsTotalArrivals ∧
    (ProcessTreatmentAux fuel s).nsTraumaPatients = s.nsTraumaPatients ∧
    (ProcessTreatmentAux fuel s).nsNonTraumaPatients = s.nsNonTraumaPatients ∧
    (ProcessTreatmentAux fuel s).nsPatientsCompleted = s.nsPatientsCompleted ∧
    (ProcessTreatmentAux fuel s).traumaPercentage = s.traumaPercentage ∧
    (ProcessTreatmentAux fuel s).nsTraumaPercentage = s.nsTraumaPercentage ∧
    (ProcessTreatmentAux fuel s).arrivalRatesByHour = s.arrivalRatesByHour ∧
    (ProcessTreatmentAux fuel s).registrationWait = s.registrationWait ∧
    (ProcessTreatmentAux fuel s).examinationWait = s.examinationWait ∧
    (ProcessTreatmentAux fuel s).traumaWait = s.traumaWait ∧
    (ProcessTreatmentAux fuel s).signInTriageWait = s.signInTriageWait := by
  induction fuel generalizing s with
  | zero =>
    exact ⟨rfl, rfl, rfl, rfl, rfl, rfl, rfl, rfl, rfl, rfl, rfl, rfl, rfl, rfl, rfl, rfl,
      rfl, rfl, rfl, rfl, rfl, rfl, rfl, rfl, rfl, rfl, rfl, rfl⟩
  | succ fuel ih =>
    rw [ProcessTreatmentAux]
    split
    · exact ih _
    · exact ⟨rfl, rfl, rfl, rfl, rfl, rfl, rfl, rfl, rfl, rfl, rfl, rfl, rfl, rfl, rfl, rfl,
        rfl, rfl, rfl, rfl, rfl, rfl, rfl, rfl, rfl, rfl, rfl, rfl⟩

lemma treatmentStep_eq (s : SimState) :
    treatmentStep s =
      { s with
        treatmentResource := (s.treatmentResource.seize s.clock).2
        treatmentQueue := s.treatmentQueue.removeHead s.clock
        treatmentWait :=
          s.treatmentWait.record
            (if s.treatmentQueue.thisQueue.headI.isTrauma then
              s.clock - s.treatmentQueue.thisQueue.headI.traumaTime
            else s.clock - s.treatmentQueue.thisQueue.headI.examinationTime)
        rng := { s.rng with treatment := ⟨s.rng.treatment.vals, s.rng.treatment.idx + 1⟩ }
        calendar := s.calendar ++
          [{ eventType := .EndTreatment,
             eventTime := s.clock + s.rng.treatment.vals s.rng.treatment.idx,
             whichObject := some s.treatmentQueue.thisQueue.headI }] } := rfl

lemma processTreatmentAux_calendar (fuel : ℕ) (s : SimState) :
    ∃ es : List Event,
      (ProcessTreatmentAux fuel s).calendar = s.calendar ++ es ∧
      ∀ e ∈ es, e.eventType = .EndTreatment ∧
        (∃ p ∈ s.treatmentQueue.thisQueue, e.whichObject = some p) ∧
        ∃ n, e.eventTime = s.clock + s.rng.treatment.vals n := by
  induction fuel generalizing s with
  | zero => exact ⟨[], by simp [ProcessTreatmentAux], by simp⟩
  | succ fuel ih =>
    by_cases hcond :
        0 < s.treatmentQueue.numQueue ∧ (s.treatmentResource.seize s.clock).1 = true
    · have hstep : ProcessTreatmentAux (fuel + 1) s
          = ProcessTreatmentAux fuel (treatmentStep s) := by
        rw [ProcessTreatmentAux, if_pos hcond]
      have hne : s.treatmentQueue.thisQueue ≠ [] := by
        have h1 := hcond.1
        simp only [FIFOQueue.numQueue] at h1
        exact List.ne_nil_of_length_pos h1
      obtain ⟨es, hcal, hes⟩ := ih (treatmentStep s)
      refine ⟨{ eventType := .EndTreatment,
                eventTime := s.clock + s.rng.treatment.vals s.rng.treatment.idx,
                whichObject := some s.treatmentQueue.thisQueue.headI } :: es, ?_, ?_⟩
      · rw [hstep, hcal, treatmentStep_eq]
        show (s.calendar ++ [_]) ++ es = _
        rw [List.append_assoc]
        rfl
      · intro e he
        rcases List.mem_cons.mp he with he | he
        · subst he
          exact ⟨rfl, ⟨s.treatmentQueue.thisQueue.headI, List.head!_mem_self hne, rfl⟩,
            ⟨s.rng.treatment.idx, rfl⟩⟩
        · obtain ⟨h1, ⟨p, hp, h2⟩, ⟨n, h3⟩⟩ := hes e he
          refine ⟨h1, ⟨p, ?_, h2⟩, ⟨n, h3⟩⟩
          rw [treatmentStep_eq] at hp
          exact List.mem_of_mem_tail hp
    · refine ⟨[], ?_, by simp⟩
      rw [ProcessTreatmentAux, if_neg hcond, List.append_nil]

lemma processTreatmentAux_serve (fuel : ℕ) (s : SimState)
    (hf : s.treatmentQueue.thisQueue.length ≤ fuel) :
    (ProcessTreatmentAux fuel s).treatmentQueue.thisQueue
      = s.treatmentQueue.thisQueue.drop
          (servedCount s.treatmentQueue s.treatmentResource) ∧
    (ProcessTreatmentAux fuel s).treatmentWait.sumStat
      = s.treatmentWait.sumStat +
          waitTotal s.clock treatmentElig
            (s.treatmentQueue.thisQueue.take
              (servedCount s.treatmentQueue s.treatmentResource)) ∧
    (ProcessTreatmentAux fuel s).treatmentWait.numberOfObservations
      = s.treatmentWait.numberOfObservations +
          servedCount s.treatmentQueue s.treatmentResource := by
  induction fuel generalizing s with
  | zero =>
    have hq : s.treatmentQueue.thisQueue = [] :=
      List.length_eq_zero.mp (Nat.le_zero.mp hf)
    simp [ProcessTreatmentAux, servedCount, hq]
  | succ fuel ih =>
    by_cases hcond :
        0 < s.treatmentQueue.numQueue ∧ (s.treatmentResource.seize s.clock).1 = true
    · have hstep : ProcessTreatmentAux (fuel + 1) s
          = ProcessTreatmentAux fuel (treatmentStep s) := by
        rw [ProcessTreatmentAux, if_pos hcond]
      have hne : s.treatmentQueue.thisQueue ≠ [] := by
        have h1 := hcond.1
        simp only [FIFOQueue.numQueue] at h1
        exact List.ne_nil_of_length_pos h1
      obtain ⟨p0, t, hq⟩ := List.exists_cons_of_ne_nil hne
      have hseize : s.treatmentResource.busy + 1 ≤ s.treatmentResource.numberOfUnits :=
        (Resource.seize_fst_iff _ _).mp hcond.2
      have hqs : (treatmentStep s).treatmentQueue.thisQueue = t := by
        rw [treatmentStep_eq]
        show (s.treatmentQueue.removeHead s.clock).thisQueue = t
        rw [FIFOQueue.removeHead, hq]
        rfl
      have hlen : (treatmentStep s).treatmentQueue.thisQueue.length ≤ fuel := by
        rw [hqs]
        rw [hq] at hf
        simpa using Nat.le_of_succ_le_succ hf
      have hserved :
          servedCount s.treatmentQueue s.treatmentResource
            = servedCount (treatmentStep s).treatmentQueue
                (treatmentStep s).treatmentResource + 1 := by
        unfold servedCount
        rw [hqs, hq]
        have hbusy : (treatmentStep s).treatmentResource.busy
            = s.treatmentResource.busy + 1 := by
          rw [treatmentStep_eq]
          exact Resource.seize_snd_busy _ _ hcond.2
        have hunits : (treatmentStep s).treatmentResource.numberOfUnits
            = s.treatmentResource.numberOfUnits := by
          rw [treatmentStep_eq]
          exact Resource.seize_snd_units _ _ hcond.2
        rw [hbusy, hunits]
        simp only [List.length_cons]
        omega
      have hsum : (treatmentStep s).treatmentWait.sumStat
          = s.treatmentWait.sumStat + (s.clock - treatmentElig p0) := by
        rw [treatmentStep_eq]
        show s.treatmentWait.sumStat +
            (if s.treatmentQueue.thisQueue.headI.isTrauma then
              s.clock - s.treatmentQueue.thisQueue.headI.traumaTime
            else s.clock - s.treatmentQueue.thisQueue.headI.examinationTime) = _
        rw [hq]
        by_cases htr : p0.isTrauma <;> simp [treatmentElig, htr]
      have hcount : (treatmentStep s).treatmentWait.numberOfObservations
          = s.treatmentWait.numberOfObservations + 1 := rfl
      have hclock : (treatmentStep s).clock = s.clock := rfl
      obtain ⟨ih1, ih2, ih3⟩ := ih (treatmentStep s) hlen
      refine ⟨?_, ?_, ?_⟩
      · rw [hstep, ih1, hqs, hserved, hq, List.drop_succ_cons]
      · rw [hstep, ih2, hqs, hserved, hq, List.take_succ_cons, waitTotal_cons, hsum, hclock,
          add_assoc]
      · rw [hstep, ih3, hserved, hcount]
        omega
    · have hrun : ProcessTreatmentAux (fuel + 1) s = s := by
        rw [ProcessTreatmentAux, if_neg hcond]
      have hserved : servedCount s.treatmentQueue s.treatmentResource = 0 := by
        unfold servedCount
        by_cases hlen : s.treatmentQueue.thisQueue.length = 0
        · omega
        · have hseize : ¬ ((s.treatmentResource.seize s.clock).1 = true) := by
            intro hc
            exact hcond ⟨by simpa [FIFOQueue.numQueue] using Nat.pos_of_ne_zero hlen, hc⟩
          rw [Resource.seize_fst_iff] at hseize
          omega
      rw [hrun, hserved]
      simp

/-! ### Handler tameness: clock preservation, calendar growth, stream values -/

lemma StreamValsEq.refl (r : RNG) : StreamValsEq r r :=
  ⟨rfl, rfl, rfl, rfl, rfl, rfl, rfl, rfl⟩

lemma StreamValsEq.trans {a b c : RNG} (h1 : StreamValsEq a b) (h2 : StreamValsEq b c) :
    StreamValsEq a c := by
  obtain ⟨a1, a2, a3, a4, a5, a6, a7, a8⟩ := h1
  obtain ⟨b1, b2, b3, b4, b5, b6, b7, b8⟩ := h2
  exact ⟨a1.trans b1, a2.trans b2, a3.trans b3, a4.trans b4, a5.trans b5, a6.trans b6,
    a7.trans b7, a8.trans b8⟩

/-- The service-time and interarrival draws are non-negative (true of the
exponential and lognormal transforms of `SimRNG`; the Normal examination
draw is deliberately left unconstrained, since `ExamServiceTime` clamps
it). -/
def delaysOK (r : RNG) : Prop :=
  (∀ n, 0 ≤ r.arrival.vals n) ∧ (∀ n, 0 ≤ r.triage.vals n) ∧
  (∀ n, 0 ≤ r.registration.vals n) ∧ (∀ n, 0 ≤ r.trauma.vals n) ∧
  (∀ n, 0 ≤ r.treatment.vals n)

lemma delaysOK_of_streamValsEq {a b : RNG} (h : StreamValsEq a b) (hd : delaysOK b) :
    delaysOK a := by
  obtain ⟨h1, h2, h3, _, h5, h6, _, _⟩ := h
  obtain ⟨d1, d2, d3, d4, d5⟩ := hd
  exact ⟨by rw [h1]; exact d1, by rw [h2]; exact d2, by rw [h3]; exact d3,
    by rw [h5]; exact d4, by rw [h6]; exact d5⟩

lemma examServiceTime_nonneg (x : ℚ) : 0 ≤ ExamServiceTime x := by
  unfold ExamServiceTime
  split
  · norm_num
  · linarith [not_lt.mp (by assumption : ¬ x < 0)]

/-- A handler invocation at state `s` is tame: it keeps the clock, keeps
every stream's value sequence, and only appends events, all of them at or
after the current clock whenever the delay draws are non-negative. -/
def TameAt (f : SimState → SimState) (s : SimState) : Prop :=
  (f s).clock = s.clock ∧
  StreamValsEq (f s).rng s.rng ∧
  ∃ es, (f s).calendar = s.calendar ++ es ∧
    (delaysOK s.rng → ∀ e ∈ es, s.clock ≤ e.eventTime)

lemma TameAt.comp {f g : SimState → SimState} {s : SimState}
    (hf : TameAt f s) (hg : TameAt g (f s)) : TameAt (fun u => g (f u)) s := by
  obtain ⟨c1, v1, es1, cal1, t1⟩ := hf
  obtain ⟨c2, v2, es2, cal2, t2⟩ := hg
  refine ⟨c2.trans c1, v2.trans v1, es1 ++ es2, ?_, ?_⟩
  · rw [cal2, cal1, List.append_assoc]
  · intro hd e he
    rcases List.mem_append.mp he with he | he
    · exact t1 hd e he
    · have hd2 : delaysOK (f s).rng := delaysOK_of_streamValsEq v1 hd
      have := t2 hd2 e he
      rw [c1] at this
      exact this

lemma tameAt_processSignInTriageAux (fuel : ℕ) (s : SimState) :
    TameAt (ProcessSignInTriageAux fuel) s := by
  obtain ⟨hc, _, _, _, _, f1, f2, f3, f4, f5, f6, f7, f8, _⟩ :=
    processSignInTriageAux_frame fuel s
  obtain ⟨es, hcal, hes⟩ := processSignInTriageAux_calendar fuel s
  refine ⟨hc, ⟨congrArg VarStream.vals f1, f8, congrArg VarStream.vals f2,
    congrArg VarStream.vals f3, congrArg VarStream.vals f4, congrArg VarStream.vals f5,
    congrArg VarStream.vals f6, congrArg VarStream.vals f7⟩, es, hcal, ?_⟩
  intro hd e he
  obtain ⟨-, -, n, hn⟩ := hes e he
  rw [hn]
  have := hd.2.1 n
  linarith

lemma tameAt_processRegistrationAux (fuel : ℕ) (s : SimState) :
    TameAt (ProcessRegistrationAux fuel) s := by
  obtain ⟨hc, _, _, _, _, f1, f2, f3, f4, f5, f6, f7, f8, _⟩ :=
    processRegistrationAux_frame fuel s
  obtain ⟨es, hcal, hes⟩ := processRegistrationAux_calendar fuel s
  refine ⟨hc, ⟨congrArg VarStream.vals f1, congrArg VarStream.vals f2, f8,
    congrArg VarStream.vals f3, congrArg VarStream.vals f4, congrArg VarStream.vals f5,
    congrArg VarStream.vals f6, congrArg VarStream.vals f7⟩, es, hcal, ?_⟩
  intro hd e he
  obtain ⟨-, -, n, hn⟩ := hes e he
  rw [hn]
  have := hd.2.2.1 n
  linarith

lemma tameAt_processExaminationAux (fuel : ℕ) (s : SimState) :
    TameAt (ProcessExaminationAux fuel) s := by
  obtain ⟨hc, _, _, _, _, f1, f2, f3, f4, f5, f6, f7, f8, _⟩ :=
    processExaminationAux_frame fuel s
  obtain ⟨es, hcal, hes⟩ := processExaminationAux_calendar fuel s
  refine ⟨hc, ⟨congrArg VarStream.vals f1, congrArg VarStream.vals f3,
    congrArg VarStream.vals f2, f8, congrArg VarStream.vals f4, congrArg VarStream.vals f5,
    congrArg VarStream.vals f6, congrArg VarStream.vals f7⟩, es, hcal, ?_⟩
  intro _ e he
  obtain ⟨-, -, n, hn⟩ := hes e he
  rw [hn]
  have := examServiceTime_nonneg (s.rng.examination.vals n)
  linarith

lemma tameAt_processTraumaAux (fuel : ℕ) (s : SimState) :
    TameAt (ProcessTraumaAux fuel) s := by
  obtain ⟨hc, _, _, _, _, f1, f2, f3, f4, f5, f6, f7, f8, _⟩ :=
    processTraumaAux_frame fuel s
  obtain ⟨es, hcal, hes⟩ := processTraumaAux_calendar fuel s
  refine ⟨hc, ⟨congrArg VarStream.vals f1, congrArg VarStream.vals f4,
    congrArg VarStream.vals f2, congrArg VarStream.vals f3, f8, congrArg VarStream.vals f5,
    congrArg VarStream.vals f6, congrArg VarStream.vals f7⟩, es, hcal, ?_⟩
  intro hd e he
  obtain ⟨-, -, n, hn⟩ := hes e he
  rw [hn]
  have := hd.2.2.2.1 n
  linarith

lemma tameAt_processTreatmentAux (fuel : ℕ) (s : SimState) :
    TameAt (ProcessTreatmentAux fuel) s := by
  obtain ⟨hc, _, _, _, _, f1, f2, f3, f4, f5, f6, f7, f8, _⟩ :=
    processTreatmentAux_frame fuel s
  obtain ⟨es, hcal, hes⟩ := processTreatmentAux_calendar fuel s
  refine ⟨hc, ⟨congrArg VarStream.vals f1, congrArg VarStream.vals f5,
    congrArg VarStream.vals f2, congrArg VarStream.vals f3, congrArg VarStream.vals f4, f8,
    congrArg VarStream.vals f6, congrArg VarStream.vals f7⟩, es, hcal, ?_⟩
  intro hd e he
  obtain ⟨-, -, n, hn⟩ := hes e he
  rw [hn]
  have := hd.2.2.2.2 n
  linarith

lemma tameAt_processSignInTriage (s : SimState) : TameAt ProcessSignInTriage s :=
  tameAt_processSignInTriageAux _ s

lemma tameAt_processRegistration (s : SimState) : TameAt ProcessRegistration s :=
  tameAt_processRegistrationAux _ s

lemma tameAt_processExamination (s : SimState) : TameAt ProcessExamination s :=
  tameAt_processExaminationAux _ s

lemma tameAt_processTrauma (s : SimState) : TameAt ProcessTrauma s :=
  tameAt_processTraumaAux _ s

lemma tameAt_processTreatment (s : SimState) : TameAt ProcessTreatment s :=
  tameAt_processTreatmentAux _ s

/-- Chaining two tame handler invocations through a silent state change
(`A` differs from `s` only in fields that tameness does not observe). -/
lemma tame_chain {g h : SimState → SimState} {s A : SimState}
    (hclock : A.clock = s.clock) (hcal : A.calendar = s.calendar)
    (hrng : StreamValsEq A.rng s.rng)
    (hg : TameAt g A) (hh : TameAt h (g A)) :
    (h (g A)).clock = s.clock ∧ StreamValsEq (h (g A)).rng s.rng ∧
    ∃ es, (h (g A)).calendar = s.calendar ++ es ∧
      (delaysOK s.rng → ∀ e ∈ es, s.clock ≤ e.eventTime) := by
  obtain ⟨c1, v1, es1, cal1, t1⟩ := hg
  obtain ⟨c2, v2, es2, cal2, t2⟩ := hh
  refine ⟨c2.trans (c1.trans hclock), (v2.trans v1).trans hrng, es1 ++ es2, ?_, ?_⟩
  · rw [cal2, cal1, hcal, List.append_assoc]
  · intro hd e he
    have hdA : delaysOK A.rng := delaysOK_of_streamValsEq hrng hd
    rcases List.mem_append.mp he with he | he
    · have := t1 hdA e he
      rw [hclock] at this
      exact this
    · have hdg : delaysOK (g A).rng := delaysOK_of_streamValsEq v1 hdA
      have := t2 hdg e he
      rw [c1, hclock] at this
      exact this

/-- A single tame handler invocation through a silent state change. -/
lemma tame_single {g : SimState → SimState} {s A : SimState}
    (hclock : A.clock = s.clock) (hcal : A.calendar = s.calendar)
    (hrng : StreamValsEq A.rng s.rng) (hg : TameAt g A) :
    (g A).clock = s.clock ∧ StreamValsEq (g A).rng s.rng ∧
    ∃ es, (g A).calendar = s.calendar ++ es ∧
      (delaysOK s.rng → ∀ e ∈ es, s.clock ≤ e.eventTime) := by
  obtain ⟨c1, v1, es1, cal1, t1⟩ := hg
  refine ⟨c1.trans hclock, v1.trans hrng, es1, by rw [cal1, hcal], ?_⟩
  intro hd e he
  have hdA : delaysOK A.rng := delaysOK_of_streamValsEq hrng hd
  have := t1 hdA e he
  rw [hclock] at this
  exact this

lemma tameAt_endSignInTriage (p : Patient) (s : SimState) :
    TameAt (EndSignInTriage p) s := by
  by_cases htr : p.isTrauma
  · have hrw : EndSignInTriage p s
        = ProcessSignInTriage (ProcessTrauma
            { s with
              signInTriageResource := s.signInTriageResource.free s.clock
              traumaQueue := s.traumaQueue.add s.clock { p with triageTime := s.clock } }) := by
      unfold EndSignInTriage
      dsimp only
      rw [if_pos htr]
    unfold TameAt
    rw [hrw]
    exact tame_chain rfl rfl (StreamValsEq.refl _) (tameAt_processTrauma _)
      (tameAt_processSignInTriage _)
  · have hrw : EndSignInTriage p s
        = ProcessSignInTriage (ProcessRegistration
            { s with
              signInTriageResource := s.signInTriageResource.free s.clock
              registrationQueue :=
                s.registrationQueue.add s.clock { p with triageTime := s.clock } }) := by
      unfold EndSignInTriage
      dsimp only
      rw [if_neg (by simp [htr])]
    unfold TameAt
    rw [hrw]
    exact tame_chain rfl rfl (StreamValsEq.refl _) (tameAt_processRegistration _)
      (tameAt_processSignInTriage _)

lemma tameAt_endRegistration (p : Patient) (s : SimState) :
    TameAt (EndRegistration p) s := by
  have hrw : EndRegistration p s
      = ProcessRegistration (ProcessExamination
          { s with
            registrationResource := s.registrationResource.free s.clock
            examinationQueue :=
              s.examinationQueue.add s.clock { p with registrationTime := s.clock } }) := rfl
  unfold TameAt
  rw [hrw]
  exact tame_chain rfl rfl (StreamValsEq.refl _) (tameAt_processExamination _)
    (tameAt_processRegistration _)

lemma tameAt_endExamination (p : Patient) (s : SimState) :
    TameAt (EndExamination p) s := by
  by_cases hdis : s.rng.dischargeDecision.vals s.rng.dischargeDecision.idx < 40 / 100
  · have hrw : EndExamination p s
        = ProcessExamination
            { s with
              examinationResource := s.examinationResource.free s.clock
              rng := { s.rng with dischargeDecision :=
                ⟨s.rng.dischargeDecision.vals, s.rng.dischargeDecision.idx + 1⟩ }
              patientsCompleted := s.patientsCompleted + 1 } := by
      unfold EndExamination
      dsimp only [VarStream.next]
      rw [if_pos hdis]
    unfold TameAt
    rw [hrw]
    exact tame_single rfl rfl ⟨rfl, rfl, rfl, rfl, rfl, rfl, rfl, rfl⟩
      (tameAt_processExamination _)
  · have hrw : EndExamination p s
        = ProcessExamination (ProcessTreatment
            { s with
              examinationResource := s.examinationResource.free s.clock
              rng := { s.rng with dischargeDecision :=
                ⟨s.rng.dischargeDecision.vals, s.rng.dischargeDecision.idx + 1⟩ }
              treatmentQueue :=
                s.treatmentQueue.add s.clock { p with examinationTime := s.clock } }) := by
      unfold EndExamination
      dsimp only [VarStream.next]
      rw [if_neg hdis]
    unfold TameAt
    rw [hrw]
    exact tame_chain rfl rfl ⟨rfl, rfl, rfl, rfl, rfl, rfl, rfl, rfl⟩
      (tameAt_processTreatment _) (tameAt_processExamination _)

lemma tameAt_endTrauma (p : Patient) (s : SimState) :
    TameAt (EndTrauma p) s := by
  have hrw : EndTrauma p s
      = ProcessTrauma (ProcessTreatment
          { s with
            traumaResource := s.traumaResource.free s.clock
            treatmentQueue := s.treatmentQueue.add s.clock { p with traumaTime := s.clock } }) :=
    rfl
  unfold TameAt
  rw [hrw]
  exact tame_chain rfl rfl (StreamValsEq.refl _) (tameAt_processTreatment _)
    (tameAt_processTrauma _)

lemma tameAt_endTreatment (p : Patient) (s : SimState) :
    TameAt (EndTreatment p) s := by
  have hrw : EndTreatment p s
      = ProcessTreatment
          { s with
            treatmentResource := s.treatmentResource.free s.clock
            patientsCompleted := s.patientsCompleted + 1 } := rfl
  unfold TameAt
  rw [hrw]
  exact tame_single rfl rfl (StreamValsEq.refl _) (tameAt_processTreatment _)

lemma arrivalSeed_facts (s : SimState) :
    (arrivalSeed s).clock = s.clock ∧ (arrivalSeed s).calendar = s.calendar ∧
    StreamValsEq (arrivalSeed s).rng s.rng := by
  unfold arrivalSeed
  dsimp only [VarStream.next]
  by_cases hdr : s.rng.traumaDecision.vals s.rng.traumaDecision.idx < s.traumaPercentage
  · rw [if_pos hdr]
    exact ⟨rfl, rfl, ⟨rfl, rfl, rfl, rfl, rfl, rfl, rfl, rfl⟩⟩
  · rw [if_neg hdr]
    exact ⟨rfl, rfl, ⟨rfl, rfl, rfl, rfl, rfl, rfl, rfl, rfl⟩⟩

lemma arrivalSeedNS_facts (s : SimState) :
    (arrivalSeedNS s).clock = s.clock ∧ (arrivalSeedNS s).calendar = s.calendar ∧
    StreamValsEq (arrivalSeedNS s).rng s.rng := by
  unfold arrivalSeedNS
  dsimp only [VarStream.next]
  by_cases hdr : s.rng.traumaDecision.vals s.rng.traumaDecision.idx < s.nsTraumaPercentage
  · rw [if_pos hdr]
    exact ⟨rfl, rfl, ⟨rfl, rfl, rfl, rfl, rfl, rfl, rfl, rfl⟩⟩
  · rw [if_neg hdr]
    exact ⟨rfl, rfl, ⟨rfl, rfl, rfl, rfl, rfl, rfl, rfl, rfl⟩⟩

lemma tameAt_scheduleNextArrival (s5 : SimState) : TameAt scheduleNextArrival s5 := by
  unfold TameAt scheduleNextArrival
  dsimp only [VarStream.next]
  by_cases hcl : s5.clock < SimulationTime
  · rw [if_pos hcl]
    refine ⟨rfl, ⟨rfl, rfl, rfl, rfl, rfl, rfl, rfl, rfl⟩, [_], rfl, ?_⟩
    intro hd e he
    rcases List.mem_singleton.mp he with rfl
    have := hd.1 s5.rng.arrival.idx
    show s5.clock ≤ s5.clock + s5.rng.arrival.vals s5.rng.arrival.idx
    linarith
  · rw [if_neg hcl]
    exact ⟨rfl, StreamValsEq.refl _, [], by simp, by simp⟩

lemma tameAt_scheduleNextArrivalNS (s5 : SimState) : TameAt scheduleNextArrivalNS s5 := by
  unfold TameAt scheduleNextArrivalNS
  dsimp only [VarStream.next]
  by_cases hcl : s5.clock < SimulationTime
  · rw [if_pos hcl]
    by_cases hrate : 0 < GetCurrentArrivalRate s5 s5.clock
    · rw [if_pos hrate]
      by_cases hbefore : s5.clock + s5.rng.arrival.vals s5.rng.arrival.idx < SimulationTime
      · rw [if_pos hbefore]
        refine ⟨rfl, ⟨rfl, rfl, rfl, rfl, rfl, rfl, rfl, rfl⟩, [_], rfl, ?_⟩
        intro hd e he
        rcases List.mem_singleton.mp he with rfl
        have := hd.1 s5.rng.arrival.idx
        show s5.clock ≤ s5.clock + s5.rng.arrival.vals s5.rng.arrival.idx
        linarith
      · rw [if_neg hbefore]
        exact ⟨rfl, ⟨rfl, rfl, rfl, rfl, rfl, rfl, rfl, rfl⟩, [], by simp, by simp⟩
    · rw [if_neg hrate]
      by_cases hbefore : s5.clock + (60 : ℚ) < SimulationTime
      · rw [if_pos hbefore]
        refine ⟨rfl, StreamValsEq.refl _, [_], rfl, ?_⟩
        intro _ e he
        rcases List.mem_singleton.mp he with rfl
        show s5.clock ≤ s5.clock + (60 : ℚ)
        linarith
      · rw [if_neg hbefore]
        exact ⟨rfl, StreamValsEq.refl _, [], by simp, by simp⟩
  · rw [if_neg hcl]
    exact ⟨rfl, StreamValsEq.refl _, [], by simp, by simp⟩

lemma tameAt_arrival (s : SimState) : TameAt Arrival s := by
  obtain ⟨hc, hcal, hrng⟩ := arrivalSeed_facts s
  unfold TameAt Arrival
  exact tame_chain hc hcal hrng (tameAt_processSignInTriage _) (tameAt_scheduleNextArrival _)

lemma tameAt_arrivalNonStationary (s : SimState) : TameAt ArrivalNonStationary s := by
  obtain ⟨hc, hcal, hrng⟩ := arrivalSeedNS_facts s
  unfold TameAt ArrivalNonStationary
  exact tame_chain hc hcal hrng (tameAt_processSignInTriage _) (tameAt_scheduleNextArrivalNS _)

lemma tameAt_handleEvent (ev : Event) (s1 : SimState) : TameAt (handleEvent ev) s1 := by
  unfold TameAt handleEvent
  rcases ev with ⟨et, t, obj⟩
  cases et <;> cases obj <;>
    first
      | exact tameAt_arrival s1
      | exact tameAt_arrivalNonStationary s1
      | exact tameAt_endSignInTriage _ s1
      | exact tameAt_endRegistration _ s1
      | exact tameAt_endExamination _ s1
      | exact tameAt_endTrauma _ s1
      | exact tameAt_endTreatment _ s1
      | exact ⟨rfl, StreamValsEq.refl _, [], (List.append_nil _).symm, by simp⟩

/-! ### Calendar removal and clock monotonicity -/

lemma calRemove_eq_none {l : List Event} : calRemove l = none ↔ l = [] := by
  cases l with
  | nil => simp [calRemove]
  | cons a t =>
    simp only [calRemove, List.cons_ne_nil, iff_false]
    intro h
    cases hrec : calRemove t with
    | none =>
      rw [hrec] at h
      exact Option.noConfusion h
    | some pr =>
      rcases pr with ⟨e', rest'⟩
      rw [hrec] at h
      dsimp only at h
      split at h <;> exact Option.noConfusion h

lemma calRemove_spec :
    ∀ (l : List Event) (e : Event) (rest : List Event),
      calRemove l = some (e, rest) →
      l.Perm (e :: rest) ∧ ∀ x ∈ rest, e.eventTime ≤ x.eventTime := by
  intro l
  induction l with
  | nil => intro e rest h; simp [calRemove] at h
  | cons a t ih =>
    intro e rest h
    simp only [calRemove] at h
    cases hrec : calRemove t with
    | none =>
      rw [hrec] at h
      dsimp only at h
      have ht : t = [] := calRemove_eq_none.mp hrec
      simp only [Option.some.injEq, Prod.mk.injEq] at h
      obtain ⟨he, hrest⟩ := h
      subst he; subst hrest; subst ht
      exact ⟨List.Perm.refl _, by simp⟩
    | some pr =>
      rcases pr with ⟨e', rest'⟩
      rw [hrec] at h
      dsimp only at h
      obtain ⟨hperm, hmin⟩ := ih e' rest' hrec
      by_cases hle : a.eventTime ≤ e'.eventTime
      · rw [if_pos hle] at h
        simp only [Option.some.injEq, Prod.mk.injEq] at h
        obtain ⟨he, hrest⟩ := h
        subst he; subst hrest
        refine ⟨List.Perm.refl _, ?_⟩
        intro x hx
        have hx' := hperm.mem_iff.mp hx
        rcases List.mem_cons.mp hx' with rfl | hx''
        · exact hle
        · exact le_trans hle (hmin x hx'')
      · rw [if_neg hle] at h
        simp only [Option.some.injEq, Prod.mk.injEq] at h
        obtain ⟨he, hrest⟩ := h
        subst he; subst hrest
        refine ⟨(List.Perm.cons a hperm).trans (List.Perm.swap _ a rest'), ?_⟩
        intro x hx
        rcases List.mem_cons.mp hx with rfl | hx'
        · linarith [lt_of_not_le hle]
        · exact hmin x hx'

/-- All pending events lie at or after the current clock. -/
def calendarOK (s : SimState) : Prop := ∀ e ∈ s.calendar, s.clock ≤ e.eventTime

lemma stepOnce_spec (s s' : SimState) (hstep : stepOnce s = some s') :
    ∃ ev rest, calRemove s.calendar = some (ev, rest) ∧
      s'.clock = ev.eventTime ∧
      (∀ x ∈ rest, ev.eventTime ≤ x.eventTime) ∧
      StreamValsEq s'.rng s.rng ∧
      ∃ es, s'.calendar = rest ++ es ∧
        (delaysOK s.rng → ∀ e ∈ es, ev.eventTime ≤ e.eventTime) := by
  unfold stepOnce at hstep
  cases hrem : calRemove s.calendar with
  | none => rw [hrem] at hstep; simp at hstep
  | some pr =>
    rcases pr with ⟨ev, rest⟩
    rw [hrem] at hstep
    simp only [Option.some.injEq] at hstep
    obtain ⟨hc, hv, es, hcal, ht⟩ :=
      tameAt_handleEvent ev { s with clock := ev.eventTime, calendar := rest }
    refine ⟨ev, rest, rfl, ?_, (calRemove_spec _ _ _ hrem).2, ?_, es, ?_, ?_⟩
    · rw [← hstep]; exact hc
    · rw [← hstep]; exact hv
    · rw [← hstep]; exact hcal
    · intro hd
      exact ht hd

lemma stepOnce_mono (s s' : SimState) (hok : calendarOK s) (hd : delaysOK s.rng)
    (hstep : stepOnce s = some s') :
    s.clock ≤ s'.clock ∧ calendarOK s' ∧ delaysOK s'.rng := by
  obtain ⟨ev, rest, hrem, hclock, hmin, hvals, es, hcal, ht⟩ := stepOnce_spec s s' hstep
  obtain ⟨hperm, -⟩ := calRemove_spec _ _ _ hrem
  have hevmem : ev ∈ s.calendar := hperm.mem_iff.mpr (List.mem_cons_self ev rest)
  refine ⟨by rw [hclock]; exact hok ev hevmem, ?_, delaysOK_of_streamValsEq hvals hd⟩
  intro e he
  rw [hcal] at he
  rw [hclock]
  rcases List.mem_append.mp he with he | he
  · exact hmin e (by exact he)
  · exact ht hd e he

lemma runLoop_mono (fuel : ℕ) (s : SimState) (hok : calendarOK s) (hd : delaysOK s.rng) :
    s.clock ≤ (runLoop fuel s).clock ∧ calendarOK (runLoop fuel s) ∧
      delaysOK (runLoop fuel s).rng := by
  induction fuel generalizing s with
  | zero => exact ⟨le_refl _, hok, hd⟩
  | succ fuel ih =>
    rw [runLoop]
    cases hstep : stepOnce s with
    | none => exact ⟨le_refl _, hok, hd⟩
    | some s1 =>
      obtain ⟨h1, h2, h3⟩ := stepOnce_mono s s1 hok hd hstep
      obtain ⟨g1, g2, g3⟩ := ih s1 h2 h3
      exact ⟨le_trans h1 g1, g2, g3⟩

/-! ### Concrete inputs for witnesses and counterexamples -/

/-- A variate stream yielding a constant value. -/
def constStream (v : ℚ) : VarStream := ⟨fun _ => v, 0⟩

/-- A variate stream yielding the values of a list (0 afterwards). -/
def listStream (l : List ℚ) : VarStream := ⟨fun n => l.getD n 0, 0⟩

/-- A stream bank with every stream constant. -/
def constRNG (v : ℚ) : RNG :=
  { arrival := constStream v, triage := constStream v, registration := constStream v
    examination := constStream v, trauma := constStream v, treatment := constStream v
    traumaDecision := constStream v, dischargeDecision := constStream v }

/-- A fully zeroed simulation state over a given stream bank. -/
def freshState (r : RNG) : SimState :=
  { clock := 0
    calendar := []
    signInTriageResource := Resource.init
    registrationResource := Resource.init
    examinationResource := Resource.init
    traumaResource := Resource.init
    treatmentResource := Resource.init
    signInTriageQueue := FIFOQueue.init
    registrationQueue := FIFOQueue.init
    examinationQueue := FIFOQueue.init
    traumaQueue := FIFOQueue.init
    treatmentQueue := FIFOQueue.init
    signInTriageWait := DTStat.init
    registrationWait := DTStat.init
    examinationWait := DTStat.init
    traumaWait := DTStat.init
    treatmentWait := DTStat.init
    totalArrivals := 0
    traumaPatients := 0
    nonTraumaPatients := 0
    patientsCompleted := 0
    nsTotalArrivals := 0
    nsTraumaPatients := 0
    nsNonTraumaPatients := 0
    nsPatientsCompleted := 0
    arrivalRate := 0
    traumaPercentage := 0
    nsTraumaPercentage := 0
    arrivalRatesByHour := []
    rng := r }

/-- One unit of staff at every station. -/
def staffOne : StaffLevels := ⟨1, 1, 1, 1, 1⟩

/-- A historical rate table of 10 patients per hour for all 18 hours. -/
def ratesTen : List ℚ := List.replicate 18 10

/-! ### Claim theorems -/

/-- C9: at every station, the wait recorded into the station's collector
for each patient served by the drain loop is `Clock` minus that patient's
entry-eligibility timestamp — the creation time at Sign-in/Triage, the
triage-completion time at Registration and Trauma, the
registration-completion time at Examination, and at Treatment the
trauma-completion time for trauma patients and the examination-completion
time otherwise.  The loop serves exactly the queue prefix the free
capacity admits: the collector's sum grows by the total of those waits,
its observation count by the number served, and the queue drops exactly
that prefix. -/
theorem wait_time_recording (s : SimState) :
    ((ProcessSignInTriage s).signInTriageWait.sumStat
        = s.signInTriageWait.sumStat +
            waitTotal s.clock triageElig
              (s.signInTriageQueue.thisQueue.take
                (servedCount s.signInTriageQueue s.signInTriageResource)) ∧
      (ProcessSignInTriage s).signInTriageWait.numberOfObservations
        = s.signInTriageWait.numberOfObservations +
            servedCount s.signInTriageQueue s.signInTriageResource ∧
      (ProcessSignInTriage s).signInTriageQueue.thisQueue
        = s.signInTriageQueue.thisQueue.drop
            (servedCount s.signInTriageQueue s.signInTriageResource)) ∧
    ((ProcessRegistration s).registrationWait.sumStat
        = s.registrationWait.sumStat +
            waitTotal s.clock registrationElig
              (s.registrationQueue.thisQueue.take
                (servedCount s.registrationQueue s.registrationResource)) ∧
      (ProcessRegistration s).registrationWait.numberOfObservations
        = s.registrationWait.numberOfObservations +
            servedCount s.registrationQueue s.registrationResource ∧
      (ProcessRegistration s).registrationQueue.thisQueue
        = s.registrationQueue.thisQueue.drop
            (servedCount s.registrationQueue s.registrationResource)) ∧
    ((ProcessExamination s).examinationWait.sumStat
        = s.examinationWait.sumStat +
            waitTotal s.clock examinationElig
              (s.examinationQueue.thisQueue.take
                (servedCount s.examinationQueue s.examinationResource)) ∧
      (ProcessExamination s).examinationWait.numberOfObservations
        = s.examinationWait.numberOfObservations +
            servedCount s.examinationQueue s.examinationResource ∧
      (ProcessExamination s).examinationQueue.thisQueue
        = s.examinationQueue.thisQueue.drop
            (servedCount s.examinationQueue s.examinationResource)) ∧
    ((ProcessTrauma s).traumaWait.sumStat
        = s.traumaWait.sumStat +
            waitTotal s.clock traumaElig
              (s.traumaQueue.thisQueue.take
                (servedCount s.traumaQueue s.traumaResource)) ∧
      (ProcessTrauma s).traumaWait.numberOfObservations
        = s.traumaWait.numberOfObservations + servedCount s.traumaQueue s.traumaResource ∧
      (ProcessTrauma s).traumaQueue.thisQueue
        = s.traumaQueue.thisQueue.drop (servedCount s.traumaQueue s.traumaResource)) ∧
    ((ProcessTreatment s).treatmentWait.sumStat
        = s.treatmentWait.sumStat +
            waitTotal s.clock treatmentElig
              (s.treatmentQueue.thisQueue.take
                (servedCount s.treatmentQueue s.treatmentResource)) ∧
      (ProcessTreatment s).treatmentWait.numberOfObservations
        = s.treatmentWait.numberOfObservations +
            servedCount s.treatmentQueue s.treatmentResource ∧
      (ProcessTreatment s).treatmentQueue.thisQueue
        = s.treatmentQueue.thisQueue.drop
            (servedCount s.treatmentQueue s.treatmentResource)) := by
  obtain ⟨a1, a2, a3⟩ := processSignInTriageAux_serve _ s (le_refl _)
  obtain ⟨b1, b2, b3⟩ := processRegistrationAux_serve _ s (le_refl _)
  obtain ⟨c1, c2, c3⟩ := processExaminationAux_serve _ s (le_refl _)
  obtain ⟨d1, d2, d3⟩ := processTraumaAux_serve _ s (le_refl _)
  obtain ⟨e1, e2, e3⟩ := processTreatmentAux_serve _ s (le_refl _)
  exact ⟨⟨a2, a3, a1⟩, ⟨b2, b3, b1⟩, ⟨c2, c3, c1⟩, ⟨d2, d3, d1⟩, ⟨e2, e3, e1⟩⟩

/-- C10: the simulation clock never decreases.  The main loop pops the
earliest pending event (FIFO tie-break) and advances the clock exactly to
its time; every handler schedules only at `Clock` plus a non-negative
delay, so when all pending events lie at or after the clock and the delay
draws are non-negative, each step and hence the whole loop is
monotone. -/
theorem clock_monotonicity :
    (∀ s s' : SimState, stepOnce s = some s' →
      ∃ ev rest, calRemove s.calendar = some (ev, rest) ∧ s'.clock = ev.eventTime ∧
        ∀ x ∈ rest, ev.eventTime ≤ x.eventTime) ∧
    (∀ s s' : SimState, calendarOK s → delaysOK s.rng → stepOnce s = some s' →
      s.clock ≤ s'.clock ∧ calendarOK s' ∧ delaysOK s'.rng) ∧
    (∀ (fuel : ℕ) (s : SimState), calendarOK s → delaysOK s.rng →
      s.clock ≤ (runLoop fuel s).clock) := by
  refine ⟨?_, ?_, ?_⟩
  · intro s s' hstep
    obtain ⟨ev, rest, hrem, hclock, hmin, -, -⟩ := stepOnce_spec s s' hstep
    exact ⟨ev, rest, hrem, hclock, hmin⟩
  · exact stepOnce_mono
  · intro fuel s hok hd
    exact (runLoop_mono fuel s hok hd).1

/-- Witness for C10 at a concrete one-event state. -/
def clockWitState : SimState :=
  { freshState (constRNG 1) with
    calendar := [{ eventType := .Arrival, eventTime := 5, whichObject := none }] }

theorem clock_monotonicity_witness :
    calendarOK clockWitState ∧ delaysOK clockWitState.rng ∧
    clockWitState.clock ≤ (runLoop 3 clockWitState).clock := by
  have hok : calendarOK clockWitState := by
    intro e he
    rcases List.mem_singleton.mp he with rfl
    show (0 : ℚ) ≤ 5
    norm_num
  have hd : delaysOK clockWitState.rng :=
    ⟨fun _ => zero_le_one, fun _ => zero_le_one, fun _ => zero_le_one,
     fun _ => zero_le_one, fun _ => zero_le_one⟩
  exact ⟨hok, hd, clock_monotonicity.2.2 3 clockWitState hok hd⟩

/-- C5 (corrected): the Examination clamp replaces only strictly negative
draws by the 0.1-minute floor; a draw of exactly zero is kept, so the
duration carried by the scheduled `EndExamination` event is non-negative
but not always strictly positive. -/
theorem exam_service_floor (x : ℚ) :
    (x < 0 → ExamServiceTime x = 1 / 10) ∧ (0 ≤ x → ExamServiceTime x = x) ∧
    0 ≤ ExamServiceTime x ∧
    ∀ s : SimState, ∀ e ∈ (ProcessExamination s).calendar,
      e ∈ s.calendar ∨ ∃ n, e.eventTime = s.clock + ExamServiceTime (s.rng.examination.vals n) := by
  refine ⟨fun h => if_pos h, fun h => if_neg (not_lt.mpr h), examServiceTime_nonneg x, ?_⟩
  intro s e he
  obtain ⟨es, hcal, hes⟩ := processExaminationAux_calendar s.examinationQueue.numQueue s
  rw [show ProcessExamination s = ProcessExaminationAux s.examinationQueue.numQueue s from rfl,
    hcal] at he
  rcases List.mem_append.mp he with he | he
  · exact Or.inl he
  · obtain ⟨-, -, n, hn⟩ := hes e he
    exact Or.inr ⟨n, hn⟩

theorem exam_service_floor_witness : ExamServiceTime (-1) = 1 / 10 :=
  (exam_service_floor (-1)).1 (by norm_num)

/-- The patient and state exhibiting the zero-draw case for C5. -/
def examCexPatient : Patient := ⟨40, false, 41, 45, 0, 0, 0⟩

def examCexState : SimState :=
  { freshState (constRNG 0) with
    clock := 50
    examinationQueue := ⟨[examCexPatient], CTStat.init⟩
    examinationResource := ⟨0, 1, CTStat.init⟩ }

/-- C5 counterexample: a Normal draw of exactly zero is not replaced by
the 0.1 floor — the `EndExamination` event is scheduled with duration
zero, at the current clock (50), so the scheduled duration is not
strictly positive. -/
theorem exam_zero_draw_cex :
    ExamServiceTime 0 = 0 ∧
    decide (ExamServiceTime 0 = 1 / 10) = false ∧
    decide (0 < ExamServiceTime 0) = false ∧
    (ProcessExamination examCexState).calendar
      = [{ eventType := .EndExamination, eventTime := 50, whichObject := some examCexPatient }] ∧
    (ProcessExamination examCexState).calendar.headI.eventTime = examCexState.clock := by
  with_unfolding_all decide

/-- The `ci_results` instance exhibiting the C1 counterexample: the
Sign-in/Triage tuple has lower bound 1 and upper bound 19. -/
def lowerBoundCexResults : WaitCIResults :=
  ⟨⟨10, 9, 1, 19⟩, ⟨0, 0, 0, 0⟩, ⟨0, 0, 0, 0⟩, ⟨0, 0, 0, 0⟩, ⟨0, 0, 0, 0⟩⟩

/-- C1 counterexample: the stationary `RunScenario` service-level check of
`main.py` prints PASS for Sign-in/Triage using the lower CI bound
(index 2), even though the metric's upper bound (19) exceeds the 2-minute
ceiling — while `CheckServiceLevels`, which does use the upper bound,
fails the same results. -/
theorem service_level_lower_bound_cex :
    ScenarioSignInTriagePass lowerBoundCexResults = true ∧
    lowerBoundCexResults.signInTriageWait.upper = 19 ∧
    decide (lowerBoundCexResults.signInTriageWait.upper < 2) = false ∧
    CheckServiceLevels lowerBoundCexResults = false := by
  with_unfolding_all decide

/-- C1 (corrected): only `CheckServiceLevels` in `staffing_optimizer.py`
and the per-metric PASS conditions of `RunScenarioNonStationary` compare
the upper 95% CI bound against the thresholds; the stationary
`RunScenario` in `main.py` compares the lower bound for the Sign-in/Triage
and Trauma hard ceilings and the mean for the three 20-minute ceilings. -/
theorem service_level_checks (r : WaitCIResults) :
    (CheckServiceLevels r = true ↔
      r.signInTriageWait.upper < 2 ∧ r.traumaWait.upper < 5 ∧
      r.registrationWait.upper ≤ 20 ∧ r.examinationWait.upper ≤ 20 ∧
      r.treatmentWait.upper ≤ 20) ∧
    (ScenarioNSSignInTriagePass r = true ↔ r.signInTriageWait.upper < 2) ∧
    (ScenarioNSTraumaPass r = true ↔ r.traumaWait.upper < 5) ∧
    (ScenarioNSRegistrationPass r = true ↔ r.registrationWait.upper ≤ 20) ∧
    (ScenarioNSExaminationPass r = true ↔ r.examinationWait.upper ≤ 20) ∧
    (ScenarioNSTreatmentPass r = true ↔ r.treatmentWait.upper ≤ 20) ∧
    (ScenarioSignInTriagePass r = true ↔ r.signInTriageWait.lower < 2) ∧
    (ScenarioTraumaPass r = true ↔ r.traumaWait.lower < 5) ∧
    (ScenarioRegistrationPass r = true ↔ r.registrationWait.mean ≤ 20) ∧
    (ScenarioExaminationPass r = true ↔ r.examinationWait.mean ≤ 20) ∧
    (ScenarioTreatmentPass r = true ↔ r.treatmentWait.mean ≤ 20) := by
  refine ⟨?_, ?_, ?_, ?_, ?_, ?_, ?_, ?_, ?_, ?_, ?_⟩
  · constructor
    · intro h
      unfold CheckServiceLevels at h
      split_ifs at h with h1 h2 h3 h4 h5
      exact ⟨not_le.mp h1, not_le.mp h2, not_lt.mp h3, not_lt.mp h4, not_lt.mp h5⟩
    · rintro ⟨c1, c2, c3, c4, c5⟩
      unfold CheckServiceLevels
      rw [if_neg (not_le.mpr c1), if_neg (not_le.mpr c2), if_neg (not_lt.mpr c3),
        if_neg (not_lt.mpr c4), if_neg (not_lt.mpr c5)]
  · exact decide_eq_true_iff
  · exact decide_eq_true_iff
  · exact decide_eq_true_iff
  · exact decide_eq_true_iff
  · exact decide_eq_true_iff
  · exact decide_eq_true_iff
  · exact decide_eq_true_iff
  · exact decide_eq_true_iff
  · exact decide_eq_true_iff
  · exact decide_eq_true_iff

/-! ### C3: the confidence-interval formula -/

lemma tValue_eq_tCritical (n : ℕ) (h2 : 2 ≤ n) : tValue n = tCritical (n - 1) := by
  by_cases h30 : n ≤ 30
  · interval_cases n <;> rfl
  · unfold tValue tCritical
    repeat rw [if_neg (by omega)]

/-- C3: for at least two observations, `ConfidenceInterval` returns
`(mean, half_width, mean - half_width, mean + half_width)` with
`half_width = t * sampleStdDev / sqrt N`, where the standard deviation is
the square root of the `(N-1)`-divisor sample variance and `t` is the 95%
two-sided Student-t critical value for `N - 1` degrees of freedom when
`N ≤ 30` (the code's table, keyed by `N`, equals the df-indexed critical
value at `N - 1`) and 1.96 otherwise. -/
theorem confidence_interval_formula (data : List ℝ) (h : 2 ≤ data.length) :
    ConfidenceInterval data 0.95
      = (sampleMean data,
         (if data.length ≤ 30 then tCritical (data.length - 1) else 1.96) *
             Real.sqrt (sampleVariance data) / Real.sqrt (data.length : ℝ),
         sampleMean data -
           (if data.length ≤ 30 then tCritical (data.length - 1) else 1.96) *
               Real.sqrt (sampleVariance data) / Real.sqrt (data.length : ℝ),
         sampleMean data +
           (if data.length ≤ 30 then tCritical (data.length - 1) else 1.96) *
               Real.sqrt (sampleVariance data) / Real.sqrt (data.length : ℝ)) := by
  unfold ConfidenceInterval sampleMean sampleVariance
  rw [if_neg (by omega), if_pos rfl]
  by_cases h30 : data.length ≤ 30
  · rw [if_pos h30, if_pos h30, tValue_eq_tCritical _ h]
    rfl
  · rw [if_neg h30, if_neg h30]
    rfl

theorem confidence_interval_formula_witness :
    2 ≤ ([1, 3] : List ℝ).length ∧
    ConfidenceInterval [1, 3] 0.95
      = (sampleMean [1, 3],
         (if ([1, 3] : List ℝ).length ≤ 30 then tCritical (([1, 3] : List ℝ).length - 1)
            else 1.96) *
             Real.sqrt (sampleVariance [1, 3]) / Real.sqrt (([1, 3] : List ℝ).length : ℝ),
         sampleMean [1, 3] -
           (if ([1, 3] : List ℝ).length ≤ 30 then tCritical (([1, 3] : List ℝ).length - 1)
              else 1.96) *
               Real.sqrt (sampleVariance [1, 3]) / Real.sqrt (([1, 3] : List ℝ).length : ℝ),
         sampleMean [1, 3] +
           (if ([1, 3] : List ℝ).length ≤ 30 then tCritical (([1, 3] : List ℝ).length - 1)
              else 1.96) *
               Real.sqrt (sampleVariance [1, 3]) / Real.sqrt (([1, 3] : List ℝ).length : ℝ)) :=
  ⟨by simp, confidence_interval_formula [1, 3] (by simp)⟩

/-! ### C4: the arrival-data loader -/

/-- The rows the loader counts as days: non-empty with a non-empty first
cell. -/
def countedRows (rows : List (List Cell)) : List (List Cell) := rows.filter rowHasData

/-- Column total over the counted rows (missing or unparseable cells
contribute nothing). -/
def hourTotal (rows : List (List Cell)) (h : ℕ) : ℚ :=
  ((countedRows rows).map fun row => (cellContribution (row.get? h) : ℚ)).sum

lemma getD_map_range (n : ℕ) (f : ℕ → ℚ) (h : ℕ) (hh : h < n) :
    ((List.range n).map f).getD h 0 = f h := by
  rw [List.getD_eq_getElem _ _ (by simpa using hh)]
  simp

lemma loadFold_spec (rows : List (List Cell)) :
    rows.foldl loadStep (List.replicate 18 (0 : ℚ), 0)
      = ((List.range 18).map fun h => hourTotal rows h, (countedRows rows).length) := by
  induction rows using List.reverseRecOn with
  | nil =>
    simp only [List.foldl_nil, countedRows, hourTotal, List.filter_nil, List.map_nil,
      List.sum_nil, List.length_nil]
    refine Prod.ext ?_ rfl
    show List.replicate 18 (0 : ℚ) = _
    rw [show ((List.range 18).map fun _ : ℕ => (0 : ℚ)) = List.replicate 18 0 by
      rw [List.map_const']
      simp]
  | append_singleton rows r ih =>
    rw [List.foldl_append, ih]
    by_cases hr : rowHasData r
    · have hcount : countedRows (rows ++ [r]) = countedRows rows ++ [r] := by
        simp [countedRows, List.filter_append, hr]
      have htot : ∀ h, hourTotal (rows ++ [r]) h
          = hourTotal rows h + (cellContribution (r.get? h) : ℚ) := by
        intro h
        simp [hourTotal, hcount]
      simp only [List.foldl_cons, List.foldl_nil, loadStep, hr, if_true]
      refine Prod.ext ?_ ?_
      · dsimp only
        apply List.map_congr_left
        intro h hh
        rw [getD_map_range 18 _ h (List.mem_range.mp hh), htot h]
      · dsimp only
        simp [hcount]
    · have hcount : countedRows (rows ++ [r]) = countedRows rows := by
        simp [countedRows, List.filter_append, hr]
      have htot : ∀ h, hourTotal (rows ++ [r]) h = hourTotal rows h := by
        intro h
        simp [hourTotal, hcount]
      simp only [List.foldl_cons, List.foldl_nil, loadStep, hr, if_false]
      refine Prod.ext ?_ ?_
      · dsimp only
        exact List.map_congr_left fun h _ => (htot h).symm
      · dsimp only
        simp [hcount]

/-- C4 (corrected): a row is counted as a day iff it is non-empty with a
non-empty first cell; within a counted row each cell that parses as an
integer contributes to its hour's total while missing or malformed cells
contribute nothing (so partially malformed or short rows still divide the
averages); each hourly rate is the hour's total over the counted rows
divided by the number of counted rows; and the 10/hour fallback applies
exactly when no counted row exists. -/
theorem load_arrival_data_characterization (rows : List (List Cell)) :
    LoadArrivalData rows
      = if (countedRows rows).isEmpty then List.replicate 18 (10 : ℚ)
        else (List.range 18).map fun h => hourTotal rows h / ((countedRows rows).length : ℚ) := by
  unfold LoadArrivalData
  rw [loadFold_spec]
  by_cases hemp : (countedRows rows).isEmpty
  · rw [if_pos hemp]
    rw [if_neg (by simp_all [List.isEmpty_iff_length_eq_zero])]
  · rw [if_neg hemp]
    rw [if_pos (by
      rcases List.isEmpty_iff_length_eq_zero.not.mp hemp with h
      omega)]
    rw [List.map_map]
    rfl

/-- A fully parseable cell. -/
def fullCell (v : ℤ) : Cell := ⟨true, some v⟩

/-- A short day row: a single parseable cell. -/
def shortRowCex : List Cell := [fullCell 5]

/-- A complete day row of 18 parseable counts of 3. -/
def fullRowCex : List Cell := List.replicate 18 (fullCell 3)

def loadCexTable : List (List Cell) := [shortRowCex, fullRowCex]

/-- C4 counterexample: with one short row `[5]` and one full row of 3s,
the code counts the short row as a day and adds its first cell, producing
hour-0 rate (5+3)/2 = 4, while the claim's skip-entirely semantics would
give 3; the loader's output differs from the claimed loader. -/
theorem load_arrival_short_row_cex :
    (LoadArrivalData loadCexTable).headI = 4 ∧
    (LoadArrivalDataClaimed loadCexTable).headI = 3 ∧
    decide (LoadArrivalData loadCexTable = LoadArrivalDataClaimed loadCexTable) = false := by
  with_unfolding_all decide

/-! ### C6: non-stationary arrival scheduling -/

/-- The number of pending `ArrivalNS` events. -/
def countNS (cal : List Event) : ℕ :=
  (cal.filter fun e => decide (e.eventType = EventType.ArrivalNS)).length

lemma countNS_append (l1 l2 : List Event) : countNS (l1 ++ l2) = countNS l1 + countNS l2 := by
  simp [countNS, List.filter_append]

lemma countNS_eq_zero {es : List Event}
    (h : ∀ e ∈ es, e.eventType = EventType.EndSignInTriage) : countNS es = 0 := by
  simp only [countNS, List.length_eq_zero, List.filter_eq_nil_iff]
  intro e he
  simp [h e he]

/-- The interarrival delay `ArrivalNonStationary` would use at state `s`:
the next arrival-stream draw when the current rate is positive, the fixed
60-minute fallback otherwise. -/
def nsNextDelay (s : SimState) : ℚ :=
  if 0 < GetCurrentArrivalRate s s.clock then s.rng.arrival.vals s.rng.arrival.idx else 60

lemma nsNextDelay_nonneg (s : SimState) (hdraw : ∀ n, 0 ≤ s.rng.arrival.vals n) :
    0 ≤ nsNextDelay s := by
  unfold nsNextDelay
  split
  · exact hdraw _
  · norm_num

lemma scheduleNextArrivalNS_spec (u : SimState) (hdraw : ∀ n, 0 ≤ u.rng.arrival.vals n) :
    countNS (scheduleNextArrivalNS u).calendar
      = countNS u.calendar + (if u.clock + nsNextDelay u < SimulationTime then 1 else 0) ∧
    ∀ e ∈ (scheduleNextArrivalNS u).calendar,
      e.eventType = EventType.ArrivalNS → e ∈ u.calendar ∨ e.eventTime < SimulationTime := by
  unfold scheduleNextArrivalNS nsNextDelay
  dsimp only [VarStream.next]
  by_cases hcl : u.clock < SimulationTime
  · rw [if_pos hcl]
    by_cases hrate : 0 < GetCurrentArrivalRate u u.clock
    · rw [if_pos hrate, if_pos hrate]
      dsimp only
      by_cases hbefore : u.clock + u.rng.arrival.vals u.rng.arrival.idx < SimulationTime
      · rw [if_pos hbefore, if_pos hbefore]
        constructor
        · show countNS (u.calendar ++ [_]) = _
          rw [countNS_append]
          simp [countNS]
        · intro e he hns
          rcases List.mem_append.mp he with he | he
          · exact Or.inl he
          · rcases List.mem_singleton.mp he with rfl
            exact Or.inr hbefore
      · rw [if_neg hbefore, if_neg hbefore]
        exact ⟨by simp, fun e he _ => Or.inl he⟩
    · rw [if_neg hrate, if_neg hrate]
      dsimp only
      by_cases hbefore : u.clock + (60 : ℚ) < SimulationTime
      · rw [if_pos hbefore, if_pos hbefore]
        constructor
        · show countNS (u.calendar ++ [_]) = _
          rw [countNS_append]
          simp [countNS]
        · intro e he hns
          rcases List.mem_append.mp he with he | he
          · exact Or.inl he
          · rcases List.mem_singleton.mp he with rfl
            exact Or.inr hbefore
      · rw [if_neg hbefore, if_neg hbefore]
        exact ⟨by simp, fun e he _ => Or.inl he⟩
  · rw [if_neg hcl]
    have hnot : ¬ (u.clock +
        (if 0 < GetCurrentArrivalRate u u.clock then u.rng.arrival.vals u.rng.arrival.idx
          else 60) < SimulationTime) := by
      have h60 : (0 : ℚ) ≤ 60 := by norm_num
      split
      · have := hdraw u.rng.arrival.idx
        intro hc
        exact hcl (by linarith)
      · intro hc
        exact hcl (by linarith)
    rw [if_neg hnot]
    exact ⟨by simp, fun e he _ => Or.inl he⟩

lemma arrivalSeedNS_more (s : SimState) :
    (arrivalSeedNS s).rng.arrival = s.rng.arrival ∧
    (arrivalSeedNS s).arrivalRatesByHour = s.arrivalRatesByHour := by
  unfold arrivalSeedNS
  dsimp only [VarStream.next]
  by_cases hdr : s.rng.traumaDecision.vals s.rng.traumaDecision.idx < s.nsTraumaPercentage
  · rw [if_pos hdr]
    exact ⟨rfl, rfl⟩
  · rw [if_neg hdr]
    exact ⟨rfl, rfl⟩

/-- C6: the non-stationary current rate is the table entry at index
`floor(Clock/60)` clamped to 17, divided by 60; a zero (or non-positive)
rate falls back to a fixed 60-minute delay inside `nsNextDelay`; and the
handler schedules a next `ArrivalNS` event if and only if the clock plus
the drawn interarrival time falls strictly before the 1080-minute closing
time, so every `ArrivalNS` event the handler adds lies strictly before
closing. -/
theorem nonstationary_arrival_scheduling (s : SimState) (t : ℚ) (ht : 0 ≤ t)
    (hdraw : ∀ n, 0 ≤ s.rng.arrival.vals n) :
    GetCurrentArrivalRate s t
      = s.arrivalRatesByHour.getD (min (Int.toNat ⌊t / 60⌋) 17) 0 / 60 ∧
    countNS (ArrivalNonStationary s).calendar
      = countNS s.calendar + (if s.clock + nsNextDelay s < SimulationTime then 1 else 0) ∧
    ∀ e ∈ (ArrivalNonStationary s).calendar,
      e.eventType = EventType.ArrivalNS → e ∈ s.calendar ∨ e.eventTime < SimulationTime := by
  obtain ⟨hA1, hA2, -⟩ := arrivalSeedNS_facts s
  obtain ⟨hA3, hA4⟩ := arrivalSeedNS_more s
  obtain ⟨h51, -, -, -, -, f1, -, -, -, -, -, -, -, -, -, -, -, -, -, -, -, -, -, f24, -, -,
    -, -⟩ := processSignInTriageAux_frame (arrivalSeedNS s).signInTriageQueue.numQueue
      (arrivalSeedNS s)
  obtain ⟨es, hcal, hes⟩ :=
    processSignInTriageAux_calendar (arrivalSeedNS s).signInTriageQueue.numQueue (arrivalSeedNS s)
  have h5 : ArrivalNonStationary s
      = scheduleNextArrivalNS (ProcessSignInTriage (arrivalSeedNS s)) := rfl
  have h5clock : (ProcessSignInTriage (arrivalSeedNS s)).clock = s.clock := by
    rw [show (ProcessSignInTriage (arrivalSeedNS s)).clock
        = (ProcessSignInTriageAux (arrivalSeedNS s).signInTriageQueue.numQueue
            (arrivalSeedNS s)).clock from rfl, h51, hA1]
  have h5arr : (ProcessSignInTriage (arrivalSeedNS s)).rng.arrival = s.rng.arrival := by
    rw [show (ProcessSignInTriage (arrivalSeedNS s)).rng.arrival
        = (ProcessSignInTriageAux (arrivalSeedNS s).signInTriageQueue.numQueue
            (arrivalSeedNS s)).rng.arrival from rfl, f1, hA3]
  have h5table : (ProcessSignInTriage (arrivalSeedNS s)).arrivalRatesByHour
      = s.arrivalRatesByHour := by
    rw [show (ProcessSignInTriage (arrivalSeedNS s)).arrivalRatesByHour
        = (ProcessSignInTriageAux (arrivalSeedNS s).signInTriageQueue.numQueue
            (arrivalSeedNS s)).arrivalRatesByHour from rfl, f24, hA4]
  have h5cal : (ProcessSignInTriage (arrivalSeedNS s)).calendar = s.calendar ++ es := by
    rw [show (ProcessSignInTriage (arrivalSeedNS s)).calendar
        = (ProcessSignInTriageAux (arrivalSeedNS s).signInTriageQueue.numQueue
            (arrivalSeedNS s)).calendar from rfl, hcal, hA2]
  have h5rate : GetCurrentArrivalRate (ProcessSignInTriage (arrivalSeedNS s))
        (ProcessSignInTriage (arrivalSeedNS s)).clock
      = GetCurrentArrivalRate s s.clock := by
    unfold GetCurrentArrivalRate
    rw [h5table, h5clock]
  have h5delay : nsNextDelay (ProcessSignInTriage (arrivalSeedNS s)) = nsNextDelay s := by
    unfold nsNextDelay
    rw [h5rate, h5arr]
  have h5draw : ∀ n, 0 ≤ (ProcessSignInTriage (arrivalSeedNS s)).rng.arrival.vals n := by
    rw [h5arr]
    exact hdraw
  obtain ⟨hcount, hmem⟩ :=
    scheduleNextArrivalNS_spec (ProcessSignInTriage (arrivalSeedNS s)) h5draw
  refine ⟨?_, ?_, ?_⟩
  · unfold GetCurrentArrivalRate
    dsimp only
    rw [show (if 18 ≤ Int.toNat ⌊t / 60⌋ then 17 else Int.toNat ⌊t / 60⌋)
        = min (Int.toNat ⌊t / 60⌋) 17 from by split <;> omega]
  · rw [h5, hcount, h5cal, h5clock, h5delay, countNS_append,
      countNS_eq_zero (fun e he => (hes e he).1)]
    omega
  · intro e he hns
    rw [h5] at he
    rcases hmem e he hns with hin | hlt
    · rw [h5cal] at hin
      rcases List.mem_append.mp hin with hin | hin
      · exact Or.inl hin
      · have h1 := (hes e hin).1
        rw [hns] at h1
        exact EventType.noConfusion h1
    · exact Or.inr hlt

/-- Concrete state for the C6 witness: uniform rate table, unit draws. -/
def nsWitState : SimState :=
  { freshState (constRNG 1) with arrivalRatesByHour := ratesTen }

theorem nonstationary_arrival_scheduling_witness :
    (0 : ℚ) ≤ 120 ∧ (∀ n, 0 ≤ nsWitState.rng.arrival.vals n) ∧
    (GetCurrentArrivalRate nsWitState 120
        = nsWitState.arrivalRatesByHour.getD (min (Int.toNat ⌊(120 : ℚ) / 60⌋) 17) 0 / 60 ∧
      countNS (ArrivalNonStationary nsWitState).calendar
        = countNS nsWitState.calendar +
            (if nsWitState.clock + nsNextDelay nsWitState < SimulationTime then 1 else 0) ∧
      ∀ e ∈ (ArrivalNonStationary nsWitState).calendar,
        e.eventType = EventType.ArrivalNS →
          e ∈ nsWitState.calendar ∨ e.eventTime < SimulationTime) :=
  ⟨by norm_num, fun _ => zero_le_one,
    nonstationary_arrival_scheduling nsWitState 120 (by norm_num) (fun _ => zero_le_one)⟩

/-! ### C2 and C7: the non-stationary completion-counter namespace bug -/

/-- Oracle streams for one short non-stationary replication: the first
arrival at minute 100, the next interarrival draw 2000 (so no further
arrival is scheduled before closing), 5-minute services, a non-trauma
trauma-decision draw (0.9 against trauma fraction 0) and a
discharge-decision draw 0.2 < 0.40 so the single patient is discharged at
Examination completion.  A second pair of arrival draws makes a second
replication behave identically. -/
def rngC2 : RNG :=
  { arrival := listStream [100, 2000, 100, 2000]
    triage := constStream 5
    registration := constStream 5
    examination := constStream 5
    trauma := constStream 1
    treatment := constStream 1
    traumaDecision := constStream (9 / 10)
    dischargeDecision := constStream (2 / 10) }

/-- C2 (code bug): in the non-stationary run the single arriving patient
is counted once — but in the `main` module's `PatientsCompleted` global
(the final state's `patientsCompleted` is 1, with the calendar drained),
while the returned statistics dictionary reads the separate, never
incremented `main_nonstationary.PatientsCompleted` and reports 0. -/
theorem nonstationary_completion_count_bug :
    (RunSimulationNonStationary 0 staffOne ratesTen 10 (freshState rngC2)).2.calendar = [] ∧
    (RunSimulationNonStationary 0 staffOne ratesTen 10 (freshState rngC2)).2.nsTotalArrivals
      = 1 ∧
    (RunSimulationNonStationary 0 staffOne ratesTen 10 (freshState rngC2)).2.patientsCompleted
      = 1 ∧
    (RunSimulationNonStationary 0 staffOne ratesTen 10 (freshState rngC2)).1.patientsCompleted
      = 0 := by
  with_unfolding_all decide

/-- C7 (code bug): the counter the handlers actually increment
(`main.PatientsCompleted`) is not reset at the start of a non-stationary
replication: after one replication completing one patient it still reads 1
right after the next replication's initialization (the reset touches only
the dead `main_nonstationary` copy, which reads 0), and a second
replication accumulates it to 2. -/
theorem nonstationary_reset_bug :
    (RunSimulationNonStationary 0 staffOne ratesTen 10 (freshState rngC2)).2.patientsCompleted
      = 1 ∧
    (RunSimulationNonStationaryInit 0 staffOne ratesTen
        (RunSimulationNonStationary 0 staffOne ratesTen 10
          (freshState rngC2)).2).patientsCompleted = 1 ∧
    (RunSimulationNonStationaryInit 0 staffOne ratesTen
        (RunSimulationNonStationary 0 staffOne ratesTen 10
          (freshState rngC2)).2).nsPatientsCompleted = 0 ∧
    (RunSimulationNonStationary 0 staffOne ratesTen 10
        (RunSimulationNonStationary 0 staffOne ratesTen 10
          (freshState rngC2)).2).2.patientsCompleted = 2 := by
  with_unfolding_all decide

/-! ### C8: routing -/

/-- An event never carries a trauma patient into Registration or
Examination. -/
def eventNonTrauma (e : Event) : Bool :=
  match e.eventType, e.whichObject with
  | EventType.EndRegistration, some p => !p.isTrauma
  | EventType.EndExamination, some p => !p.isTrauma
  | _, _ => true

/-- Trauma patients are never inside the Registration or Examination
stations: neither waiting in those queues nor attached to an in-service
`EndRegistration`/`EndExamination` event. -/
def routingInv (s : SimState) : Prop :=
  (∀ p ∈ s.registrationQueue.thisQueue, p.isTrauma = false) ∧
  (∀ p ∈ s.examinationQueue.thisQueue, p.isTrauma = false) ∧
  (∀ e ∈ s.calendar, eventNonTrauma e = true)

instance (s : SimState) : Decidable (routingInv s) := by
  unfold routingInv
  infer_instance

lemma eventNonTrauma_of_ne (e : Event)
    (h1 : e.eventType ≠ EventType.EndRegistration)
    (h2 : e.eventType ≠ EventType.EndExamination) : eventNonTrauma e = true := by
  rcases e with ⟨et, t, o⟩
  cases et <;> cases o <;> simp_all [eventNonTrauma]

lemma routingInv_processSignInTriage {s : SimState} (h : routingInv s) :
    routingInv (ProcessSignInTriage s) := by
  obtain ⟨h1, h2, h3⟩ := h
  obtain ⟨-, hq1, hq2, -, -, -, -, -, -, -, -, -, -, -, -, -, -, -, -, -, -, -, -, -, -, -,
    -, -⟩ := processSignInTriageAux_frame s.signInTriageQueue.numQueue s
  obtain ⟨es, hcal, hes⟩ := processSignInTriageAux_calendar s.signInTriageQueue.numQueue s
  refine ⟨?_, ?_, ?_⟩
  · rw [show (ProcessSignInTriage s).registrationQueue
        = (ProcessSignInTriageAux s.signInTriageQueue.numQueue s).registrationQueue from rfl,
      hq1]
    exact h1
  · rw [show (ProcessSignInTriage s).examinationQueue
        = (ProcessSignInTriageAux s.signInTriageQueue.numQueue s).examinationQueue from rfl,
      hq2]
    exact h2
  · intro e he
    rw [show (ProcessSignInTriage s).calendar
        = (ProcessSignInTriageAux s.signInTriageQueue.numQueue s).calendar from rfl,
      hcal] at he
    rcases List.mem_append.mp he with he | he
    · exact h3 e he
    · have ht := (hes e he).1
      exact eventNonTrauma_of_ne e (by rw [ht]; intro hc; exact EventType.noConfusion hc)
        (by rw [ht]; intro hc; exact EventType.noConfusion hc)

lemma routingInv_processTrauma {s : SimState} (h : routingInv s) :
    routingInv (ProcessTrauma s) := by
  obtain ⟨h1, h2, h3⟩ := h
  obtain ⟨-, hq1, hq2, -, -, -, -, -, -, -, -, -, -, -, -, -, -, -, -, -, -, -, -, -, -, -,
    -, -⟩ := processTraumaAux_frame s.traumaQueue.numQueue s
  obtain ⟨es, hcal, hes⟩ := processTraumaAux_calendar s.traumaQueue.numQueue s
  refine ⟨?_, ?_, ?_⟩
  · rw [show (ProcessTrauma s).registrationQueue
        = (ProcessTraumaAux s.traumaQueue.numQueue s).registrationQueue from rfl, hq1]
    exact h1
  · rw [show (ProcessTrauma s).examinationQueue
        = (ProcessTraumaAux s.traumaQueue.numQueue s).examinationQueue from rfl, hq2]
    exact h2
  · intro e he
    rw [show (ProcessTrauma s).calendar
        = (ProcessTraumaAux s.traumaQueue.numQueue s).calendar from rfl, hcal] at he
    rcases List.mem_append.mp he with he | he
    · exact h3 e he
    · have ht := (hes e he).1
      exact eventNonTrauma_of_ne e (by rw [ht]; intro hc; exact EventType.noConfusion hc)
        (by rw [ht]; intro hc; exact EventType.noConfusion hc)

lemma routingInv_processTreatment {s : SimState} (h : routingInv s) :
    routingInv (ProcessTreatment s) := by
  obtain ⟨h1, h2, h3⟩ := h
  obtain ⟨-, hq1, hq2, -, -, -, -, -, -, -, -, -, -, -, -, -, -, -, -, -, -, -, -, -, -, -,
    -, -⟩ := processTreatmentAux_frame s.treatmentQueue.numQueue s
  obtain ⟨es, hcal, hes⟩ := processTreatmentAux_calendar s.treatmentQueue.numQueue s
  refine ⟨?_, ?_, ?_⟩
  · rw [show (ProcessTreatment s).registrationQueue
        = (ProcessTreatmentAux s.treatmentQueue.numQueue s).registrationQueue from rfl, hq1]
    exact h1
  · rw [show (ProcessTreatment s).examinationQueue
        = (ProcessTreatmentAux s.treatmentQueue.numQueue s).examinationQueue from rfl, hq2]
    exact h2
  · intro e he
    rw [show (ProcessTreatment s).calendar
        = (ProcessTreatmentAux s.treatmentQueue.numQueue s).calendar from rfl, hcal] at he
    rcases List.mem_append.mp he with he | he
    · exact h3 e he
    · have ht := (hes e he).1
      exact eventNonTrauma_of_ne e (by rw [ht]; intro hc; exact EventType.noConfusion hc)
        (by rw [ht]; intro hc; exact EventType.noConfusion hc)

lemma routingInv_processRegistration {s : SimState} (h : routingInv s) :
    routingInv (ProcessRegistration s) := by
  obtain ⟨h1, h2, h3⟩ := h
  obtain ⟨-, -, hq2, -, -, -, -, -, -, -, -, -, -, -, -, -, -, -, -, -, -, -, -, -, -, -,
    -, -⟩ := processRegistrationAux_frame s.registrationQueue.numQueue s
  obtain ⟨hq, -, -⟩ := processRegistrationAux_serve s.registrationQueue.numQueue s (le_refl _)
  obtain ⟨es, hcal, hes⟩ := processRegistrationAux_calendar s.registrationQueue.numQueue s
  refine ⟨?_, ?_, ?_⟩
  · intro p hp
    rw [show (ProcessRegistration s).registrationQueue
        = (ProcessRegistrationAux s.registrationQueue.numQueue s).registrationQueue from rfl]
      at hp
    rw [hq] at hp
    exact h1 p (List.mem_of_mem_drop hp)
  · rw [show (ProcessRegistration s).examinationQueue
        = (ProcessRegistrationAux s.registrationQueue.numQueue s).examinationQueue from rfl,
      hq2]
    exact h2
  · intro e he
    rw [show (ProcessRegistration s).calendar
        = (ProcessRegistrationAux s.registrationQueue.numQueue s).calendar from rfl, hcal] at he
    rcases List.mem_append.mp he with he | he
    · exact h3 e he
    · obtain ⟨ht, ⟨p, hp, hobj⟩, -⟩ := hes e he
      rcases e with ⟨et, tt, o⟩
      dsimp at ht hobj
      subst ht
      subst hobj
      show (!p.isTrauma) = true
      simp [h1 p hp]

lemma routingInv_processExamination {s : SimState} (h : routingInv s) :
    routingInv (ProcessExamination s) := by
  obtain ⟨h1, h2, h3⟩ := h
  obtain ⟨-, hq1, -, -, -, -, -, -, -, -, -, -, -, -, -, -, -, -, -, -, -, -, -, -, -, -,
    -, -⟩ := processExaminationAux_frame s.examinationQueue.numQueue s
  obtain ⟨hq, -, -⟩ := processExaminationAux_serve s.examinationQueue.numQueue s (le_refl _)
  obtain ⟨es, hcal, hes⟩ := processExaminationAux_calendar s.examinationQueue.numQueue s
  refine ⟨?_, ?_, ?_⟩
  · rw [show (ProcessExamination s).registrationQueue
        = (ProcessExaminationAux s.examinationQueue.numQueue s).registrationQueue from rfl,
      hq1]
    exact h1
  · intro p hp
    rw [show (ProcessExamination s).examinationQueue
        = (ProcessExaminationAux s.examinationQueue.numQueue s).examinationQueue from rfl]
      at hp
    rw [hq] at hp
    exact h2 p (List.mem_of_mem_drop hp)
  · intro e he
    rw [show (ProcessExamination s).calendar
        = (ProcessExaminationAux s.examinationQueue.numQueue s).calendar from rfl, hcal] at he
    rcases List.mem_append.mp he with he | he
    · exact h3 e he
    · obtain ⟨ht, ⟨p, hp, hobj⟩, -⟩ := hes e he
      rcases e with ⟨et, tt, o⟩
      dsimp at ht hobj
      subst ht
      subst hobj
      show (!p.isTrauma) = true
      simp [h2 p hp]

lemma routingInv_endSignInTriage {s : SimState} (p : Patient) (h : routingInv s) :
    routingInv (EndSignInTriage p s) := by
  by_cases htr : p.isTrauma
  · have hrw : EndSignInTriage p s
        = ProcessSignInTriage (ProcessTrauma
            { s with
              signInTriageResource := s.signInTriageResource.free s.clock
              traumaQueue := s.traumaQueue.add s.clock { p with triageTime := s.clock } }) := by
      unfold EndSignInTriage
      dsimp only
      rw [if_pos htr]
    rw [hrw]
    exact routingInv_processSignInTriage (routingInv_processTrauma ⟨h.1, h.2.1, h.2.2⟩)
  · have hrw : EndSignInTriage p s
        = ProcessSignInTriage (ProcessRegistration
            { s with
              signInTriageResource := s.signInTriageResource.free s.clock
              registrationQueue :=
                s.registrationQueue.add s.clock { p with triageTime := s.clock } }) := by
      unfold EndSignInTriage
      dsimp only
      rw [if_neg (by simp [htr])]
    rw [hrw]
    refine routingInv_processSignInTriage (routingInv_processRegistration ⟨?_, h.2.1, h.2.2⟩)
    intro q hq
    rcases List.mem_append.mp hq with hq | hq
    · exact h.1 q hq
    · rcases List.mem_singleton.mp hq with rfl
      show p.isTrauma = false
      exact Bool.eq_false_iff.mpr htr

lemma routingInv_endRegistration {s : SimState} (p : Patient) (hp : p.isTrauma = false)
    (h : routingInv s) : routingInv (EndRegistration p s) := by
  have hrw : EndRegistration p s
      = ProcessRegistration (ProcessExamination
          { s with
            registrationResource := s.registrationResource.free s.clock
            examinationQueue :=
              s.examinationQueue.add s.clock { p with registrationTime := s.clock } }) := rfl
  rw [hrw]
  refine routingInv_processRegistration (routingInv_processExamination ⟨h.1, ?_, h.2.2⟩)
  intro q hq
  rcases List.mem_append.mp hq with hq | hq
  · exact h.2.1 q hq
  · rcases List.mem_singleton.mp hq with rfl
    exact hp

lemma routingInv_endExamination {s : SimState} (p : Patient) (h : routingInv s) :
    routingInv (EndExamination p s) := by
  by_cases hdis : s.rng.dischargeDecision.vals s.rng.dischargeDecision.idx < 40 / 100
  · have hrw : EndExamination p s
        = ProcessExamination
            { s with
              examinationResource := s.examinationResource.free s.clock
              rng := { s.rng with dischargeDecision :=
                ⟨s.rng.dischargeDecision.vals, s.rng.dischargeDecision.idx + 1⟩ }
              patientsCompleted := s.patientsCompleted + 1 } := by
      unfold EndExamination
      dsimp only [VarStream.next]
      rw [if_pos hdis]
    rw [hrw]
    exact routingInv_processExamination ⟨h.1, h.2.1, h.2.2⟩
  · have hrw : EndExamination p s
        = ProcessExamination (ProcessTreatment
            { s with
              examinationResource := s.examinationResource.free s.clock
              rng := { s.rng with dischargeDecision :=
                ⟨s.rng.dischargeDecision.vals, s.rng.dischargeDecision.idx + 1⟩ }
              treatmentQueue :=
                s.treatmentQueue.add s.clock { p with examinationTime := s.clock } }) := by
      unfold EndExamination
      dsimp only [VarStream.next]
      rw [if_neg hdis]
    rw [hrw]
    exact routingInv_processExamination (routingInv_processTreatment ⟨h.1, h.2.1, h.2.2⟩)

lemma routingInv_endTrauma {s : SimState} (p : Patient) (h : routingInv s) :
    routingInv (EndTrauma p s) := by
  have hrw : EndTrauma p s
      = ProcessTrauma (ProcessTreatment
          { s with
            traumaResource := s.traumaResource.free s.clock
            treatmentQueue := s.treatmentQueue.add s.clock { p with traumaTime := s.clock } }) :=
    rfl
  rw [hrw]
  exact routingInv_processTrauma (routingInv_processTreatment ⟨h.1, h.2.1, h.2.2⟩)

lemma routingInv_endTreatment {s : SimState} (p : Patient) (h : routingInv s) :
    routingInv (EndTreatment p s) := by
  have hrw : EndTreatment p s
      = ProcessTreatment
          { s with
            treatmentResource := s.treatmentResource.free s.clock
            patientsCompleted := s.patientsCompleted + 1 } := rfl
  rw [hrw]
  exact routingInv_processTreatment ⟨h.1, h.2.1, h.2.2⟩

lemma routingInv_arrivalSeed {s : SimState} (h : routingInv s) :
    routingInv (arrivalSeed s) := by
  unfold arrivalSeed
  dsimp only [VarStream.next]
  by_cases hdr : s.rng.traumaDecision.vals s.rng.traumaDecision.idx < s.traumaPercentage
  · rw [if_pos hdr]
    exact ⟨h.1, h.2.1, h.2.2⟩
  · rw [if_neg hdr]
    exact ⟨h.1, h.2.1, h.2.2⟩

lemma routingInv_arrivalSeedNS {s : SimState} (h : routingInv s) :
    routingInv (arrivalSeedNS s) := by
  unfold arrivalSeedNS
  dsimp only [VarStream.next]
  by_cases hdr : s.rng.traumaDecision.vals s.rng.traumaDecision.idx < s.nsTraumaPercentage
  · rw [if_pos hdr]
    exact ⟨h.1, h.2.1, h.2.2⟩
  · rw [if_neg hdr]
    exact ⟨h.1, h.2.1, h.2.2⟩

lemma routingInv_scheduleNextArrival {u : SimState} (h : routingInv u) :
    routingInv (scheduleNextArrival u) := by
  unfold scheduleNextArrival
  dsimp only [VarStream.next]
  by_cases hcl : u.clock < SimulationTime
  · rw [if_pos hcl]
    refine ⟨h.1, h.2.1, ?_⟩
    intro e he
    rcases List.mem_append.mp he with he | he
    · exact h.2.2 e he
    · rcases List.mem_singleton.mp he with rfl
      rfl
  · rw [if_neg hcl]
    exact h

lemma routingInv_scheduleNextArrivalNS {u : SimState} (h : routingInv u) :
    routingInv (scheduleNextArrivalNS u) := by
  unfold scheduleNextArrivalNS
  dsimp only [VarStream.next]
  by_cases hcl : u.clock < SimulationTime
  · rw [if_pos hcl]
    by_cases hrate : 0 < GetCurrentArrivalRate u u.clock
    · rw [if_pos hrate]
      dsimp only
      by_cases hbefore : u.clock + u.rng.arrival.vals u.rng.arrival.idx < SimulationTime
      · rw [if_pos hbefore]
        refine ⟨h.1, h.2.1, ?_⟩
        intro e he
        rcases List.mem_append.mp he with he | he
        · exact h.2.2 e he
        · rcases List.mem_singleton.mp he with rfl
          rfl
      · rw [if_neg hbefore]
        exact h
    · rw [if_neg hrate]
      dsimp only
      by_cases hbefore : u.clock + (60 : ℚ) < SimulationTime
      · rw [if_pos hbefore]
        refine ⟨h.1, h.2.1, ?_⟩
        intro e he
        rcases List.mem_append.mp he with he | he
        · exact h.2.2 e he
        · rcases List.mem_singleton.mp he with rfl
          rfl
      · rw [if_neg hbefore]
        exact h
  · rw [if_neg hcl]
    exact h

lemma routingInv_arrival {s : SimState} (h : routingInv s) : routingInv (Arrival s) :=
  routingInv_scheduleNextArrival
    (routingInv_processSignInTriage (routingInv_arrivalSeed h))

lemma routingInv_arrivalNonStationary {s : SimState} (h : routingInv s) :
    routingInv (ArrivalNonStationary s) :=
  routingInv_scheduleNextArrivalNS
    (routingInv_processSignInTriage (routingInv_arrivalSeedNS h))

lemma routingInv_stepOnce {s s' : SimState} (h : routingInv s)
    (hstep : stepOnce s = some s') : routingInv s' := by
  unfold stepOnce at hstep
  cases hrem : calRemove s.calendar with
  | none => rw [hrem] at hstep; exact Option.noConfusion hstep
  | some pr =>
    rcases pr with ⟨ev, rest⟩
    rw [hrem] at hstep
    dsimp only at hstep
    obtain ⟨hperm, -⟩ := calRemove_spec _ _ _ hrem
    have hrestmem : ∀ x ∈ rest, x ∈ s.calendar := fun x hx =>
      hperm.mem_iff.mpr (List.mem_cons_of_mem ev hx)
    have hevmem : ev ∈ s.calendar := hperm.mem_iff.mpr (List.mem_cons_self ev rest)
    have h1 : routingInv { s with clock := ev.eventTime, calendar := rest } :=
      ⟨h.1, h.2.1, fun e he => h.2.2 e (hrestmem e he)⟩
    obtain rfl := Option.some.inj hstep
    rcases hev : ev with ⟨et, tt, o⟩
    rw [hev] at hevmem
    unfold handleEvent
    cases et <;> cases o <;> dsimp only
    · exact routingInv_arrival h1
    · exact routingInv_arrival h1
    · exact routingInv_arrivalNonStationary h1
    · exact routingInv_arrivalNonStationary h1
    · exact h1
    · exact routingInv_endSignInTriage _ h1
    · exact h1
    · next p =>
      have := h.2.2 _ hevmem
      have hp : p.isTrauma = false := by
        simpa [eventNonTrauma] using this
      exact routingInv_endRegistration p hp h1
    · exact h1
    · exact routingInv_endExamination _ h1
    · exact h1
    · exact routingInv_endTrauma _ h1
    · exact h1
    · exact routingInv_endTreatment _ h1

lemma routingInv_runLoop {s : SimState} (h : routingInv s) (fuel : ℕ) :
    routingInv (runLoop fuel s) := by
  induction fuel generalizing s with
  | zero => exact h
  | succ fuel ih =>
    rw [runLoop]
    cases hstep : stepOnce s with
    | none => exact h
    | some s1 => exact ih (routingInv_stepOnce h hstep)

/-- C8: routing.  (i) Each arrival consumes exactly one draw of the
dedicated trauma-decision stream; the patient enqueued into
Sign-in/Triage carries the trauma flag `draw < TraumaPct`, and exactly the
corresponding counter is incremented.  (ii) At triage completion a trauma
patient goes to the Trauma queue — Registration and Examination are
untouched — and a non-trauma patient goes to Registration, with Trauma and
Examination untouched.  (iii) At trauma completion the patient goes to
Treatment.  (iv) At examination completion, one dedicated
discharge-decision draw is consumed: with draw < 0.40 the patient is
discharged (completion counter incremented, Treatment untouched),
otherwise it joins Treatment with the counter unchanged.  (v) Trauma
patients never enter Registration or Examination: the `routingInv`
invariant is preserved by every whole-run loop. -/
theorem patient_routing :
    (∀ s : SimState,
      (arrivalSeed s).signInTriageQueue.thisQueue
        = s.signInTriageQueue.thisQueue ++
            [{ Patient.new s.clock with
                isTrauma :=
                  decide (s.rng.traumaDecision.vals s.rng.traumaDecision.idx
                    < s.traumaPercentage) }] ∧
      (arrivalSeed s).rng.traumaDecision.idx = s.rng.traumaDecision.idx + 1 ∧
      (arrivalSeed s).rng.traumaDecision.vals = s.rng.traumaDecision.vals ∧
      (arrivalSeed s).traumaPatients
        = s.traumaPatients +
            (if s.rng.traumaDecision.vals s.rng.traumaDecision.idx < s.traumaPercentage
              then 1 else 0) ∧
      (arrivalSeed s).nonTraumaPatients
        = s.nonTraumaPatients +
            (if s.rng.traumaDecision.vals s.rng.traumaDecision.idx < s.traumaPercentage
              then 0 else 1)) ∧
    (∀ (p : Patient) (s : SimState),
      (p.isTrauma = true →
        (EndSignInTriage p s).registrationQueue = s.registrationQueue ∧
        (EndSignInTriage p s).examinationQueue = s.examinationQueue ∧
        (EndSignInTriage p s).traumaQueue.thisQueue
          = (s.traumaQueue.thisQueue ++ [{ p with triageTime := s.clock }]).drop
              (servedCount (s.traumaQueue.add s.clock { p with triageTime := s.clock })
                s.traumaResource)) ∧
      (p.isTrauma = false →
        (EndSignInTriage p s).traumaQueue = s.traumaQueue ∧
        (EndSignInTriage p s).examinationQueue = s.examinationQueue ∧
        (EndSignInTriage p s).registrationQueue.thisQueue
          = (s.registrationQueue.thisQueue ++ [{ p with triageTime := s.clock }]).drop
              (servedCount
                (s.registrationQueue.add s.clock { p with triageTime := s.clock })
                  s.registrationResource))) ∧
    (∀ (p : Patient) (s : SimState),
      (EndTrauma p s).treatmentQueue.thisQueue
        = (s.treatmentQueue.thisQueue ++ [{ p with traumaTime := s.clock }]).drop
            (servedCount (s.treatmentQueue.add s.clock { p with traumaTime := s.clock })
              s.treatmentResource)) ∧
    (∀ (p : Patient) (s : SimState),
      (s.rng.dischargeDecision.vals s.rng.dischargeDecision.idx < 40 / 100 →
        (EndExamination p s).patientsCompleted = s.patientsCompleted + 1 ∧
        (EndExamination p s).treatmentQueue = s.treatmentQueue) ∧
      (¬ s.rng.dischargeDecision.vals s.rng.dischargeDecision.idx < 40 / 100 →
        (EndExamination p s).patientsCompleted = s.patientsCompleted ∧
        (EndExamination p s).treatmentQueue.thisQueue
          = (s.treatmentQueue.thisQueue ++ [{ p with examinationTime := s.clock }]).drop
              (servedCount
                (s.treatmentQueue.add s.clock { p with examinationTime := s.clock })
                  s.treatmentResource)) ∧
      (EndExamination p s).rng.dischargeDecision.idx = s.rng.dischargeDecision.idx + 1) ∧
    (∀ s : SimState, routingInv s → ∀ fuel : ℕ, routingInv (runLoop fuel s)) := by
  refine ⟨?_, ?_, ?_, ?_, fun s h fuel => routingInv_runLoop h fuel⟩
  · intro s
    unfold arrivalSeed
    dsimp only [VarStream.next]
    by_cases hdr : s.rng.traumaDecision.vals s.rng.traumaDecision.idx < s.traumaPercentage
    · rw [if_pos hdr, if_pos hdr]
      refine ⟨?_, rfl, rfl, by simp [hdr], by simp [hdr]⟩
      show s.signInTriageQueue.thisQueue ++ [_] = _
      simp [hdr, Patient.new]
    · rw [if_neg hdr, if_neg hdr]
      refine ⟨?_, rfl, rfl, by simp [hdr], by simp [hdr]⟩
      show s.signInTriageQueue.thisQueue ++ [_] = _
      simp [hdr, Patient.new]
  · intro p s
    constructor
    · intro htr
      have hrw : EndSignInTriage p s
          = ProcessSignInTriage (ProcessTrauma
              { s with
                signInTriageResource := s.signInTriageResource.free s.clock
                traumaQueue :=
                  s.traumaQueue.add s.clock { p with triageTime := s.clock } }) := by
        unfold EndSignInTriage
        dsimp only
        rw [if_pos htr]
      obtain ⟨-, s1reg, s1exam, s1trauma, -, -, -, -, -, -, -, -, -, -, -, -, -, -, -, -, -,
        -, -, -, -, -, -, -⟩ := processSignInTriageAux_frame
          (ProcessTrauma
            { s with
              signInTriageResource := s.signInTriageResource.free s.clock
              traumaQueue :=
                s.traumaQueue.add s.clock
                  { p with triageTime := s.clock } }).signInTriageQueue.numQueue
          (ProcessTrauma
            { s with
              signInTriageResource := s.signInTriageResource.free s.clock
              traumaQueue := s.traumaQueue.add s.clock { p with triageTime := s.clock } })
      obtain ⟨-, t1reg, t1exam, -, -, -, -, -, -, -, -, -, -, -, -, -, -, -, -, -, -, -, -,
        -, -, -, -, -⟩ := processTraumaAux_frame
          ({ s with
              signInTriageResource := s.signInTriageResource.free s.clock
              traumaQueue :=
                s.traumaQueue.add s.clock
                  { p with triageTime := s.clock } } : SimState).traumaQueue.numQueue
          { s with
            signInTriageResource := s.signInTriageResource.free s.clock
            traumaQueue := s.traumaQueue.add s.clock { p with triageTime := s.clock } }
      obtain ⟨t1q, -, -⟩ := processTraumaAux_serve
          ({ s with
              signInTriageResource := s.signInTriageResource.free s.clock
              traumaQueue :=
                s.traumaQueue.add s.clock
                  { p with triageTime := s.clock } } : SimState).traumaQueue.numQueue
          { s with
            signInTriageResource := s.signInTriageResource.free s.clock
            traumaQueue := s.traumaQueue.add s.clock { p with triageTime := s.clock } }
          (le_refl _)
      rw [hrw]
      exact ⟨s1reg.trans t1reg, s1exam.trans t1exam,
        (congrArg FIFOQueue.thisQueue s1trauma).trans t1q⟩
    · intro htr
      have hrw : EndSignInTriage p s
          = ProcessSignInTriage (ProcessRegistration
              { s with
                signInTriageResource := s.signInTriageResource.free s.clock
                registrationQueue :=
                  s.registrationQueue.add s.clock { p with triageTime := s.clock } }) := by
        unfold EndSignInTriage
        dsimp only
        rw [if_neg (by simp [htr])]
      obtain ⟨-, s1reg, s1exam, s1trauma, -, -, -, -, -, -, -, -, -, -, -, -, -, -, -, -, -,
        -, -, -, -, -, -, -⟩ := processSignInTriageAux_frame
          (ProcessRegistration
            { s with
              signInTriageResource := s.signInTriageResource.free s.clock
              registrationQueue :=
                s.registrationQueue.add s.clock
                  { p with triageTime := s.clock } }).signInTriageQueue.numQueue
          (ProcessRegistration
            { s with
              signInTriageResource := s.signInTriageResource.free s.clock
              registrationQueue :=
                s.registrationQueue.add s.clock { p with triageTime := s.clock } })
      obtain ⟨-, -, r1exam, r1trauma, -, -, -, -, -, -, -, -, -, -, -, -, -, -, -, -, -, -,
        -, -, -, -, -, -⟩ := processRegistrationAux_frame
          ({ s with
              signInTriageResource := s.signInTriageResource.free s.clock
              registrationQueue :=
                s.registrationQueue.add s.clock
                  { p with triageTime := s.clock } } : SimState).registrationQueue.numQueue
          { s with
            signInTriageResource := s.signInTriageResource.free s.clock
            registrationQueue :=
              s.registrationQueue.add s.clock { p with triageTime := s.clock } }
      obtain ⟨r1q, -, -⟩ := processRegistrationAux_serve
          ({ s with
              signInTriageResource := s.signInTriageResource.free s.clock
              registrationQueue :=
                s.registrationQueue.add s.clock
                  { p with triageTime := s.clock } } : SimState).registrationQueue.numQueue
          { s with
            signInTriageResource := s.signInTriageResource.free s.clock
            registrationQueue :=
              s.registrationQueue.add s.clock { p with triageTime := s.clock } }
          (le_refl _)
      rw [hrw]
      exact ⟨s1trauma.trans r1trauma, s1exam.trans r1exam,
        (congrArg FIFOQueue.thisQueue s1reg).trans r1q⟩
  · intro p s
    have hrw : EndTrauma p s
        = ProcessTrauma (ProcessTreatment
            { s with
              traumaResource := s.traumaResource.free s.clock
              treatmentQueue :=
                s.treatmentQueue.add s.clock { p with traumaTime := s.clock } }) := rfl
    obtain ⟨-, -, -, -, t1treat, -, -, -, -, -, -, -, -, -, -, -, -, -, -, -, -, -, -, -, -,
      -, -, -⟩ := processTraumaAux_frame
        (ProcessTreatment
          { s with
            traumaResource := s.traumaResource.free s.clock
            treatmentQueue :=
              s.treatmentQueue.add s.clock
                { p with traumaTime := s.clock } }).traumaQueue.numQueue
        (ProcessTreatment
          { s with
            traumaResource := s.traumaResource.free s.clock
            treatmentQueue := s.treatmentQueue.add s.clock { p with traumaTime := s.clock } })
    obtain ⟨w1q, -, -⟩ := processTreatmentAux_serve
        ({ s with
            traumaResource := s.traumaResource.free s.clock
            treatmentQueue :=
              s.treatmentQueue.add s.clock
                { p with traumaTime := s.clock } } : SimState).treatmentQueue.numQueue
        { s with
          traumaResource := s.traumaResource.free s.clock
          treatmentQueue := s.treatmentQueue.add s.clock { p with traumaTime := s.clock } }
        (le_refl _)
    rw [hrw]
    exact (congrArg FIFOQueue.thisQueue t1treat).trans w1q
  · intro p s
    refine ⟨?_, ?_, ?_⟩
    · intro hdis
      have hrw : EndExamination p s
          = ProcessExamination
              { s with
                examinationResource := s.examinationResource.free s.clock
                rng := { s.rng with dischargeDecision :=
                  ⟨s.rng.dischargeDecision.vals, s.rng.dischargeDecision.idx + 1⟩ }
                patientsCompleted := s.patientsCompleted + 1 } := by
        unfold EndExamination
        dsimp only [VarStream.next]
        rw [if_pos hdis]
      obtain ⟨-, -, -, -, e1treat, -, -, -, -, -, -, -, -, e1pc, -, -, -, -, -, -, -, -, -,
        -, -, -, -, -⟩ := processExaminationAux_frame
          ({ s with
              examinationResource := s.examinationResource.free s.clock
              rng := { s.rng with dischargeDecision :=
                ⟨s.rng.dischargeDecision.vals, s.rng.dischargeDecision.idx + 1⟩ }
              patientsCompleted := s.patientsCompleted + 1 } : SimState).examinationQueue.numQueue
          { s with
            examinationResource := s.examinationResource.free s.clock
            rng := { s.rng with dischargeDecision :=
              ⟨s.rng.dischargeDecision.vals, s.rng.dischargeDecision.idx + 1⟩ }
            patientsCompleted := s.patientsCompleted + 1 }
      rw [hrw]
      exact ⟨e1pc, e1treat⟩
    · intro hdis
      have hrw : EndExamination p s
          = ProcessExamination (ProcessTreatment
              { s with
                examinationResource := s.examinationResource.free s.clock
                rng := { s.rng with dischargeDecision :=
                  ⟨s.rng.dischargeDecision.vals, s.rng.dischargeDecision.idx + 1⟩ }
                treatmentQueue :=
                  s.treatmentQueue.add s.clock { p with examinationTime := s.clock } }) := by
        unfold EndExamination
        dsimp only [VarStream.next]
        rw [if_neg hdis]
      obtain ⟨-, -, -, -, e1treat, -, -, -, -, -, -, -, -, e1pc, -, -, -, -, -, -, -, -, -,
        -, -, -, -, -⟩ := processExaminationAux_frame
          (ProcessTreatment
            { s with
              examinationResource := s.examinationResource.free s.clock
              rng := { s.rng with dischargeDecision :=
                ⟨s.rng.dischargeDecision.vals, s.rng.dischargeDecision.idx + 1⟩ }
              treatmentQueue :=
                s.treatmentQueue.add s.clock
                  { p with examinationTime := s.clock } }).examinationQueue.numQueue
          (ProcessTreatment
            { s with
              examinationResource := s.examinationResource.free s.clock
              rng := { s.rng with dischargeDecision :=
                ⟨s.rng.dischargeDecision.vals, s.rng.dischargeDecision.idx + 1⟩ }
              treatmentQueue :=
                s.treatmentQueue.add s.clock { p with examinationTime := s.clock } })
      obtain ⟨-, -, -, -, -, -, -, -, -, -, -, -, -, w2pc, -, -, -, -, -, -, -, -, -, -, -,
        -, -, -⟩ := processTreatmentAux_frame
          ({ s with
              examinationResource := s.examinationResource.free s.clock
              rng := { s.rng with dischargeDecision :=
                ⟨s.rng.dischargeDecision.vals, s.rng.dischargeDecision.idx + 1⟩ }
              treatmentQueue :=
                s.treatmentQueue.add s.clock
                  { p with examinationTime := s.clock } } : SimState).treatmentQueue.numQueue
          { s with
            examinationResource := s.examinationResource.free s.clock
            rng := { s.rng with dischargeDecision :=
              ⟨s.rng.dischargeDecision.vals, s.rng.dischargeDecision.idx + 1⟩ }
            treatmentQueue :=
              s.treatmentQueue.add s.clock { p with examinationTime := s.clock } }
      obtain ⟨w2q, -, -⟩ := processTreatmentAux_serve
          ({ s with
              examinationResource := s.examinationResource.free s.clock
              rng := { s.rng with dischargeDecision :=
                ⟨s.rng.dischargeDecision.vals, s.rng.dischargeDecision.idx + 1⟩ }
              treatmentQueue :=
                s.treatmentQueue.add s.clock
                  { p with examinationTime := s.clock } } : SimState).treatmentQueue.numQueue
          { s with
            examinationResource := s.examinationResource.free s.clock
            rng := { s.rng with dischargeDecision :=
              ⟨s.rng.dischargeDecision.vals, s.rng.dischargeDecision.idx + 1⟩ }
            treatmentQueue :=
              s.treatmentQueue.add s.clock { p with examinationTime := s.clock } }
          (le_refl _)
      rw [hrw]
      exact ⟨e1pc.trans w2pc, (congrArg FIFOQueue.thisQueue e1treat).trans w2q⟩
    · by_cases hdis : s.rng.dischargeDecision.vals s.rng.dischargeDecision.idx < 40 / 100
      · have hrw : EndExamination p s
            = ProcessExamination
                { s with
                  examinationResource := s.examinationResource.free s.clock
                  rng := { s.rng with dischargeDecision :=
                    ⟨s.rng.dischargeDecision.vals, s.rng.dischargeDecision.idx + 1⟩ }
                  patientsCompleted := s.patientsCompleted + 1 } := by
          unfold EndExamination
          dsimp only [VarStream.next]
          rw [if_pos hdis]
        obtain ⟨-, -, -, -, -, -, -, -, -, -, -, e1dd, -, -, -, -, -, -, -, -, -, -, -, -,
          -, -, -, -⟩ := processExaminationAux_frame
            ({ s with
                examinationResource := s.examinationResource.free s.clock
                rng := { s.rng with dischargeDecision :=
                  ⟨s.rng.dischargeDecision.vals, s.rng.dischargeDecision.idx + 1⟩ }
                patientsCompleted :=
                  s.patientsCompleted + 1 } : SimState).examinationQueue.numQueue
            { s with
              examinationResource := s.examinationResource.free s.clock
              rng := { s.rng with dischargeDecision :=
                ⟨s.rng.dischargeDecision.vals, s.rng.dischargeDecision.idx + 1⟩ }
              patientsCompleted := s.patientsCompleted + 1 }
        rw [hrw]
        exact congrArg VarStream.idx e1dd
      · have hrw : EndExamination p s
            = ProcessExamination (ProcessTreatment
                { s with
                  examinationResource := s.examinationResource.free s.clock
                  rng := { s.rng with dischargeDecision :=
                    ⟨s.rng.dischargeDecision.vals, s.rng.dischargeDecision.idx + 1⟩ }
                  treatmentQueue :=
                    s.treatmentQueue.add s.clock { p with examinationTime := s.clock } }) := by
          unfold EndExamination
          dsimp only [VarStream.next]
          rw [if_neg hdis]
        obtain ⟨-, -, -, -, -, -, -, -, -, -, -, e1dd, -, -, -, -, -, -, -, -, -, -, -, -,
          -, -, -, -⟩ := processExaminationAux_frame
            (ProcessTreatment
              { s with
                examinationResource := s.examinationResource.free s.clock
                rng := { s.rng with dischargeDecision :=
                  ⟨s.rng.dischargeDecision.vals, s.rng.dischargeDecision.idx + 1⟩ }
                treatmentQueue :=
                  s.treatmentQueue.add s.clock
                    { p with examinationTime := s.clock } }).examinationQueue.numQueue
            (ProcessTreatment
              { s with
                examinationResource := s.examinationResource.free s.clock
                rng := { s.rng with dischargeDecision :=
                  ⟨s.rng.dischargeDecision.vals, s.rng.dischargeDecision.idx + 1⟩ }
                treatmentQueue :=
                  s.treatmentQueue.add s.clock { p with examinationTime := s.clock } })
        obtain ⟨-, -, -, -, -, -, -, -, -, -, -, w2dd, -, -, -, -, -, -, -, -, -, -, -, -,
          -, -, -, -⟩ := processTreatmentAux_frame
            ({ s with
                examinationResource := s.examinationResource.free s.clock
                rng := { s.rng with dischargeDecision :=
                  ⟨s.rng.dischargeDecision.vals, s.rng.dischargeDecision.idx + 1⟩ }
                treatmentQueue :=
                  s.treatmentQueue.add s.clock
                    { p with examinationTime := s.clock } } : SimState).treatmentQueue.numQueue
            { s with
              examinationResource := s.examinationResource.free s.clock
              rng := { s.rng with dischargeDecision :=
                ⟨s.rng.dischargeDecision.vals, s.rng.dischargeDecision.idx + 1⟩ }
              treatmentQueue :=
                s.treatmentQueue.add s.clock { p with examinationTime := s.clock } }
        rw [hrw]
        exact (congrArg VarStream.idx e1dd).trans (congrArg VarStream.idx w2dd)

/-- Witness state for C8: a fresh state with one pending arrival. -/
def routingWitState : SimState :=
  { freshState (constRNG 1) with
    calendar := [{ eventType := .Arrival, eventTime := 5, whichObject := none }] }

theorem patient_routing_witness :
    routingInv routingWitState ∧ routingInv (runLoop 4 routingWitState) := by
  have h : routingInv routingWitState := by
    refine ⟨by simp [routingWitState, freshState, FIFOQueue.init], by
      simp [routingWitState, freshState, FIFOQueue.init], ?_⟩
    intro e he
    rcases List.mem_singleton.mp he with rfl
    rfl
  exact ⟨h, patient_routing.2.2.2.2 routingWitState h 4⟩

end Clinic
